import Mathlib

/-!
The `gpio` command of U-Boot (`common/cmd_gpio.c`).

Shallow embedding of `name_to_gpio`, `show_gpio`, `do_gpio_status` and `do_gpio`.

* C strings are lists of characters (the bytes before the terminating NUL); a
  `const char *` that may be `NULL` is an `Option`.
* `int` values are `Int`; `unsigned int` and `ulong` values are `Nat` (32-bit ARM, so
  both are reduced modulo `2 ^ 32` where a conversion happens).
* The GPIO driver layer, the uclass registry and `simple_strtoul` are not part of the
  file; they are parameters (`Extern`, `udevice`).
* Driver calls are recorded in a call log and console writes in an event log, so that
  statements about "what was called" and "what was printed" can be made.
-/

namespace CmdGpio

/-! ## C helpers -/

/-- A C string without its terminating NUL. -/
abbrev CStr := List Char

/-- Conversion of an `int` to a 32-bit unsigned type (`unsigned int`, `ulong`). -/
def to_ulong (v : Int) : Nat := (v % 2 ^ 32).toNat

/-- Conversion of a 32-bit unsigned value to `int` (two's complement). -/
def to_int (u : Nat) : Int :=
  if u % 2 ^ 32 < 2 ^ 31 then ((u % 2 ^ 32 : Nat) : Int)
  else ((u % 2 ^ 32 : Nat) : Int) - 2 ^ 32

/-- The C library `strcmp`: zero iff the strings are equal, otherwise the difference
of the first differing characters (the terminating NUL counts as 0). -/
def strcmp : CStr → CStr → Int
  | [], [] => 0
  | [], b :: _ => -(b.toNat : Int)
  | a :: _, [] => (a.toNat : Int)
  | a :: as, b :: bs => if a = b then strcmp as bs else (a.toNat : Int) - (b.toNat : Int)

/-- The C library `strncmp`: as `strcmp`, on at most `n` characters. -/
def strncmp : CStr → CStr → Nat → Int
  | _, _, 0 => 0
  | [], [], _ + 1 => 0
  | [], b :: _, _ + 1 => -(b.toNat : Int)
  | a :: _, [], _ + 1 => (a.toNat : Int)
  | a :: as, b :: bs, n + 1 =>
      if a = b then strncmp as bs n else (a.toNat : Int) - (b.toNat : Int)

/-! ## Constants -/

/-- Modelled from the spec: `EBUSY` of `errno.h`, the code by which the driver's
acquire operation reports "already held"; the header is not part of the sources, and
only `-EBUSY ≠ 0` matters. -/
def EBUSY : Int := 16

/-- Modelled from the spec: `CMD_RET_USAGE` of `command.h`, the distinguished
usage-error exit code (-1); the header is not part of the sources. -/
def CMD_RET_USAGE : Int := -1

/-- Modelled from the spec: `enum gpio_func_t` of `asm/gpio.h`, the five pin
classifications in the order of the label table `gpio_function`. -/
def GPIOF_INPUT : Int := 0
/-- Modelled from the spec: classification "output" of `enum gpio_func_t`. -/
def GPIOF_OUTPUT : Int := 1
/-- Modelled from the spec: classification "unused" of `enum gpio_func_t`. -/
def GPIOF_UNUSED : Int := 2
/-- Modelled from the spec: classification "unknown" of `enum gpio_func_t`. -/
def GPIOF_UNKNOWN : Int := 3
/-- Modelled from the spec: classification "func" of `enum gpio_func_t`. -/
def GPIOF_FUNC : Int := 4
/-- Modelled from the spec: the number of classifications of `enum gpio_func_t`. -/
def GPIOF_COUNT : Nat := 5

/-- Sub-commands, `enum gpio_cmd`. -/
inductive gpio_cmd where
  | GPIO_INPUT
  | GPIO_SET
  | GPIO_CLEAR
  | GPIO_TOGGLE
  deriving DecidableEq, Repr

/-- The label table `gpio_function[GPIOF_COUNT]`. -/
def gpio_function : List CStr :=
  ["input".data, "output".data, "unused".data, "unknown".data, "func".data]

/-- Flag `FLAG_SHOW_ALL = 1 << 0`. -/
def FLAG_SHOW_ALL : Nat := 1
/-- Flag `FLAG_SHOW_BANK = 1 << 1`. -/
def FLAG_SHOW_BANK : Nat := 2
/-- Flag `FLAG_SHOW_NEWLINE = 1 << 2`. -/
def FLAG_SHOW_NEWLINE : Nat := 4

/-- The C expression `flags & ~m` on the 32-bit pattern of an `int`. -/
def clear_flag (flags m : Nat) : Nat := flags &&& (0xFFFFFFFF ^^^ m)

/-! ## Driver model devices and the status trace -/

/-- A GPIO bank device of the uclass: the result of `gpio_get_bank_info` (name, which
may be `NULL`, and pin count) and its `dm_gpio_ops` (`get_function` and `get_state`
are optional operations). -/
structure udevice where
  bank_name : Option CStr
  gpio_count : Int
  get_function : Option (Int → Int)
  get_state : Option (Int → Int × CStr)
  get_value : Int → Int

/-- The text of a pin's status line. -/
inductive Line where
  /-- the buffer filled in by `ops->get_state` -/
  | state (buf : CStr)
  /-- the arguments of `sprintf(buf, "%s%u: %8s %d", ...)`; the label is the entry
  `gpio_function[func]` (`none` would be a read outside the table) -/
  | fields (bank_name : Option CStr) (offset : Int) (label : Option CStr) (value : Int)
  deriving DecidableEq

/-- Events of a run: entries into `show_gpio` and the console writes. Events of
`show_gpio` carry the position of the device in the uclass list. -/
inductive Ev where
  /-- `show_gpio(dev, bank_name, offset, &flags)` was entered (not a console write) -/
  | show_gpio (dev : Nat) (offset : Int)
  /-- `putc('\n')`, the separator between banks -/
  | newline (dev : Nat)
  /-- `printf("Bank %s:\n", bank_name)` -/
  | bank (dev : Nat) (bank_name : CStr)
  /-- `puts("<unknown>")` -/
  | unknown (dev : Nat) (offset : Int)
  /-- `puts(buf); puts("\n")` -/
  | pin (dev : Nat) (offset : Int) (line : Line)
  /-- `printf("gpio: requesting pin %u failed\n", gpio)` -/
  | request_failed (gpio : Nat)
  /-- `printf("gpio: pin %s (gpio %i) value is %lu\n", str_gpio, gpio, value)` -/
  | value_is (str_gpio : CStr) (gpio : Nat) (value : Nat)
  /-- the message of `cmd_process_error` -/
  | cmd_failed (err : Int)
  deriving DecidableEq

/-- The device an event of `show_gpio` belongs to. -/
def Ev.dev? : Ev → Option Nat
  | .show_gpio d _ => some d
  | .newline d => some d
  | .bank d _ => some d
  | .unknown d _ => some d
  | .pin d _ _ => some d
  | _ => none

/-- Is the event a console write (everything but the entry marker)? -/
def Ev.isOutput : Ev → Bool
  | .show_gpio _ _ => false
  | _ => true

/-- Is the event a pin's status line? -/
def Ev.isPinLine : Ev → Bool
  | .pin _ _ _ => true
  | _ => false

/-- Is the event what `show_gpio` prints for the pin itself: its status line, or the
text `<unknown>`? -/
def Ev.isPinEntry : Ev → Bool
  | .pin _ _ _ => true
  | .unknown _ _ => true
  | _ => false

/-- Is the event a bank header? -/
def Ev.isHeader : Ev → Bool
  | .bank _ _ => true
  | _ => false

/-- The number of newline characters an event writes to the console. -/
def Ev.newlines : Ev → Nat
  | .show_gpio _ _ => 0
  | .unknown _ _ => 0
  | _ => 1

/-! ## `show_gpio` -/

/-- Lines 47-57 of `show_gpio`: the classification `func` of a pin. -/
def pin_func (dev : udevice) (offset : Int) : Int :=
  match dev.get_function with
  | some get_function =>
      if get_function offset ≥ 0 ∧ get_function offset < (gpio_function.length : Int)
      then get_function offset else GPIOF_UNKNOWN
  | none => GPIOF_UNKNOWN

/-- Lines 60-67 of `show_gpio`: the bank header, preceded by a newline when one is
pending. Returns the new flags and the events. -/
def show_header (i : Nat) (bank_name : Option CStr) (flags : Nat) : Nat × List Ev :=
  match bank_name with
  | some name =>
      if flags &&& FLAG_SHOW_BANK ≠ 0 then
        if flags &&& FLAG_SHOW_NEWLINE ≠ 0 then
          (clear_flag (clear_flag flags FLAG_SHOW_NEWLINE) FLAG_SHOW_BANK,
            [Ev.newline i, Ev.bank i name])
        else (clear_flag flags FLAG_SHOW_BANK, [Ev.bank i name])
      else (flags, [])
  | none => (flags, [])

/-- Lines 68-81 of `show_gpio`: what is printed for the pin itself. -/
def show_line (i : Nat) (dev : udevice) (bank_name : Option CStr) (offset : Int) : Ev :=
  match dev.get_state with
  | some get_state =>
      if (get_state offset).1 ≠ 0 then Ev.unknown i offset
      else Ev.pin i offset (Line.state (get_state offset).2)
  | none =>
      Ev.pin i offset (Line.fields bank_name offset
        (gpio_function.get? (pin_func dev offset).toNat) (dev.get_value offset))

/-- The function `show_gpio`; `i` is the position of `dev` in the uclass list.
Returns the new value of `*flagsp` and the events. -/
def show_gpio (i : Nat) (dev : udevice) (bank_name : Option CStr) (offset : Int)
    (flags : Nat) : Nat × List Ev :=
  if flags &&& FLAG_SHOW_ALL = 0 ∧ pin_func dev offset = GPIOF_UNUSED then
    (flags, [Ev.show_gpio i offset])
  else
    ((show_header i bank_name flags).1,
      Ev.show_gpio i offset :: (show_header i bank_name flags).2
        ++ [show_line i dev bank_name offset])

/-! ## `do_gpio_status` -/

/-- The loop `for (offset = 0; offset < num_bits; offset++) show_gpio(...)`, over the
offsets still to visit. -/
def show_pins (i : Nat) (dev : udevice) (bank_name : Option CStr) :
    List Int → Nat → Nat × List Ev
  | [], flags => (flags, [])
  | offset :: rest, flags =>
      ((show_pins i dev bank_name rest (show_gpio i dev bank_name offset flags).1).1,
        (show_gpio i dev bank_name offset flags).2
          ++ (show_pins i dev bank_name rest (show_gpio i dev bank_name offset flags).1).2)

/-- The offsets `0, 1, ..., num_bits - 1` visited by the loop of line 118. -/
def offsets (num_bits : Int) : List Int :=
  (List.range num_bits.toNat).map Int.ofNat

/-- The condition of line 108: no filter, no bank name, or the bank name is matched
by `strncmp` on its length. -/
def bank_matches (gpio_name bank_name : Option CStr) : Bool :=
  match gpio_name, bank_name with
  | none, _ => true
  | some _, none => true
  | some g, some b => strncmp g b b.length = 0

/-- Lines 106-123: the pins shown for one bank with a nonzero pin count. -/
def status_pins (simple_strtoul : CStr → Nat → Nat) (gpio_name : Option CStr)
    (i : Nat) (dev : udevice) (flags : Nat) : Nat × List Ev :=
  if bank_matches gpio_name dev.bank_name then
    match gpio_name with
    | some g =>
        if g.drop ((dev.bank_name.map List.length).getD 0) ≠ [] then
          show_gpio i dev dev.bank_name
            (to_int (simple_strtoul (g.drop ((dev.bank_name.map List.length).getD 0)) 10))
            flags
        else show_pins i dev dev.bank_name (offsets dev.gpio_count) flags
    | none => show_pins i dev dev.bank_name (offsets dev.gpio_count) flags
  else (flags, [])

/-- Lines 100-102: the flags at the start of a bank. -/
def bank_flags (all : Bool) (flags : Nat) : Nat :=
  if all then (flags ||| FLAG_SHOW_BANK) ||| FLAG_SHOW_ALL else flags ||| FLAG_SHOW_BANK

/-- Lines 124-126: a newline becomes pending once a bank header was printed. -/
def end_flags (flags : Nat) : Nat :=
  if flags &&& FLAG_SHOW_BANK = 0 then flags ||| FLAG_SHOW_NEWLINE else flags

/-- The body of the loop of `do_gpio_status` for the device at position `i`. -/
def status_bank (simple_strtoul : CStr → Nat → Nat) (all : Bool)
    (gpio_name : Option CStr) (i : Nat) (dev : udevice) (flags : Nat) : Nat × List Ev :=
  if dev.gpio_count = 0 then (bank_flags all flags, [])
  else
    (end_flags (status_pins simple_strtoul gpio_name i dev (bank_flags all flags)).1,
      (status_pins simple_strtoul gpio_name i dev (bank_flags all flags)).2)

/-- The loop of `do_gpio_status` over the devices from position `i` on. -/
def status_loop (simple_strtoul : CStr → Nat → Nat) (all : Bool)
    (gpio_name : Option CStr) : Nat → List udevice → Nat → Nat × List Ev
  | _, [], flags => (flags, [])
  | i, dev :: rest, flags =>
      ((status_loop simple_strtoul all gpio_name (i + 1) rest
          (status_bank simple_strtoul all gpio_name i dev flags).1).1,
        (status_bank simple_strtoul all gpio_name i dev flags).2
          ++ (status_loop simple_strtoul all gpio_name (i + 1) rest
                (status_bank simple_strtoul all gpio_name i dev flags).1).2)

/-- Line 92: an empty filter string is no filter. -/
def norm_name (gpio_name : Option CStr) : Option CStr :=
  match gpio_name with
  | some [] => none
  | g => g

/-- The function `do_gpio_status`. The uclass enumeration is given by the list of the
devices it yields and the return code `uc_ret` of the `uclass_first_device` or
`uclass_next_device` call that ended it. Returns `ret` and the events. -/
def do_gpio_status (simple_strtoul : CStr → Nat → Nat) (devs : List udevice)
    (uc_ret : Int) (all : Bool) (gpio_name : Option CStr) : Int × List Ev :=
  (uc_ret, (status_loop simple_strtoul all (norm_name gpio_name) 0 devs 0).2)

/-! ## The driver layer and `do_gpio` -/

/-- Build configuration: the macros `CONFIG_DM_GPIO` and `gpio_status`. -/
structure Config where
  CONFIG_DM_GPIO : Bool
  gpio_status : Bool

/-- The collaborators of `do_gpio` that are not part of the file, over a state `σ` of
the driver layer and the hardware: `simple_strtoul(cp, NULL, base)`, the numbered GPIO
interface of `asm/gpio.h`, the uclass enumeration of the GPIO banks (devices and final
return code) and the board's `gpio_status()` macro. -/
structure Extern (σ : Type) where
  simple_strtoul : CStr → Nat → Nat
  gpio_lookup_name : σ → CStr → Int × Nat
  gpio_request : σ → Nat → Int × σ
  gpio_direction_input : σ → Nat → Int × σ
  gpio_get_value : σ → Nat → Int
  gpio_direction_output : σ → Nat → Int → Int × σ
  gpio_free : σ → Nat → Int × σ
  uclass : σ → List udevice × Int
  gpio_status : σ → σ

/-- Calls into the driver layer, with their results. -/
inductive Call where
  | lookup_name (name : CStr) (ret : Int) (gpio : Nat)
  | name_to_gpio (name : CStr) (ret : Int)
  | request (gpio : Nat) (ret : Int)
  | direction_input (gpio : Nat) (ret : Int)
  | get_value (gpio : Nat) (ret : Int)
  | direction_output (gpio : Nat) (value : Int) (ret : Int)
  | free (gpio : Nat)
  | enumerate (ret : Int)
  | gpio_status
  deriving DecidableEq

/-- The outcome of a command: exit code, final driver state, driver calls in order and
console events in order. -/
structure Result (σ : Type) where
  ret : Int
  state : σ
  calls : List Call
  out : List Ev

/-- The default (weak) `name_to_gpio`: `simple_strtoul(name, NULL, 10)` as an `int`. -/
def name_to_gpio (simple_strtoul : CStr → Nat → Nat) (name : CStr) : Int :=
  to_int (simple_strtoul name 10)

/-- Modelled from the spec: `cmd_process_error` of `common/command.c`, which maps a
driver error to the exit code: 0 on success, nonzero (1, with a console message) on an
error. -/
def cmd_process_error (err : Int) : Int × List Ev :=
  if err ≠ 0 then (1, [Ev.cmd_failed err]) else (0, [])

/-- The label `show_usage`: `return CMD_RET_USAGE`. -/
def show_usage {σ : Type} (s : σ) : Result σ :=
  { ret := CMD_RET_USAGE, state := s, calls := [], out := [] }

/-- Lines 144-158 of `do_gpio`: `none` when `argc < 2`, otherwise `str_cmd`, the flag
`all` and `str_gpio` (`NULL` when no argument is left). -/
def parse_args (cfg : Config) (argv : List CStr) : Option (CStr × Bool × Option CStr) :=
  match argv with
  | _ :: str_cmd :: rest =>
      match rest with
      | a :: rest1 =>
          if cfg.CONFIG_DM_GPIO ∧ strcmp a "-a".data = 0 then
            some (str_cmd, true, rest1.head?)
          else some (str_cmd, false, some a)
      | [] => some (str_cmd, false, none)
  | _ => none

/-- Lines 175-181: the behaviour is selected by the first character of the verb. -/
def parse_behavior (str_cmd : CStr) : Option gpio_cmd :=
  match str_cmd.head? with
  | some c =>
      if c = 'i' then some gpio_cmd.GPIO_INPUT
      else if c = 's' then some gpio_cmd.GPIO_SET
      else if c = 'c' then some gpio_cmd.GPIO_CLEAR
      else if c = 't' then some gpio_cmd.GPIO_TOGGLE
      else none
  | none => none

/-- Lines 220-226: report the value, release the pin unless the request returned
`-EBUSY`, and return the value. -/
def report_and_free {σ : Type} (E : Extern σ) (s : σ) (str_gpio : CStr) (gpio : Nat)
    (ret : Int) (value : Nat) (calls : List Call) : Result σ :=
  if ret ≠ -EBUSY then
    { ret := to_int value, state := (E.gpio_free s gpio).2,
      calls := calls ++ [Call.free gpio], out := [Ev.value_is str_gpio gpio value] }
  else
    { ret := to_int value, state := s, calls := calls,
      out := [Ev.value_is str_gpio gpio value] }

/-- Lines 211-219: drive the pin to `value`, then report. -/
def drive {σ : Type} (E : Extern σ) (s : σ) (str_gpio : CStr) (gpio : Nat)
    (ret : Int) (value : Nat) (calls : List Call) : Result σ :=
  report_and_free E (E.gpio_direction_output s gpio (to_int value)).2 str_gpio gpio ret value
    (calls ++ [Call.direction_output gpio (to_int value)
      (E.gpio_direction_output s gpio (to_int value)).1])

/-- Lines 207-226 of `do_gpio`: set the direction and execute the command; `ret` is
the result of `gpio_request` and `calls` the calls made so far. The `default` label of
the inner `switch` cannot be reached: `GPIO_INPUT` is handled by the `if`. -/
def exec_cmd {σ : Type} (E : Extern σ) (s : σ) (sub_cmd : gpio_cmd) (str_gpio : CStr)
    (gpio : Nat) (ret : Int) (calls : List Call) : Result σ :=
  match sub_cmd with
  | gpio_cmd.GPIO_INPUT =>
      report_and_free E (E.gpio_direction_input s gpio).2 str_gpio gpio ret
        (to_ulong (E.gpio_get_value (E.gpio_direction_input s gpio).2 gpio))
        (calls ++ [Call.direction_input gpio (E.gpio_direction_input s gpio).1,
          Call.get_value gpio (E.gpio_get_value (E.gpio_direction_input s gpio).2 gpio)])
  | gpio_cmd.GPIO_SET => drive E s str_gpio gpio ret 1 calls
  | gpio_cmd.GPIO_CLEAR => drive E s str_gpio gpio ret 0 calls
  | gpio_cmd.GPIO_TOGGLE =>
      drive E s str_gpio gpio ret (if E.gpio_get_value s gpio = 0 then 1 else 0)
        (calls ++ [Call.get_value gpio (E.gpio_get_value s gpio)])

/-- Lines 200-226 of `do_gpio`: grab the pin, then execute the command. -/
def request_and_exec {σ : Type} (E : Extern σ) (s : σ) (sub_cmd : gpio_cmd)
    (str_gpio : CStr) (gpio : Nat) (calls : List Call) : Result σ :=
  if (E.gpio_request s gpio).1 ≠ 0 ∧ (E.gpio_request s gpio).1 ≠ -EBUSY then
    { ret := -1, state := (E.gpio_request s gpio).2,
      calls := calls ++ [Call.request gpio (E.gpio_request s gpio).1],
      out := [Ev.request_failed gpio] }
  else
    exec_cmd E (E.gpio_request s gpio).2 sub_cmd str_gpio gpio (E.gpio_request s gpio).1
      (calls ++ [Call.request gpio (E.gpio_request s gpio).1])

/-- Lines 183-226 of `do_gpio`: turn the name into a GPIO number (by
`gpio_lookup_name` with `CONFIG_DM_GPIO`, by `name_to_gpio` otherwise; the test
`gpio < 0` on the `unsigned int` is never true), then request and execute. -/
def mutate {σ : Type} (cfg : Config) (E : Extern σ) (s : σ) (sub_cmd : gpio_cmd)
    (str_gpio : CStr) : Result σ :=
  if cfg.CONFIG_DM_GPIO then
    if (E.gpio_lookup_name s str_gpio).1 ≠ 0 then
      { ret := (cmd_process_error (E.gpio_lookup_name s str_gpio).1).1, state := s,
        calls := [Call.lookup_name str_gpio (E.gpio_lookup_name s str_gpio).1
          (E.gpio_lookup_name s str_gpio).2],
        out := (cmd_process_error (E.gpio_lookup_name s str_gpio).1).2 }
    else
      request_and_exec E s sub_cmd str_gpio (E.gpio_lookup_name s str_gpio).2
        [Call.lookup_name str_gpio (E.gpio_lookup_name s str_gpio).1
          (E.gpio_lookup_name s str_gpio).2]
  else
    request_and_exec E s sub_cmd str_gpio
      (to_ulong (name_to_gpio E.simple_strtoul str_gpio))
      [Call.name_to_gpio str_gpio (name_to_gpio E.simple_strtoul str_gpio)]

/-- Lines 159-169 of `do_gpio`: the verb `status`. -/
def status {σ : Type} (cfg : Config) (E : Extern σ) (s : σ) (all : Bool)
    (str_gpio : Option CStr) : Result σ :=
  if cfg.gpio_status then
    { ret := 0, state := E.gpio_status s, calls := [Call.gpio_status], out := [] }
  else if cfg.CONFIG_DM_GPIO then
    { ret := (cmd_process_error
        (do_gpio_status E.simple_strtoul (E.uclass s).1 (E.uclass s).2 all str_gpio).1).1,
      state := s,
      calls := [Call.enumerate (E.uclass s).2],
      out := (do_gpio_status E.simple_strtoul (E.uclass s).1 (E.uclass s).2 all str_gpio).2
        ++ (cmd_process_error
          (do_gpio_status E.simple_strtoul (E.uclass s).1 (E.uclass s).2 all str_gpio).1).2 }
  else show_usage s

/-- The command function `do_gpio`, on the argument vector `argv` (`argc` is its
length) in driver state `s`. -/
def do_gpio {σ : Type} (cfg : Config) (E : Extern σ) (s : σ) (argv : List CStr) :
    Result σ :=
  match parse_args cfg argv with
  | none => show_usage s
  | some (str_cmd, all, str_gpio) =>
      if strcmp str_cmd "status".data = 0 then status cfg E s all str_gpio
      else
        match str_gpio with
        | none => show_usage s
        | some str_gpio =>
            match parse_behavior str_cmd with
            | none => show_usage s
            | some sub_cmd => mutate cfg E s sub_cmd str_gpio

/-! ## A reference driver

A simple driver layer in which reading a pin returns the level it was last driven to,
used to run the command on concrete inputs. -/

/-- State of one pin of the reference driver. -/
structure Pin where
  requested : Bool
  is_output : Bool
  level : Int
  deriving DecidableEq

/-- Modelled from the spec: the plain unsigned decimal integer at the start of a
string, 0 when the string has no leading digit (the function `simple_strtoul` of
`lib/vsprintf.c` is not part of the sources). -/
def parse_decimal : CStr → Nat → Nat
  | [], acc => acc
  | c :: cs, acc =>
      if c.isDigit then parse_decimal cs (10 * acc + (c.toNat - 48)) else acc

/-- The reference driver over the state `Nat → Pin`: every name resolves to the number
it starts with, a request succeeds on a pin that is not held and reports `-EBUSY` on
one that is, reads return the level last driven, and `devs` is the bank registry. -/
def sim (devs : List udevice) : Extern (Nat → Pin) where
  simple_strtoul := fun cp _ => parse_decimal cp 0
  gpio_lookup_name := fun _ name => (0, parse_decimal name 0)
  gpio_request := fun s g =>
    if (s g).requested then (-EBUSY, s)
    else (0, fun n => if n = g then { s g with requested := true } else s n)
  gpio_direction_input := fun s g =>
    (0, fun n => if n = g then { s g with is_output := false } else s n)
  gpio_get_value := fun s g => (s g).level
  gpio_direction_output := fun s g v =>
    (0, fun n => if n = g then { s g with is_output := true, level := v } else s n)
  gpio_free := fun s g =>
    (0, fun n => if n = g then { s g with requested := false } else s n)
  uclass := fun _ => (devs, 0)
  gpio_status := fun s => s

/-- All pins of the reference driver not held, inputs, and low. -/
def pins_idle : Nat → Pin := fun _ => { requested := false, is_output := false, level := 0 }

/-! ## Auxiliary notions for the statements -/

/-- The offsets for which lines 113-122 call `show_gpio` on a matching bank: the one
parsed from the rest of the filter when the filter goes on after the bank name, all
offsets `0 .. gpio_count - 1` otherwise. -/
def shown_offsets (simple_strtoul : CStr → Nat → Nat) (gpio_name : Option CStr)
    (dev : udevice) : List Int :=
  match gpio_name with
  | some g =>
      if g.drop ((dev.bank_name.map List.length).getD 0) ≠ [] then
        [to_int (simple_strtoul (g.drop ((dev.bank_name.map List.length).getD 0)) 10)]
      else offsets dev.gpio_count
  | none => offsets dev.gpio_count

/-- Invariants of the render flags: `I` holds at the head of the loop over the banks,
`J` holds whenever `show_gpio` is entered. -/
structure FlagInv (all : Bool) (I J : Nat → Prop) : Prop where
  enter : ∀ f, I f → J (bank_flags all f)
  shown : ∀ i dev bn o f, J f → J (show_gpio i dev bn o f).1
  leave : ∀ f, J f → I (end_flags f)
  skip : ∀ f, I f → I (bank_flags all f)

/-! ## Concrete banks, used to run `do_gpio_status` -/

/-- A `simple_strtoul` that reads the leading decimal digits, whatever the base. -/
def strtoul_dec : CStr → Nat → Nat := fun cp _ => parse_decimal cp 0

/-- Bank `A` with 3 pins: pin 1 is unused, the others are inputs reading 1. -/
def bankA : udevice where
  bank_name := some "A".data
  gpio_count := 3
  get_function := some (fun o => if o = 1 then GPIOF_UNUSED else GPIOF_INPUT)
  get_state := none
  get_value := fun _ => 1

/-- Bank `AB` with 2 pins reading 0, without `get_function`. -/
def bankAB : udevice where
  bank_name := some "AB".data
  gpio_count := 2
  get_function := none
  get_state := none
  get_value := fun _ => 0

/-- Bank `E` without pins. -/
def bankE : udevice where
  bank_name := some "E".data
  gpio_count := 0
  get_function := none
  get_state := none
  get_value := fun _ => 0

/-- Bank `X` with 1 pin whose `get_state` reports an error. -/
def bankX : udevice where
  bank_name := some "X".data
  gpio_count := 1
  get_function := none
  get_state := some (fun _ => (-1, []))
  get_value := fun _ => 0

/-- The offset of the pin a pin entry (or an entry into `show_gpio`) is about. -/
def Ev.offset? : Ev → Option Int
  | .show_gpio _ o => some o
  | .unknown _ o => some o
  | .pin _ o _ => some o
  | _ => none

/-- What `show_gpio` prints for the pins themselves when every pin of every bank from
position `i` on is shown once: banks in the order of the list, offsets ascending from 0
to `gpio_count - 1` within a bank. -/
def all_pin_entries : Nat → List udevice → List Ev
  | _, [] => []
  | i, dev :: rest =>
      (offsets dev.gpio_count).map (show_line i dev dev.bank_name)
        ++ all_pin_entries (i + 1) rest

/-- The pin operand `str_gpio` resolves to the GPIO number `gpio` (lines 183-199):
with `CONFIG_DM_GPIO`, `gpio_lookup_name` returns 0 and stores `gpio`; otherwise
`name_to_gpio` yields `gpio` (as an `unsigned int`). -/
def resolves {σ : Type} (cfg : Config) (E : Extern σ) (s : σ) (str_gpio : CStr)
    (gpio : Nat) : Prop :=
  (cfg.CONFIG_DM_GPIO = true →
    (E.gpio_lookup_name s str_gpio).1 = 0 ∧ (E.gpio_lookup_name s str_gpio).2 = gpio) ∧
  (cfg.CONFIG_DM_GPIO = false →
    to_ulong (name_to_gpio E.simple_strtoul str_gpio) = gpio)

/-- The call by which lines 183-199 resolve the pin operand. -/
def lookup_call {σ : Type} (cfg : Config) (E : Extern σ) (s : σ) (str_gpio : CStr) :
    Call :=
  if cfg.CONFIG_DM_GPIO then
    Call.lookup_name str_gpio (E.gpio_lookup_name s str_gpio).1
      (E.gpio_lookup_name s str_gpio).2
  else Call.name_to_gpio str_gpio (name_to_gpio E.simple_strtoul str_gpio)

/-- A driver layer in which reading a pin returns the level it was last driven to:
`gpio_get_value` after `gpio_direction_output` with level 0 or 1 returns that level, and
neither `gpio_request` nor `gpio_free` changes what `gpio_get_value` returns. -/
structure ReadsLastDriven {σ : Type} (E : Extern σ) : Prop where
  drive : ∀ s g v, v = 0 ∨ v = 1 →
    E.gpio_get_value (E.gpio_direction_output s g v).2 g = v
  request : ∀ s g, E.gpio_get_value (E.gpio_request s g).2 g = E.gpio_get_value s g
  free : ∀ s g, E.gpio_get_value (E.gpio_free s g).2 g = E.gpio_get_value s g

/-- Is the call a `gpio_request` or a `gpio_free`? -/
def Call.isAcquire : Call → Bool
  | .request _ _ => true
  | .free _ => true
  | _ => false

/-- Is the call a change of direction (`gpio_direction_input` or
`gpio_direction_output`) of the pin `gpio`? -/
def Call.isDirection (gpio : Nat) : Call → Bool
  | .direction_input g _ => g == gpio
  | .direction_output g _ _ => g == gpio
  | _ => false

/-- The reference driver's pins when every read reports the error value -1. -/
def pins_fault : Nat → Pin := fun _ =>
  { requested := false, is_output := false, level := -1 }

/-- The reference driver with faults: `gpio_lookup_name` returns `lookup_ret`, and a
nonzero `request_ret`, `input_ret` or `output_ret` is what `gpio_request`,
`gpio_direction_input` or `gpio_direction_output` returns, leaving the state as it
is. -/
def sim_faulty (lookup_ret request_ret input_ret output_ret : Int) :
    Extern (Nat → Pin) :=
  { sim [] with
    gpio_lookup_name := fun _ name => (lookup_ret, parse_decimal name 0)
    gpio_request := fun s g =>
      if request_ret ≠ 0 then (request_ret, s) else (sim []).gpio_request s g
    gpio_direction_input := fun s g =>
      if input_ret ≠ 0 then (input_ret, s) else (sim []).gpio_direction_input s g
    gpio_direction_output := fun s g v =>
      if output_ret ≠ 0 then (output_ret, s) else (sim []).gpio_direction_output s g v }

/-- Bank `A` with 8 pins reading 0, without `get_function`. -/
def bankA8 : udevice where
  bank_name := some "A".data
  gpio_count := 8
  get_function := none
  get_state := none
  get_value := fun _ => 0

/-- Is the show-all flag set in the render flags? -/
def show_all (flags : Nat) : Bool := decide (flags &&& FLAG_SHOW_ALL ≠ 0)

/-- Is the bank header pending in the render flags? -/
def bank_pending (flags : Nat) : Bool := decide (flags &&& FLAG_SHOW_BANK ≠ 0)

/-- Is the separating newline pending in the render flags? -/
def newline_pending (flags : Nat) : Bool := decide (flags &&& FLAG_SHOW_NEWLINE ≠ 0)

/-- Is the event the separating newline, the `putc('\n')` of line 62? -/
def Ev.isNewline : Ev → Bool
  | .newline _ => true
  | _ => false

/-- Is the event the header of the bank at position `i`? -/
def Ev.isHeaderOf (i : Nat) : Ev → Bool
  | .bank d _ => d == i
  | _ => false

/-- The events of the pins of a bank, headers apart, as the rendering policy describes
them: each shown offset is entered, and its pin entry is printed unless show-all is
off and the pin is classified unused. -/
def pin_part (all : Bool) (i : Nat) (dev : udevice) (bn : Option CStr) :
    List Int → List Ev
  | [] => []
  | o :: rest =>
      (if all = false ∧ pin_func dev o = GPIOF_UNUSED then [Ev.show_gpio i o]
        else [Ev.show_gpio i o, show_line i dev bn o])
        ++ pin_part all i dev bn rest

/-- Put the events `hdr` right before the first pin entry of a list of events; a list
without pin entry is left as it is. -/
def insert_header (hdr : List Ev) : List Ev → List Ev
  | [] => []
  | e :: rest => if e.isPinEntry then hdr ++ e :: rest else e :: insert_header hdr rest

/-- The header of the bank at position `i`, preceded by the separating newline when
`sep`. -/
def header_events (i : Nat) (name : CStr) (sep : Bool) : List Ev :=
  (if sep then [Ev.newline i] else []) ++ [Ev.bank i name]

/-- Does the bank print its header: it has pins, matches the filter, has a name and
displays at least one pin? -/
def bank_has_header (simple_strtoul : CStr → Nat → Nat) (all : Bool)
    (gpio_name : Option CStr) (i : Nat) (dev : udevice) : Bool :=
  decide (dev.gpio_count ≠ 0) && bank_matches gpio_name dev.bank_name
    && dev.bank_name.isSome
    && (pin_part all i dev dev.bank_name
          (shown_offsets simple_strtoul gpio_name dev)).any Ev.isPinEntry

/-- The events of one bank as the rendering policy describes them: nothing for a bank
without pins or one the filter does not match; otherwise the events of its shown pins,
with the header of a named bank put right before its first pin entry, preceded by the
separating newline when `seen` (an earlier bank printed its header). -/
def bank_render (simple_strtoul : CStr → Nat → Nat) (all : Bool)
    (gpio_name : Option CStr) (seen : Bool) (i : Nat) (dev : udevice) : List Ev :=
  if dev.gpio_count ≠ 0 ∧ bank_matches gpio_name dev.bank_name = true then
    match dev.bank_name with
    | some name =>
        insert_header (header_events i name seen)
          (pin_part all i dev (some name) (shown_offsets simple_strtoul gpio_name dev))
    | none => pin_part all i dev none (shown_offsets simple_strtoul gpio_name dev)
  else []

/-- The events of a status report as the rendering policy describes them, for the
banks from position `i` on; `seen` says whether an earlier bank printed its header. -/
def status_render (simple_strtoul : CStr → Nat → Nat) (all : Bool)
    (gpio_name : Option CStr) : Bool → Nat → List udevice → List Ev
  | _, _, [] => []
  | seen, i, dev :: rest =>
      bank_render simple_strtoul all gpio_name seen i dev
        ++ status_render simple_strtoul all gpio_name
            (seen || bank_has_header simple_strtoul all gpio_name i dev) (i + 1) rest

/-- Does the bank at position `j` print its header, among the banks from position `k`
on? -/
def header_printed (simple_strtoul : CStr → Nat → Nat) (all : Bool)
    (gpio_name : Option CStr) : Nat → List udevice → Nat → Bool
  | _, [], _ => false
  | k, dev :: rest, j =>
      (decide (j = k) && bank_has_header simple_strtoul all gpio_name k dev)
        || header_printed simple_strtoul all gpio_name (k + 1) rest j

/-- Bank `U` with 2 pins, both classified unused. -/
def bankU : udevice where
  bank_name := some "U".data
  gpio_count := 2
  get_function := some (fun _ => GPIOF_UNUSED)
  get_state := none
  get_value := fun _ => 0

/-- Does the console write end its line, that is, is the last character it writes a
newline? Every write of the file does (`putc('\n')`, the formats that end in `\n`, and
`puts(buf); puts("\n")`) except `puts("<unknown>")` of line 72, after which line 73
returns; the message of `cmd_process_error` is a line of its own, and the entry marker
is not a write. -/
def Ev.endsLine : Ev → Bool
  | .show_gpio _ _ => false
  | .unknown _ _ => false
  | _ => true

/-- The separating newlines of a run that show as a blank line on the console: the
`putc('\n')` of line 62 leaves an empty line when the console is at the start of a
line, that is, when the write before it ended its line, and only ends the current line
otherwise. `fresh` says whether the console is at the start of a line before the first
event. -/
def blank_lines : Bool → List Ev → List Ev
  | _, [] => []
  | fresh, e :: rest =>
      if e.isOutput then
        (if e.isNewline && fresh then [e] else []) ++ blank_lines e.endsLine rest
      else blank_lines fresh rest

/-- Two consecutive events of a run: if the first is the separating newline of the bank
at position `i`, the second is the header of that bank. -/
def header_follows (a b : Ev) : Prop :=
  ∀ i, a = Ev.newline i → ∃ name, b = Ev.bank i name

/-! # Theorems -/

/-! ## Flags -/

theorem clear_flag_and (f m k : Nat) :
    clear_flag f m &&& k = f &&& ((0xFFFFFFFF ^^^ m) &&& k) := by
  unfold clear_flag; exact Nat.and_assoc _ _ _

theorem or_and_flag (f m k : Nat) : (f ||| m) &&& k = (f &&& k) ||| (m &&& k) :=
  Nat.and_distrib_right f m k

theorem or_eq_zero (a b : Nat) : a ||| b = 0 ↔ a = 0 ∧ b = 0 := by
  constructor
  · intro h
    constructor
    · apply Nat.eq_of_testBit_eq
      intro i
      have := congrArg (fun x => x.testBit i) h
      simp only [Nat.testBit_or, Nat.zero_testBit, Bool.or_eq_false_iff] at this
      simp [this.1]
    · apply Nat.eq_of_testBit_eq
      intro i
      have := congrArg (fun x => x.testBit i) h
      simp only [Nat.testBit_or, Nat.zero_testBit, Bool.or_eq_false_iff] at this
      simp [this.2]
  · rintro ⟨rfl, rfl⟩; rfl

theorem clear_bank_all (f : Nat) :
    clear_flag f FLAG_SHOW_BANK &&& FLAG_SHOW_ALL = f &&& FLAG_SHOW_ALL := by
  rw [clear_flag_and]; rfl

theorem clear_newline_all (f : Nat) :
    clear_flag f FLAG_SHOW_NEWLINE &&& FLAG_SHOW_ALL = f &&& FLAG_SHOW_ALL := by
  rw [clear_flag_and]; rfl

theorem bank_flags_false_all (f : Nat) :
    bank_flags false f &&& FLAG_SHOW_ALL = f &&& FLAG_SHOW_ALL := by
  simp only [bank_flags, Bool.false_eq_true, if_false, or_and_flag]
  show (f &&& FLAG_SHOW_ALL) ||| 0 = _
  simp

theorem bank_flags_true_all (f : Nat) : bank_flags true f &&& FLAG_SHOW_ALL ≠ 0 := by
  simp only [bank_flags, or_and_flag, if_true]
  intro h
  rw [or_eq_zero] at h
  exact absurd h.2 (by decide)

theorem end_flags_all (f : Nat) : end_flags f &&& FLAG_SHOW_ALL = f &&& FLAG_SHOW_ALL := by
  unfold end_flags
  split
  · rw [or_and_flag]
    show (f &&& FLAG_SHOW_ALL) ||| 0 = _
    simp
  · rfl

theorem show_header_all (i : Nat) (bank_name : Option CStr) (f : Nat) :
    (show_header i bank_name f).1 &&& FLAG_SHOW_ALL = f &&& FLAG_SHOW_ALL := by
  unfold show_header
  cases bank_name with
  | none => rfl
  | some name =>
    simp only
    split
    · split
      · simp only [clear_bank_all, clear_newline_all]
      · simp only [clear_bank_all]
    · rfl

theorem show_gpio_all (i : Nat) (dev : udevice) (bank_name : Option CStr) (offset : Int)
    (f : Nat) : (show_gpio i dev bank_name offset f).1 &&& FLAG_SHOW_ALL = f &&& FLAG_SHOW_ALL := by
  unfold show_gpio
  split
  · rfl
  · exact show_header_all i bank_name f

/-! ## Which pins `do_gpio_status` shows -/

theorem show_pins_single (i : Nat) (dev : udevice) (bn : Option CStr) (o : Int) (f : Nat) :
    show_pins i dev bn [o] f = show_gpio i dev bn o f := by
  simp [show_pins]

theorem status_pins_eq (st : CStr → Nat → Nat) (name : Option CStr) (i : Nat)
    (dev : udevice) (f : Nat) :
    status_pins st name i dev f =
      if bank_matches name dev.bank_name then
        show_pins i dev dev.bank_name (shown_offsets st name dev) f
      else (f, []) := by
  unfold status_pins shown_offsets
  split
  · cases name with
    | none => rfl
    | some g =>
      simp only
      split
      · rw [show_pins_single]
      · rfl
  · rfl

theorem show_pins_inv (J : Nat → Prop) (i : Nat) (dev : udevice) (bn : Option CStr)
    (hJ : ∀ o f, J f → J (show_gpio i dev bn o f).1) :
    ∀ (offs : List Int) (f : Nat), J f → J (show_pins i dev bn offs f).1
  | [], _, h => h
  | o :: rest, f, h => show_pins_inv J i dev bn hJ rest _ (hJ o f h)

theorem show_pins_mem (J : Nat → Prop) (i : Nat) (dev : udevice) (bn : Option CStr)
    (hJ : ∀ o f, J f → J (show_gpio i dev bn o f).1) :
    ∀ (offs : List Int) (f : Nat), J f → ∀ e ∈ (show_pins i dev bn offs f).2,
      ∃ o ∈ offs, ∃ f', J f' ∧ e ∈ (show_gpio i dev bn o f').2
  | [], _, _, e, he => by simp [show_pins] at he
  | o :: rest, f, h, e, he => by
    simp only [show_pins, List.mem_append] at he
    rcases he with he | he
    · exact ⟨o, List.mem_cons_self _ _, f, h, he⟩
    · obtain ⟨o', ho', f', hf', he'⟩ :=
        show_pins_mem J i dev bn hJ rest _ (hJ o f h) e he
      exact ⟨o', List.mem_cons_of_mem _ ho', f', hf', he'⟩

theorem status_bank_inv {all : Bool} {I J : Nat → Prop} (hF : FlagInv all I J)
    (st : CStr → Nat → Nat) (name : Option CStr) (i : Nat) (dev : udevice) (f : Nat)
    (h : I f) : I (status_bank st all name i dev f).1 := by
  unfold status_bank
  split
  · exact hF.skip f h
  · apply hF.leave
    rw [status_pins_eq]
    split
    · exact show_pins_inv J i dev dev.bank_name (fun o f => hF.shown i dev _ o f) _ _
        (hF.enter f h)
    · exact hF.enter f h

theorem status_bank_mem {all : Bool} {I J : Nat → Prop} (hF : FlagInv all I J)
    (st : CStr → Nat → Nat) (name : Option CStr) (i : Nat) (dev : udevice) (f : Nat)
    (h : I f) (e : Ev) (he : e ∈ (status_bank st all name i dev f).2) :
    dev.gpio_count ≠ 0 ∧ bank_matches name dev.bank_name = true ∧
      ∃ o ∈ shown_offsets st name dev, ∃ f', J f' ∧
        e ∈ (show_gpio i dev dev.bank_name o f').2 := by
  unfold status_bank at he
  split at he
  · simp at he
  · rename_i hc
    rw [status_pins_eq] at he
    split at he
    · rename_i hm
      exact ⟨hc, hm, show_pins_mem J i dev dev.bank_name
        (fun o f => hF.shown i dev _ o f) _ _ (hF.enter f h) e he⟩
    · simp at he

theorem status_loop_mem {all : Bool} {I J : Nat → Prop} (hF : FlagInv all I J)
    (st : CStr → Nat → Nat) (name : Option CStr) :
    ∀ (devs : List udevice) (i : Nat) (f : Nat), I f →
      ∀ e ∈ (status_loop st all name i devs f).2,
        ∃ j dev, devs.get? j = some dev ∧ dev.gpio_count ≠ 0 ∧
          bank_matches name dev.bank_name = true ∧
          ∃ o ∈ shown_offsets st name dev, ∃ f', J f' ∧
            e ∈ (show_gpio (i + j) dev dev.bank_name o f').2
  | [], _, _, _, e, he => by simp [status_loop] at he
  | dev :: rest, i, f, h, e, he => by
    simp only [status_loop, List.mem_append] at he
    rcases he with he | he
    · obtain ⟨h1, h2, h3⟩ := status_bank_mem hF st name i dev f h e he
      exact ⟨0, dev, rfl, h1, h2, h3⟩
    · obtain ⟨j, d, hj, h1, h2, o, ho, f', hf', he'⟩ :=
        status_loop_mem hF st name rest (i + 1) _ (status_bank_inv hF st name i dev f h) e he
      refine ⟨j + 1, d, hj, h1, h2, o, ho, f', hf', ?_⟩
      have : i + (j + 1) = i + 1 + j := by omega
      rw [this]; exact he'

/-! ## Events of `show_gpio` -/

theorem show_header_mem (i : Nat) (bn : Option CStr) (f : Nat) (e : Ev)
    (he : e ∈ (show_header i bn f).2) : e = Ev.newline i ∨ ∃ name, e = Ev.bank i name := by
  unfold show_header at he
  cases bn with
  | none => simp at he
  | some name =>
    simp only at he
    split at he
    · split at he
      · simp only [List.mem_cons, List.mem_singleton, List.not_mem_nil, or_false] at he
        rcases he with he | he
        · exact Or.inl he
        · exact Or.inr ⟨name, he⟩
      · simp only [List.mem_singleton] at he
        exact Or.inr ⟨name, he⟩
    · simp at he

theorem show_gpio_mem (i : Nat) (dev : udevice) (bn : Option CStr) (o : Int) (f : Nat)
    (e : Ev) (he : e ∈ (show_gpio i dev bn o f).2) :
    e = Ev.show_gpio i o ∨ e = Ev.newline i ∨ (∃ name, e = Ev.bank i name) ∨
      (e = show_line i dev bn o ∧
        ¬ (f &&& FLAG_SHOW_ALL = 0 ∧ pin_func dev o = GPIOF_UNUSED)) := by
  unfold show_gpio at he
  split at he
  · simp only [List.mem_singleton] at he
    exact Or.inl he
  · rename_i hc
    simp only [List.cons_append, List.mem_cons, List.mem_append, List.mem_singleton,
      List.not_mem_nil, or_false] at he
    rcases he with he | he | he
    · exact Or.inl he
    · rcases show_header_mem i bn f e he with h | h
      · exact Or.inr (Or.inl h)
      · exact Or.inr (Or.inr (Or.inl h))
    · exact Or.inr (Or.inr (Or.inr ⟨he, hc⟩))

theorem show_line_cases (i : Nat) (dev : udevice) (bn : Option CStr) (o : Int) :
    show_line i dev bn o = Ev.unknown i o ∨ ∃ l, show_line i dev bn o = Ev.pin i o l := by
  unfold show_line
  cases dev.get_state with
  | none => exact Or.inr ⟨_, rfl⟩
  | some gs =>
    simp only
    split
    · exact Or.inl rfl
    · exact Or.inr ⟨_, rfl⟩

theorem show_gpio_dev (i : Nat) (dev : udevice) (bn : Option CStr) (o : Int) (f : Nat)
    (e : Ev) (he : e ∈ (show_gpio i dev bn o f).2) : e.dev? = some i := by
  rcases show_gpio_mem i dev bn o f e he with h | h | ⟨n, h⟩ | ⟨h, _⟩
  · rw [h]; rfl
  · rw [h]; rfl
  · rw [h]; rfl
  · rcases show_line_cases i dev bn o with h' | ⟨l, h'⟩
    · rw [h, h']; rfl
    · rw [h, h']; rfl

theorem show_gpio_entry (i : Nat) (dev : udevice) (bn : Option CStr) (o : Int) (f : Nat)
    (e : Ev) (he : e ∈ (show_gpio i dev bn o f).2) (i' : Nat) (o' : Int)
    (hp : e = Ev.unknown i' o' ∨ ∃ l, e = Ev.pin i' o' l) :
    i' = i ∧ o' = o ∧ ¬ (f &&& FLAG_SHOW_ALL = 0 ∧ pin_func dev o = GPIOF_UNUSED) := by
  rcases show_gpio_mem i dev bn o f e he with h | h | ⟨n, h⟩ | ⟨h, hc⟩
  · rcases hp with hp | ⟨l, hp⟩ <;> rw [h] at hp <;> cases hp
  · rcases hp with hp | ⟨l, hp⟩ <;> rw [h] at hp <;> cases hp
  · rcases hp with hp | ⟨l, hp⟩ <;> rw [h] at hp <;> cases hp
  · rcases show_line_cases i dev bn o with h' | ⟨l', h'⟩
    · rcases hp with hp | ⟨l, hp⟩ <;> rw [h, h'] at hp <;> cases hp
      exact ⟨rfl, rfl, hc⟩
    · rcases hp with hp | ⟨l, hp⟩ <;> rw [h, h'] at hp <;> cases hp
      exact ⟨rfl, rfl, hc⟩

/-- Without `-a` the flag `FLAG_SHOW_ALL` is never set. -/
theorem flag_inv_not_all :
    FlagInv false (fun f => f &&& FLAG_SHOW_ALL = 0) (fun f => f &&& FLAG_SHOW_ALL = 0) where
  enter := fun f h => by rw [bank_flags_false_all]; exact h
  shown := fun i dev bn o f h => by rw [show_gpio_all]; exact h
  leave := fun f h => by rw [end_flags_all]; exact h
  skip := fun f h => by rw [bank_flags_false_all]; exact h

/-- The trivial invariant of the render flags. -/
theorem flag_inv_true (all : Bool) : FlagInv all (fun _ => True) (fun _ => True) where
  enter := fun _ _ => trivial
  shown := fun _ _ _ _ _ _ => trivial
  leave := fun _ _ => trivial
  skip := fun _ _ => trivial

/-- C5: `do_gpio_status` called with `all = false` never prints a pin whose
`get_function` classification is `GPIOF_UNUSED`: every pin entry of its output (status
line or `<unknown>`) belongs to a pin of a registered bank whose classification is not
`GPIOF_UNUSED`; and `show_gpio`, entered with `FLAG_SHOW_ALL` clear on a pin classified
`GPIOF_UNUSED`, returns with no console write and with the flags unchanged. -/
theorem status_never_prints_unused (st : CStr → Nat → Nat) (devs : List udevice)
    (uc_ret : Int) (gpio_name : Option CStr) :
    (∀ e ∈ (do_gpio_status st devs uc_ret false gpio_name).2, ∀ (i : Nat) (o : Int),
      (e = Ev.unknown i o ∨ ∃ l, e = Ev.pin i o l) →
        ∃ dev, devs.get? i = some dev ∧ pin_func dev o ≠ GPIOF_UNUSED) ∧
    (∀ (i : Nat) (dev : udevice) (bn : Option CStr) (o : Int) (flags : Nat),
      flags &&& FLAG_SHOW_ALL = 0 → pin_func dev o = GPIOF_UNUSED →
        show_gpio i dev bn o flags = (flags, [Ev.show_gpio i o]) ∧
        (show_gpio i dev bn o flags).2.filter Ev.isOutput = []) := by
  constructor
  · intro e he i o hp
    obtain ⟨j, dev, hj, _, _, o', _, f', hf', he'⟩ :=
      status_loop_mem flag_inv_not_all st (norm_name gpio_name) devs 0 0 rfl e he
    obtain ⟨hi, ho, hc⟩ := show_gpio_entry (0 + j) dev dev.bank_name o' f' e he' i o hp
    refine ⟨dev, ?_, ?_⟩
    · rw [hi, Nat.zero_add]; exact hj
    · intro hu
      rw [ho] at hu
      exact hc ⟨hf', hu⟩
  · intro i dev bn o flags hf hu
    have : show_gpio i dev bn o flags = (flags, [Ev.show_gpio i o]) := by
      unfold show_gpio
      rw [if_pos ⟨hf, hu⟩]
    rw [this]
    exact ⟨rfl, rfl⟩

/-- C7: a bank whose pin count is 0 produces nothing in `do_gpio_status`, whatever the
filter and the show-all flag: every event of the run (entry into `show_gpio`, bank
header, separator, pin entry) belongs to a registered bank with a nonzero pin count,
and the loop body for a bank with pin count 0 produces no event at all. -/
theorem status_skips_empty_banks (st : CStr → Nat → Nat) (devs : List udevice)
    (uc_ret : Int) (all : Bool) (gpio_name : Option CStr) :
    (∀ e ∈ (do_gpio_status st devs uc_ret all gpio_name).2,
      ∃ i dev, e.dev? = some i ∧ devs.get? i = some dev ∧ dev.gpio_count ≠ 0) ∧
    (∀ (i : Nat) (dev : udevice) (flags : Nat), dev.gpio_count = 0 →
      (status_bank st all (norm_name gpio_name) i dev flags).2 = []) := by
  constructor
  · intro e he
    obtain ⟨j, dev, hj, hc, _, o', _, f', _, he'⟩ :=
      status_loop_mem (flag_inv_true all) st (norm_name gpio_name) devs 0 0 trivial e he
    refine ⟨j, dev, ?_, hj, hc⟩
    have := show_gpio_dev (0 + j) dev dev.bank_name o' f' e he'
    rw [Nat.zero_add] at this
    exact this
  · intro i dev flags h
    unfold status_bank
    rw [if_pos h]

/-- C5 at bank `A` without `-a`: the line of pin 0 (an input) is printed; pin 1
(unused) is entered with flags `FLAG_SHOW_BANK` only and prints nothing. -/
theorem status_never_prints_unused_witness :
    Ev.pin 0 0 (Line.fields (some "A".data) 0 (some "input".data) 1)
        ∈ (do_gpio_status strtoul_dec [bankA] 0 false none).2 ∧
      (∃ dev, [bankA].get? 0 = some dev ∧ pin_func dev 0 ≠ GPIOF_UNUSED) ∧
      show_gpio 0 bankA (some "A".data) 1 2 = (2, [Ev.show_gpio 0 1]) :=
  ⟨by decide,
    (status_never_prints_unused strtoul_dec [bankA] 0 none).1
      (Ev.pin 0 0 (Line.fields (some "A".data) 0 (some "input".data) 1)) (by decide) 0 0
      (Or.inr ⟨_, rfl⟩),
    ((status_never_prints_unused strtoul_dec [bankA] 0 none).2 0 bankA (some "A".data) 1 2
      (by decide) (by decide)).1⟩

/-- C7 at the banks `E` (no pins) and `A`: the header of `A` is printed and belongs to
a bank with pins; the loop body for `E` produces nothing. -/
theorem status_skips_empty_banks_witness :
    Ev.bank 1 "A".data ∈ (do_gpio_status strtoul_dec [bankE, bankA] 0 true none).2 ∧
      (∃ i dev, (Ev.bank 1 "A".data).dev? = some i ∧ [bankE, bankA].get? i = some dev ∧
        dev.gpio_count ≠ 0) ∧
      (status_bank strtoul_dec true (norm_name none) 0 bankE 0).2 = [] :=
  ⟨by decide,
    (status_skips_empty_banks strtoul_dec [bankE, bankA] 0 true none).1
      (Ev.bank 1 "A".data) (by decide),
    (status_skips_empty_banks strtoul_dec [bankE, bankA] 0 true none).2 0 bankE 0
      (by decide)⟩

/-! ## Status with `-a` -/

theorem mem_offsets (n o : Int) : o ∈ offsets n ↔ 0 ≤ o ∧ o < n := by
  unfold offsets
  simp only [List.mem_map, List.mem_range]
  constructor
  · rintro ⟨k, hk, rfl⟩
    constructor
    · exact Int.ofNat_nonneg k
    · have : (k : Int) < (n.toNat : Int) := by exact_mod_cast hk
      have h2 : ((n.toNat : Nat) : Int) = max n 0 := Int.toNat_eq_max n
      show (k : Int) < n
      omega
  · rintro ⟨h0, hn⟩
    refine ⟨o.toNat, ?_, ?_⟩
    · omega
    · show ((o.toNat : Nat) : Int) = o
      omega

theorem show_line_dev (i : Nat) (dev : udevice) (bn : Option CStr) (o : Int) :
    (show_line i dev bn o).dev? = some i ∧ (show_line i dev bn o).offset? = some o ∧
      (show_line i dev bn o).isPinEntry = true := by
  rcases show_line_cases i dev bn o with h | ⟨l, h⟩ <;> rw [h] <;> exact ⟨rfl, rfl, rfl⟩

theorem show_header_entries (i : Nat) (bn : Option CStr) (f : Nat) :
    (show_header i bn f).2.filter Ev.isPinEntry = [] := by
  rw [List.filter_eq_nil_iff]
  intro e he
  rcases show_header_mem i bn f e he with h | ⟨n, h⟩ <;> rw [h] <;> simp [Ev.isPinEntry]

theorem show_gpio_entries_all (i : Nat) (dev : udevice) (bn : Option CStr) (o : Int)
    (f : Nat) (hf : f &&& FLAG_SHOW_ALL ≠ 0) :
    (show_gpio i dev bn o f).2.filter Ev.isPinEntry = [show_line i dev bn o] := by
  unfold show_gpio
  rw [if_neg (fun h => hf h.1)]
  have h1 : Ev.isPinEntry (Ev.show_gpio i o) = false := rfl
  simp only [List.filter_cons, List.filter_append, show_header_entries, List.nil_append,
    List.filter_nil, (show_line_dev i dev bn o).2.2, h1, if_true]
  simp

theorem show_pins_entries_all (i : Nat) (dev : udevice) (bn : Option CStr) :
    ∀ (offs : List Int) (f : Nat), f &&& FLAG_SHOW_ALL ≠ 0 →
      (show_pins i dev bn offs f).2.filter Ev.isPinEntry = offs.map (show_line i dev bn)
  | [], _, _ => rfl
  | o :: rest, f, hf => by
    simp only [show_pins, List.filter_append, List.map_cons]
    rw [show_gpio_entries_all i dev bn o f hf,
      show_pins_entries_all i dev bn rest _ (by rw [show_gpio_all]; exact hf)]
    rfl

theorem offsets_zero : offsets 0 = [] := rfl

theorem status_bank_entries_all (st : CStr → Nat → Nat) (i : Nat) (dev : udevice)
    (f : Nat) :
    (status_bank st true none i dev f).2.filter Ev.isPinEntry =
      (offsets dev.gpio_count).map (show_line i dev dev.bank_name) := by
  unfold status_bank
  split
  · rename_i h
    rw [h, offsets_zero]; rfl
  · simp only [status_pins, bank_matches, if_true]
    exact show_pins_entries_all i dev dev.bank_name _ _ (bank_flags_true_all f)

theorem status_loop_entries_all (st : CStr → Nat → Nat) :
    ∀ (devs : List udevice) (i : Nat) (f : Nat),
      (status_loop st true none i devs f).2.filter Ev.isPinEntry = all_pin_entries i devs
  | [], _, _ => rfl
  | dev :: rest, i, f => by
    simp only [status_loop, all_pin_entries, List.filter_append]
    rw [status_bank_entries_all, status_loop_entries_all st rest]

theorem all_pin_entries_mem :
    ∀ (devs : List udevice) (i : Nat) (e : Ev), e ∈ all_pin_entries i devs ↔
      ∃ j dev o, devs.get? j = some dev ∧ 0 ≤ o ∧ o < dev.gpio_count ∧
        e = show_line (i + j) dev dev.bank_name o
  | [], _, e => by simp [all_pin_entries]
  | dev :: rest, i, e => by
    simp only [all_pin_entries, List.mem_append, List.mem_map, mem_offsets,
      all_pin_entries_mem rest (i + 1) e]
    constructor
    · rintro (⟨o, ⟨h0, hn⟩, rfl⟩ | ⟨j, d, o, hj, h0, hn, rfl⟩)
      · exact ⟨0, dev, o, rfl, h0, hn, rfl⟩
      · refine ⟨j + 1, d, o, hj, h0, hn, ?_⟩
        have : i + 1 + j = i + (j + 1) := by omega
        rw [this]
    · rintro ⟨j, d, o, hj, h0, hn, rfl⟩
      cases j with
      | zero =>
        simp only [List.get?_cons_zero, Option.some.injEq] at hj
        subst hj
        exact Or.inl ⟨o, ⟨h0, hn⟩, rfl⟩
      | succ j =>
        simp only [List.get?_cons_succ] at hj
        refine Or.inr ⟨j, d, o, hj, h0, hn, ?_⟩
        have : i + 1 + j = i + (j + 1) := by omega
        rw [this]

theorem offsets_nodup (n : Int) : (offsets n).Nodup := by
  unfold offsets
  apply List.Nodup.map
  · intro a b h
    exact Int.ofNat.inj h
  · exact List.nodup_range _

theorem all_pin_entries_nodup :
    ∀ (devs : List udevice) (i : Nat), (all_pin_entries i devs).Nodup
  | [], _ => List.nodup_nil
  | dev :: rest, i => by
    simp only [all_pin_entries]
    rw [List.nodup_append]
    refine ⟨?_, all_pin_entries_nodup rest (i + 1), ?_⟩
    · apply List.Nodup.map_on
      · intro a _ b _ h
        have ha := (show_line_dev i dev dev.bank_name a).2.1
        have hb := (show_line_dev i dev dev.bank_name b).2.1
        rw [h, hb] at ha
        exact (Option.some.inj ha).symm
      · exact offsets_nodup _
    · intro e he he'
      rw [List.mem_map] at he
      obtain ⟨o, _, rfl⟩ := he
      rw [all_pin_entries_mem] at he'
      obtain ⟨j, d, o', _, _, _, h⟩ := he'
      have h1 := (show_line_dev i dev dev.bank_name o).1
      have h2 := (show_line_dev (i + 1 + j) d d.bank_name o').1
      rw [h, h2] at h1
      have := Option.some.inj h1
      omega

theorem show_line_unknown (i : Nat) (dev : udevice) (bn : Option CStr) (o : Int) :
    show_line i dev bn o = Ev.unknown i o ↔
      ∃ get_state, dev.get_state = some get_state ∧ (get_state o).1 ≠ 0 := by
  unfold show_line
  cases dev.get_state with
  | none =>
    constructor
    · intro h; cases h
    · rintro ⟨gs, h, _⟩; cases h
  | some gs =>
    simp only
    by_cases hg : (gs o).1 ≠ 0
    · rw [if_pos hg]
      exact ⟨fun _ => ⟨gs, rfl, hg⟩, fun _ => rfl⟩
    · rw [if_neg hg]
      constructor
      · intro h; cases h
      · rintro ⟨gs', h, hne⟩
        cases h
        exact absurd hne hg

theorem show_line_pin_line (i : Nat) (dev : udevice) (bn : Option CStr) (o : Int) :
    (show_line i dev bn o).isPinLine = true ↔
      ∀ get_state, dev.get_state = some get_state → (get_state o).1 = 0 := by
  unfold show_line
  cases dev.get_state with
  | none =>
    constructor
    · intro _ gs h; cases h
    · intro _; rfl
  | some gs =>
    simp only
    by_cases hg : (gs o).1 ≠ 0
    · rw [if_pos hg]
      constructor
      · intro h; cases h
      · intro h
        exact absurd (h gs rfl) hg
    · rw [if_neg hg]
      constructor
      · intro _ gs' h
        cases h
        exact not_not.1 hg
      · intro _; rfl

/-- C6 fails as stated: with the bank `X` registered, whose `get_state` reports an error
for its one pin, `do_gpio_status` called with `all = true` and no filter enters
`show_gpio` for that pin, prints the bank header and then the text `<unknown>` (line
72, after which line 73 returns): no status line is printed for the pin `(X, 0)`. -/
theorem status_all_counterexample :
    bankX.gpio_count = 1 ∧
      (do_gpio_status strtoul_dec [bankX] 0 true none).2 =
        [Ev.show_gpio 0 0, Ev.bank 0 "X".data, Ev.unknown 0 0] ∧
      (do_gpio_status strtoul_dec [bankX] 0 true none).2.filter Ev.isPinLine = [] := by
  decide

/-- C6, amended: `do_gpio_status` called with `all = true` and no filter (`NULL` or the
empty string) prints one pin entry for every pin of every bank, exactly once each, banks
in registration order and offsets ascending: the pin entries of its output (what lines
68-81 of `show_gpio` print for a pin) are exactly those of the offsets
`0 .. gpio_count - 1` of each bank in turn, there is no repetition among them, and an
entry is among them iff it is the entry of a pin `(bank, offset)` with
`0 <= offset < gpio_count`. The entry of a pin is its status line unless the bank has a
`get_state` operation that reports an error for the pin, and it is the text `<unknown>`
exactly in that case. -/
theorem status_all_prints_every_pin (st : CStr → Nat → Nat) (devs : List udevice)
    (uc_ret : Int) (gpio_name : Option CStr)
    (hname : gpio_name = none ∨ gpio_name = some []) :
    (do_gpio_status st devs uc_ret true gpio_name).2.filter Ev.isPinEntry
        = all_pin_entries 0 devs ∧
      ((do_gpio_status st devs uc_ret true gpio_name).2.filter Ev.isPinEntry).Nodup ∧
      (∀ e, e ∈ (do_gpio_status st devs uc_ret true gpio_name).2.filter Ev.isPinEntry ↔
        ∃ i dev o, devs.get? i = some dev ∧ 0 ≤ o ∧ o < dev.gpio_count ∧
          e = show_line i dev dev.bank_name o) ∧
      (∀ (i : Nat) (dev : udevice) (o : Int),
        ((show_line i dev dev.bank_name o).isPinLine = true ↔
          ∀ get_state, dev.get_state = some get_state → (get_state o).1 = 0) ∧
        (show_line i dev dev.bank_name o = Ev.unknown i o ↔
          ∃ get_state, dev.get_state = some get_state ∧ (get_state o).1 ≠ 0)) := by
  have hn : norm_name gpio_name = none := by
    rcases hname with h | h <;> rw [h] <;> rfl
  have h1 : (do_gpio_status st devs uc_ret true gpio_name).2.filter Ev.isPinEntry
      = all_pin_entries 0 devs := by
    unfold do_gpio_status
    rw [hn]
    exact status_loop_entries_all st devs 0 0
  refine ⟨h1, ?_, ?_, ?_⟩
  · rw [h1]; exact all_pin_entries_nodup devs 0
  · intro e
    rw [h1, all_pin_entries_mem]
    simp only [Nat.zero_add]
  · intro i dev o
    exact ⟨show_line_pin_line i dev dev.bank_name o, show_line_unknown i dev dev.bank_name o⟩

/-- C6, amended, at the banks `E` (no pins), `A` (3 pins, pin 1 unused) and `X` (1 pin
whose state cannot be read) with `-a`: the three lines of `A`, then `<unknown>` for
`X`. -/
theorem status_all_prints_every_pin_witness :
    (do_gpio_status strtoul_dec [bankE, bankA, bankX] 0 true none).2.filter Ev.isPinEntry
      = [Ev.pin 1 0 (Line.fields (some "A".data) 0 (some "input".data) 1),
         Ev.pin 1 1 (Line.fields (some "A".data) 1 (some "unused".data) 1),
         Ev.pin 1 2 (Line.fields (some "A".data) 2 (some "input".data) 1),
         Ev.unknown 2 0] :=
  (status_all_prints_every_pin strtoul_dec [bankE, bankA, bankX] 0 none (Or.inl rfl)).1.trans
    (by decide)

/-! ## Status with a filter -/

theorem char_toNat_inj (a b : Char) (h : a.toNat = b.toNat) : a = b := by
  have := congrArg Char.ofNat h
  simpa using this

theorem char_diff_ne_zero (a b : Char) (h : a ≠ b) : (a.toNat : Int) - (b.toNat : Int) ≠ 0 := by
  intro h0
  apply h
  apply char_toNat_inj
  omega

theorem strncmp_eq_zero_iff :
    ∀ (b g : CStr), (∀ c ∈ b, c.toNat ≠ 0) → (strncmp g b b.length = 0 ↔ b <+: g)
  | [], g, _ => by
    simp only [List.length_nil, List.nil_prefix, iff_true]
    cases g <;> rfl
  | c :: bs, [], hb => by
    have hc : c.toNat ≠ 0 := hb c (List.mem_cons_self _ _)
    simp only [List.length_cons, strncmp, List.prefix_nil, neg_eq_zero]
    constructor
    · intro h
      exact absurd (by exact_mod_cast h) hc
    · intro h
      cases h
  | c :: bs, a :: as, hb => by
    simp only [List.length_cons, strncmp, List.cons_prefix_cons]
    by_cases hac : a = c
    · subst hac
      rw [if_pos rfl, strncmp_eq_zero_iff bs as (fun x hx => hb x (List.mem_cons_of_mem _ hx))]
      simp
    · rw [if_neg hac]
      constructor
      · intro h
        exact absurd h (char_diff_ne_zero a c hac)
      · rintro ⟨h, _⟩
        exact absurd h.symm hac

theorem strncmp_append : ∀ (b rest : CStr), strncmp (b ++ rest) b b.length = 0
  | [], rest => by cases rest <;> rfl
  | c :: bs, rest => by
    simp only [List.cons_append, List.length_cons, strncmp, if_true]
    exact strncmp_append bs rest

theorem norm_name_some (g : CStr) (hg : g ≠ []) : norm_name (some g) = some g := by
  cases g with
  | nil => exact absurd rfl hg
  | cons a as => rfl

/-- C8, amended: with a non-empty filter, `do_gpio_status` prints only pins and headers
of banks with a nonzero pin count for which the condition of line 108 holds (the bank
has no name, or `strncmp` finds the bank's name at the start of the filter); in a
registry of named banks these are banks whose name is a prefix of the filter; so when
the filter is the name of bank `B` and no other registered bank with pins has a name
that is a prefix of it, only pins and the header of `B` are printed. -/
theorem status_filter_prints_prefix_banks (st : CStr → Nat → Nat) (devs : List udevice)
    (uc_ret : Int) (all : Bool) (g : CStr) (hg : g ≠ []) :
    (∀ e ∈ (do_gpio_status st devs uc_ret all (some g)).2,
      ∃ i dev, e.dev? = some i ∧ devs.get? i = some dev ∧ dev.gpio_count ≠ 0 ∧
        bank_matches (some g) dev.bank_name = true) ∧
    ((∀ d ∈ devs, ∃ b, d.bank_name = some b ∧ ∀ c ∈ b, c.toNat ≠ 0) →
      ∀ e ∈ (do_gpio_status st devs uc_ret all (some g)).2,
        ∃ i dev b, e.dev? = some i ∧ devs.get? i = some dev ∧ dev.bank_name = some b ∧
          b <+: g) ∧
    (∀ (iB : Nat) (devB : udevice), devs.get? iB = some devB → devB.bank_name = some g →
      (∀ d ∈ devs, ∃ b, d.bank_name = some b ∧ ∀ c ∈ b, c.toNat ≠ 0) →
      (∀ j d b, devs.get? j = some d → d.gpio_count ≠ 0 → d.bank_name = some b →
        b <+: g → j = iB) →
      ∀ e ∈ (do_gpio_status st devs uc_ret all (some g)).2, e.dev? = some iB) := by
  have key : ∀ e ∈ (do_gpio_status st devs uc_ret all (some g)).2,
      ∃ i dev, e.dev? = some i ∧ devs.get? i = some dev ∧ dev.gpio_count ≠ 0 ∧
        bank_matches (some g) dev.bank_name = true := by
    intro e he
    unfold do_gpio_status at he
    rw [norm_name_some g hg] at he
    obtain ⟨j, dev, hj, hc, hm, o', _, f', _, he'⟩ :=
      status_loop_mem (flag_inv_true all) st (some g) devs 0 0 trivial e he
    have hd := show_gpio_dev (0 + j) dev dev.bank_name o' f' e he'
    rw [Nat.zero_add] at hd
    exact ⟨j, dev, hd, hj, hc, hm⟩
  have key2 : (∀ d ∈ devs, ∃ b, d.bank_name = some b ∧ ∀ c ∈ b, c.toNat ≠ 0) →
      ∀ e ∈ (do_gpio_status st devs uc_ret all (some g)).2,
        ∃ i dev b, e.dev? = some i ∧ devs.get? i = some dev ∧ dev.gpio_count ≠ 0 ∧
          dev.bank_name = some b ∧ b <+: g := by
    intro hnamed e he
    obtain ⟨i, dev, hd, hi, hc, hm⟩ := key e he
    obtain ⟨b, hb, hnul⟩ := hnamed dev (List.get?_mem hi)
    refine ⟨i, dev, b, hd, hi, hc, hb, ?_⟩
    rw [hb] at hm
    simp only [bank_matches, decide_eq_true_eq] at hm
    exact (strncmp_eq_zero_iff b g hnul).1 hm
  refine ⟨key, ?_, ?_⟩
  · intro hnamed e he
    obtain ⟨i, dev, b, hd, hi, _, hb, hp⟩ := key2 hnamed e he
    exact ⟨i, dev, b, hd, hi, hb, hp⟩
  · intro iB devB _ _ hnamed huniq e he
    obtain ⟨i, dev, b, hd, hi, hc, hb, hp⟩ := key2 hnamed e he
    rw [hd, huniq i dev b hi hc hb hp]

/-- C8 fails as stated: with the banks `A` and `AB` registered, the filter `AB` (the
name of the bank at position 1) also prints the header and pin 0 of bank `A` (position
0), whose name is a proper prefix of `AB`. -/
theorem status_bank_filter_counterexample :
    [bankA, bankAB].get? 1 = some bankAB ∧ bankAB.bank_name = some "AB".data ∧
      (do_gpio_status strtoul_dec [bankA, bankAB] 0 false (some "AB".data)).2 =
        [Ev.show_gpio 0 0, Ev.bank 0 "A".data,
         Ev.pin 0 0 (Line.fields (some "A".data) 0 (some "input".data) 1),
         Ev.show_gpio 1 0, Ev.newline 1, Ev.bank 1 "AB".data,
         Ev.pin 1 0 (Line.fields (some "AB".data) 0 (some "unknown".data) 0),
         Ev.show_gpio 1 1,
         Ev.pin 1 1 (Line.fields (some "AB".data) 1 (some "unknown".data) 0)] ∧
      ¬ (∀ e ∈ (do_gpio_status strtoul_dec [bankA, bankAB] 0 false (some "AB".data)).2,
          e.dev? = some 1) :=
  ⟨rfl, rfl, by decide, by decide⟩

/-- C8, amended, at the banks `E`, `A` and `X` with the filter `A`: the header of `A`
is printed, `A` is the only bank whose name is a prefix of the filter, and every event
belongs to `A` (position 1). -/
theorem status_filter_prints_prefix_banks_witness :
    Ev.bank 1 "A".data ∈ (do_gpio_status strtoul_dec [bankE, bankA, bankX] 0 false
        (some "A".data)).2 ∧
      ∀ e ∈ (do_gpio_status strtoul_dec [bankE, bankA, bankX] 0 false (some "A".data)).2,
        e.dev? = some 1 :=
  ⟨by decide,
    (status_filter_prints_prefix_banks strtoul_dec [bankE, bankA, bankX] 0 false "A".data
      (by decide)).2.2 1 bankA rfl rfl
      (by
        intro d hd
        simp only [List.mem_cons, List.mem_singleton, List.not_mem_nil, or_false] at hd
        rcases hd with rfl | rfl | rfl
        · exact ⟨"E".data, rfl, by decide⟩
        · exact ⟨"A".data, rfl, by decide⟩
        · exact ⟨"X".data, rfl, by decide⟩)
      (by
        intro j d b hj hc hb hp
        match j, hj with
        | 0, hj =>
          simp only [List.get?_cons_zero, Option.some.injEq] at hj
          subst hj
          exact absurd rfl hc
        | 1, _ => rfl
        | 2, hj =>
          simp only [List.get?_cons_succ, List.get?_cons_zero, Option.some.injEq] at hj
          subst hj
          cases hb
          exact absurd hp (by decide)
        | n + 3, hj => simp at hj)⟩

/-! ## Status of a single pin -/

theorem bank_flags_idem (all : Bool) (f : Nat) (hf : f = 0 ∨ f = bank_flags all 0) :
    bank_flags all f = bank_flags all 0 := by
  cases all <;> rcases hf with h | h <;> rw [h] <;> decide

theorem end_flags_bank_flags (all : Bool) :
    end_flags (bank_flags all 0) = bank_flags all 0 := by
  cases all <;> decide

theorem status_bank_quiet (st : CStr → Nat → Nat) (all : Bool) (name : Option CStr)
    (i : Nat) (dev : udevice) (f : Nat)
    (hq : ¬ (dev.gpio_count ≠ 0 ∧ bank_matches name dev.bank_name = true)) :
    (status_bank st all name i dev f).2 = [] ∧
      ((f = 0 ∨ f = bank_flags all 0) →
        (status_bank st all name i dev f).1 = bank_flags all 0) := by
  unfold status_bank
  split
  · exact ⟨rfl, fun hf => bank_flags_idem all f hf⟩
  · rename_i hc
    have hm : bank_matches name dev.bank_name = false := by
      cases h : bank_matches name dev.bank_name
      · rfl
      · exact absurd ⟨hc, h⟩ hq
    rw [status_pins_eq, hm]
    simp only [Bool.false_eq_true, if_false, true_and]
    intro hf
    rw [bank_flags_idem all f hf, end_flags_bank_flags]

theorem status_loop_quiet (st : CStr → Nat → Nat) (all : Bool) (name : Option CStr) :
    ∀ (devs : List udevice) (i : Nat) (f : Nat),
      (∀ j d, devs.get? j = some d →
        ¬ (d.gpio_count ≠ 0 ∧ bank_matches name d.bank_name = true)) →
      (status_loop st all name i devs f).2 = []
  | [], _, _, _ => rfl
  | dev :: rest, i, f, hq => by
    simp only [status_loop]
    rw [(status_bank_quiet st all name i dev f (hq 0 dev rfl)).1]
    simp only [List.nil_append]
    exact status_loop_quiet st all name rest (i + 1) _ (fun j d hj => hq (j + 1) d hj)

theorem status_loop_single (st : CStr → Nat → Nat) (all : Bool) (g : CStr)
    (devB : udevice) (hc : devB.gpio_count ≠ 0)
    (hm : bank_matches (some g) devB.bank_name = true)
    (hp : g.drop ((devB.bank_name.map List.length).getD 0) ≠ []) :
    ∀ (devs : List udevice) (k i : Nat) (f : Nat), (f = 0 ∨ f = bank_flags all 0) →
      devs.get? k = some devB →
      (∀ j d, devs.get? j = some d → d.gpio_count ≠ 0 →
        bank_matches (some g) d.bank_name = true → j = k) →
      (status_loop st all (some g) i devs f).2 =
        (show_gpio (i + k) devB devB.bank_name
          (to_int (st (g.drop ((devB.bank_name.map List.length).getD 0)) 10))
          (bank_flags all 0)).2
  | [], k, _, _, _, hk, _ => by simp at hk
  | dev :: rest, 0, i, f, hf, hk, hu => by
    simp only [List.get?_cons_zero, Option.some.injEq] at hk
    subst hk
    simp only [status_loop]
    rw [status_loop_quiet st all (some g) rest (i + 1) _
      (fun j d hj hq => absurd (hu (j + 1) d hj hq.1 hq.2) (by omega))]
    simp only [List.append_nil, Nat.add_zero]
    unfold status_bank
    rw [if_neg hc]
    simp only [status_pins, hm, if_true, hp, ne_eq, not_false_eq_true,
      bank_flags_idem all f hf]
  | dev :: rest, k + 1, i, f, hf, hk, hu => by
    simp only [List.get?_cons_succ] at hk
    simp only [status_loop]
    have hq : ¬ (dev.gpio_count ≠ 0 ∧ bank_matches (some g) dev.bank_name = true) :=
      fun hq => absurd (hu 0 dev rfl hq.1 hq.2) (by omega)
    rw [(status_bank_quiet st all (some g) i dev f hq).1,
      (status_bank_quiet st all (some g) i dev f hq).2 hf]
    simp only [List.nil_append]
    rw [status_loop_single st all g devB hc hm hp rest k (i + 1) _ (Or.inr rfl) hk
      (fun j d hj h1 h2 => by have := hu (j + 1) d hj h1 h2; omega)]
    have : i + 1 + k = i + (k + 1) := by omega
    rw [this]

theorem show_gpio_first (i : Nat) (dev : udevice) (b : CStr) (o : Int) (all : Bool) :
    (show_gpio i dev (some b) o (bank_flags all 0)).2 =
      if all = false ∧ pin_func dev o = GPIOF_UNUSED then [Ev.show_gpio i o]
      else [Ev.show_gpio i o, Ev.bank i b, show_line i dev (some b) o] := by
  cases all
  · have h1 : bank_flags false 0 = 2 := by decide
    have h2 : (2 : Nat) &&& FLAG_SHOW_ALL = 0 := by decide
    have h3 : (2 : Nat) &&& FLAG_SHOW_BANK ≠ 0 := by decide
    have h4 : ¬ ((2 : Nat) &&& FLAG_SHOW_NEWLINE ≠ 0) := by decide
    rw [h1]
    unfold show_gpio show_header
    simp only [h2, true_and, if_pos h3, if_neg h4]
    split <;> rfl
  · have h1 : bank_flags true 0 = 3 := by decide
    have h2 : ¬ ((3 : Nat) &&& FLAG_SHOW_ALL = 0) := by decide
    have h3 : (3 : Nat) &&& FLAG_SHOW_BANK ≠ 0 := by decide
    have h4 : ¬ ((3 : Nat) &&& FLAG_SHOW_NEWLINE ≠ 0) := by decide
    rw [h1]
    unfold show_gpio show_header
    simp only [h2, false_and, if_false, if_pos h3, if_neg h4, Bool.true_eq_false]
    rfl

/-- C9 fails as stated: with bank `A` registered, the pin filter `A1` without `-a`
prints nothing at all, because pin 1 of `A` is classified unused; with `-a` it prints
two console lines, the header of the bank and the line of the pin. -/
theorem status_pin_filter_counterexample :
    bankA.bank_name = some "A".data ∧
      (do_gpio_status strtoul_dec [bankA] 0 false (some "A1".data)).2.filter Ev.isOutput
        = [] ∧
      (do_gpio_status strtoul_dec [bankA] 0 true (some "A1".data)).2.filter Ev.isOutput
        = [Ev.bank 0 "A".data,
           Ev.pin 0 1 (Line.fields (some "A".data) 1 (some "unused".data) 1)] ∧
      (((do_gpio_status strtoul_dec [bankA] 0 true (some "A1".data)).2.map
        Ev.newlines).sum = 2) :=
  ⟨rfl, by decide, by decide, by decide⟩

/-- C9, amended: for a filter made of the name of bank `B` followed by a non-empty
rest from which `simple_strtoul` reads the offset of a pin of `B`
(`0 <= offset < gpio_count`), when `B` is the only registered bank with pins for which
the condition of line 108 holds, `do_gpio_status` enters `show_gpio` exactly once, for
bank `B` at that offset; it prints nothing when show-all is off and that pin is
classified unused, and otherwise the header of `B` followed by exactly one pin entry
(the status line, or `<unknown>` when `get_state` reports an error). -/
theorem status_pin_filter_prints_one_pin (st : CStr → Nat → Nat) (devs : List udevice)
    (uc_ret : Int) (all : Bool) (iB : Nat) (devB : udevice) (b rest : CStr)
    (hB : devs.get? iB = some devB) (hname : devB.bank_name = some b)
    (hrest : rest ≠ [])
    (hrange : 0 ≤ to_int (st rest 10) ∧ to_int (st rest 10) < devB.gpio_count)
    (huniq : ∀ j d, devs.get? j = some d → d.gpio_count ≠ 0 →
      bank_matches (some (b ++ rest)) d.bank_name = true → j = iB) :
    (do_gpio_status st devs uc_ret all (some (b ++ rest))).2 =
        (if all = false ∧ pin_func devB (to_int (st rest 10)) = GPIOF_UNUSED then
          [Ev.show_gpio iB (to_int (st rest 10))]
        else
          [Ev.show_gpio iB (to_int (st rest 10)), Ev.bank iB b,
            show_line iB devB (some b) (to_int (st rest 10))]) ∧
      ((do_gpio_status st devs uc_ret all (some (b ++ rest))).2.filter Ev.isPinEntry).length =
        (if all = false ∧ pin_func devB (to_int (st rest 10)) = GPIOF_UNUSED then 0
        else 1) := by
  have hcount : devB.gpio_count ≠ 0 := by
    intro h
    rw [h] at hrange
    omega
  have hne : b ++ rest ≠ [] := by
    intro h
    exact hrest (List.append_eq_nil.1 h).2
  have hdrop : (b ++ rest).drop ((devB.bank_name.map List.length).getD 0) = rest := by
    rw [hname]
    simp
  have hm : bank_matches (some (b ++ rest)) devB.bank_name = true := by
    rw [hname]
    simp only [bank_matches, decide_eq_true_eq]
    exact strncmp_append b rest
  have h1 : (do_gpio_status st devs uc_ret all (some (b ++ rest))).2 =
      (if all = false ∧ pin_func devB (to_int (st rest 10)) = GPIOF_UNUSED then
        [Ev.show_gpio iB (to_int (st rest 10))]
      else
        [Ev.show_gpio iB (to_int (st rest 10)), Ev.bank iB b,
          show_line iB devB (some b) (to_int (st rest 10))]) := by
    unfold do_gpio_status
    rw [norm_name_some _ hne]
    simp only
    rw [status_loop_single st all (b ++ rest) devB hcount hm (by rw [hdrop]; exact hrest)
      devs iB 0 0 (Or.inl rfl) hB huniq, hdrop, Nat.zero_add, hname, show_gpio_first]
  refine ⟨h1, ?_⟩
  rw [h1]
  split
  · rfl
  · have h2 := (show_line_dev iB devB (some b) (to_int (st rest 10))).2.2
    have h3 : Ev.isPinEntry (Ev.show_gpio iB (to_int (st rest 10))) = false := rfl
    have h4 : Ev.isPinEntry (Ev.bank iB b) = false := rfl
    simp only [List.filter_cons, h2, h3, h4, if_true, List.filter_nil]
    rfl

/-- C9, amended, at the banks `E`, `A` and `X` with the filter `A2`: one entry into
`show_gpio`, the header of `A` and the line of pin 2. -/
theorem status_pin_filter_prints_one_pin_witness :
    (do_gpio_status strtoul_dec [bankE, bankA, bankX] 0 false (some "A2".data)).2 =
      [Ev.show_gpio 1 2, Ev.bank 1 "A".data,
        Ev.pin 1 2 (Line.fields (some "A".data) 2 (some "input".data) 1)] :=
  (status_pin_filter_prints_one_pin strtoul_dec [bankE, bankA, bankX] 0 false 1 bankA
    "A".data "2".data rfl rfl (by decide) (by decide)
    (by
      intro j d hj hc hm
      match j, hj with
      | 0, hj =>
        simp only [List.get?_cons_zero, Option.some.injEq] at hj
        subst hj
        exact absurd rfl hc
      | 1, _ => rfl
      | 2, hj =>
        simp only [List.get?_cons_succ, List.get?_cons_zero, Option.some.injEq] at hj
        subst hj
        exact absurd hm (by decide)
      | n + 3, hj => simp at hj)).1.trans (by decide)

/-! ## `do_gpio`: the mutation path -/

theorem do_gpio_mutate {σ : Type} (cfg : Config) (E : Extern σ) (s : σ)
    (argv : List CStr) (verb : CStr) (all : Bool) (pin : CStr) (sub_cmd : gpio_cmd)
    (hargs : parse_args cfg argv = some (verb, all, some pin))
    (hstatus : strcmp verb "status".data ≠ 0)
    (hverb : parse_behavior verb = some sub_cmd) :
    do_gpio cfg E s argv = mutate cfg E s sub_cmd pin := by
  unfold do_gpio
  rw [hargs]
  simp only [if_neg hstatus, hverb]

theorem mutate_resolved {σ : Type} (cfg : Config) (E : Extern σ) (s : σ)
    (sub_cmd : gpio_cmd) (pin : CStr) (gpio : Nat) (hres : resolves cfg E s pin gpio) :
    mutate cfg E s sub_cmd pin =
      request_and_exec E s sub_cmd pin gpio [lookup_call cfg E s pin] := by
  unfold mutate lookup_call
  cases h : cfg.CONFIG_DM_GPIO
  · simp only [Bool.false_eq_true, if_false]
    rw [hres.2 h]
  · simp only [if_true]
    rw [if_neg (not_not.2 (hres.1 h).1), (hres.1 h).2]

theorem request_and_exec_ok {σ : Type} (E : Extern σ) (s : σ) (sub_cmd : gpio_cmd)
    (pin : CStr) (gpio : Nat) (calls : List Call)
    (hreq : (E.gpio_request s gpio).1 = 0 ∨ (E.gpio_request s gpio).1 = -EBUSY) :
    request_and_exec E s sub_cmd pin gpio calls =
      exec_cmd E (E.gpio_request s gpio).2 sub_cmd pin gpio (E.gpio_request s gpio).1
        (calls ++ [Call.request gpio (E.gpio_request s gpio).1]) := by
  unfold request_and_exec
  rw [if_neg]
  rintro ⟨h0, hb⟩
  rcases hreq with h | h
  · exact h0 h
  · exact hb h

theorem do_gpio_exec {σ : Type} (cfg : Config) (E : Extern σ) (s : σ)
    (argv : List CStr) (verb : CStr) (all : Bool) (pin : CStr) (gpio : Nat)
    (sub_cmd : gpio_cmd)
    (hargs : parse_args cfg argv = some (verb, all, some pin))
    (hstatus : strcmp verb "status".data ≠ 0)
    (hverb : parse_behavior verb = some sub_cmd)
    (hres : resolves cfg E s pin gpio)
    (hreq : (E.gpio_request s gpio).1 = 0 ∨ (E.gpio_request s gpio).1 = -EBUSY) :
    do_gpio cfg E s argv =
      exec_cmd E (E.gpio_request s gpio).2 sub_cmd pin gpio (E.gpio_request s gpio).1
        [lookup_call cfg E s pin, Call.request gpio (E.gpio_request s gpio).1] := by
  rw [do_gpio_mutate cfg E s argv verb all pin sub_cmd hargs hstatus hverb,
    mutate_resolved cfg E s sub_cmd pin gpio hres,
    request_and_exec_ok E s sub_cmd pin gpio _ hreq]
  rfl

theorem parse_behavior_s (verb : CStr) (h : verb.head? = some 's') :
    parse_behavior verb = some gpio_cmd.GPIO_SET := by
  unfold parse_behavior
  rw [h]
  decide

theorem parse_behavior_c (verb : CStr) (h : verb.head? = some 'c') :
    parse_behavior verb = some gpio_cmd.GPIO_CLEAR := by
  unfold parse_behavior
  rw [h]
  decide

theorem parse_behavior_t (verb : CStr) (h : verb.head? = some 't') :
    parse_behavior verb = some gpio_cmd.GPIO_TOGGLE := by
  unfold parse_behavior
  rw [h]
  decide

theorem parse_behavior_i (verb : CStr) (h : verb.head? = some 'i') :
    parse_behavior verb = some gpio_cmd.GPIO_INPUT := by
  unfold parse_behavior
  rw [h]
  decide

theorem drive_result {σ : Type} (E : Extern σ) (s : σ) (pin : CStr) (gpio : Nat)
    (ret : Int) (value : Nat) (calls : List Call) :
    (drive E s pin gpio ret value calls).ret = to_int value ∧
      (drive E s pin gpio ret value calls).calls =
        calls ++ [Call.direction_output gpio (to_int value)
            (E.gpio_direction_output s gpio (to_int value)).1]
          ++ (if ret = -EBUSY then [] else [Call.free gpio]) ∧
      (drive E s pin gpio ret value calls).out = [Ev.value_is pin gpio value] ∧
      (drive E s pin gpio ret value calls).state =
        (if ret = -EBUSY then (E.gpio_direction_output s gpio (to_int value)).2
         else (E.gpio_free (E.gpio_direction_output s gpio (to_int value)).2 gpio).2) := by
  unfold drive report_and_free
  by_cases h : ret = -EBUSY
  · simp [h]
  · simp [h]

theorem drive_reads_back {σ : Type} (E : Extern σ) (hE : ReadsLastDriven E) (s : σ)
    (pin : CStr) (gpio : Nat) (ret : Int) (value : Nat) (calls : List Call)
    (hv : value = 0 ∨ value = 1) :
    E.gpio_get_value (drive E s pin gpio ret value calls).state gpio = (value : Int) := by
  have hv' : to_int value = (value : Int) := by
    rcases hv with h | h <;> rw [h] <;> decide
  have hv'' : to_int value = 0 ∨ to_int value = 1 := by
    rcases hv with h | h <;> rw [h]
    · exact Or.inl (by decide)
    · exact Or.inr (by decide)
  rw [(drive_result E s pin gpio ret value calls).2.2.2]
  split
  · rw [hE.drive _ _ _ hv'', hv']
  · rw [hE.free, hE.drive _ _ _ hv'', hv']

/-- C1: when the pin operand resolves to `gpio` and `gpio_request` returns 0 or
`-EBUSY`, `do_gpio` with a verb other than `status` whose first character is `s` drives
the pin to output level 1 (`gpio_direction_output(gpio, 1)`) and returns 1, and with a
verb whose first character is `c` drives it to level 0 and returns 0; the driver calls
are the lookup, the request, the drive and, unless the request returned `-EBUSY`, the
free; over a driver in which reading a pin returns the last driven level,
`gpio_get_value` on the final state yields 1 after `set` and 0 after `clear`. -/
theorem set_and_clear_drive_pin {σ : Type} (cfg : Config) (E : Extern σ) (s : σ)
    (argv : List CStr) (verb : CStr) (all : Bool) (pin : CStr) (gpio : Nat)
    (hargs : parse_args cfg argv = some (verb, all, some pin))
    (hstatus : strcmp verb "status".data ≠ 0)
    (hres : resolves cfg E s pin gpio)
    (hreq : (E.gpio_request s gpio).1 = 0 ∨ (E.gpio_request s gpio).1 = -EBUSY) :
    (verb.head? = some 's' →
      (do_gpio cfg E s argv).ret = 1 ∧
      (do_gpio cfg E s argv).calls =
        [lookup_call cfg E s pin, Call.request gpio (E.gpio_request s gpio).1,
          Call.direction_output gpio 1
            (E.gpio_direction_output (E.gpio_request s gpio).2 gpio 1).1]
          ++ (if (E.gpio_request s gpio).1 = -EBUSY then [] else [Call.free gpio]) ∧
      (ReadsLastDriven E → E.gpio_get_value (do_gpio cfg E s argv).state gpio = 1)) ∧
    (verb.head? = some 'c' →
      (do_gpio cfg E s argv).ret = 0 ∧
      (do_gpio cfg E s argv).calls =
        [lookup_call cfg E s pin, Call.request gpio (E.gpio_request s gpio).1,
          Call.direction_output gpio 0
            (E.gpio_direction_output (E.gpio_request s gpio).2 gpio 0).1]
          ++ (if (E.gpio_request s gpio).1 = -EBUSY then [] else [Call.free gpio]) ∧
      (ReadsLastDriven E → E.gpio_get_value (do_gpio cfg E s argv).state gpio = 0)) := by
  constructor
  · intro hv
    rw [do_gpio_exec cfg E s argv verb all pin gpio _ hargs hstatus
      (parse_behavior_s verb hv) hres hreq]
    simp only [exec_cmd]
    refine ⟨?_, ?_, ?_⟩
    · rw [(drive_result _ _ _ _ _ _ _).1]; rfl
    · rw [(drive_result _ _ _ _ _ _ _).2.1]; rfl
    · intro hE
      rw [drive_reads_back E hE _ _ _ _ _ _ (Or.inr rfl)]; rfl
  · intro hv
    rw [do_gpio_exec cfg E s argv verb all pin gpio _ hargs hstatus
      (parse_behavior_c verb hv) hres hreq]
    simp only [exec_cmd]
    refine ⟨?_, ?_, ?_⟩
    · rw [(drive_result _ _ _ _ _ _ _).1]; rfl
    · rw [(drive_result _ _ _ _ _ _ _).2.1]; rfl
    · intro hE
      rw [drive_reads_back E hE _ _ _ _ _ _ (Or.inl rfl)]; rfl

theorem sim_reads_last_driven (devs : List udevice) : ReadsLastDriven (sim devs) where
  drive := fun s g v _ => by simp [sim]
  request := fun s g => by
    simp only [sim]
    split <;> simp
  free := fun s g => by simp [sim]

/-- C1 on the reference driver: `gpio set 14` on idle pins returns 1, ends with
`gpio_free(14)` and leaves pin 14 reading 1. -/
theorem set_and_clear_drive_pin_witness :
    (do_gpio ⟨true, false⟩ (sim []) pins_idle ["gpio".data, "set".data, "14".data]).ret = 1 ∧
      (do_gpio ⟨true, false⟩ (sim []) pins_idle
        ["gpio".data, "set".data, "14".data]).calls =
        [Call.lookup_name "14".data 0 14, Call.request 14 0,
          Call.direction_output 14 1 0, Call.free 14] ∧
      (sim []).gpio_get_value (do_gpio ⟨true, false⟩ (sim []) pins_idle
        ["gpio".data, "set".data, "14".data]).state 14 = 1 :=
  have h := (set_and_clear_drive_pin ⟨true, false⟩ (sim []) pins_idle
    ["gpio".data, "set".data, "14".data] "set".data false "14".data 14
    (by decide) (by decide) ⟨fun _ => ⟨by decide, by decide⟩, fun h => nomatch h⟩
    (Or.inl (by decide))).1 (by decide)
  ⟨h.1, h.2.1.trans (by decide), h.2.2 (sim_reads_last_driven [])⟩

/-! ## `toggle` -/

theorem toggle_run {σ : Type} (cfg : Config) (E : Extern σ) (hE : ReadsLastDriven E)
    (s : σ) (argv : List CStr) (verb : CStr) (all : Bool) (pin : CStr) (gpio : Nat)
    (v : Int)
    (hargs : parse_args cfg argv = some (verb, all, some pin))
    (hstatus : strcmp verb "status".data ≠ 0)
    (hverb : verb.head? = some 't')
    (hres : resolves cfg E s pin gpio)
    (hreq : (E.gpio_request s gpio).1 = 0 ∨ (E.gpio_request s gpio).1 = -EBUSY)
    (hv : E.gpio_get_value s gpio = v) (hv01 : v = 0 ∨ v = 1) :
    (do_gpio cfg E s argv).ret = 1 - v ∧
      Call.direction_output gpio (1 - v)
        (E.gpio_direction_output (E.gpio_request s gpio).2 gpio (1 - v)).1
          ∈ (do_gpio cfg E s argv).calls ∧
      E.gpio_get_value (do_gpio cfg E s argv).state gpio = 1 - v := by
  rw [do_gpio_exec cfg E s argv verb all pin gpio _ hargs hstatus
    (parse_behavior_t verb hverb) hres hreq]
  simp only [exec_cmd]
  rw [hE.request, hv]
  rcases hv01 with h | h
  · subst h
    simp only [if_true]
    refine ⟨?_, ?_, ?_⟩
    · rw [(drive_result _ _ _ _ _ _ _).1]; rfl
    · rw [(drive_result _ _ _ _ _ _ _).2.1]
      have : to_int 1 = 1 - 0 := by decide
      rw [this]
      simp
    · rw [drive_reads_back E hE _ _ _ _ _ _ (Or.inr rfl)]; rfl
  · subst h
    have h10 : ¬ ((1 : Int) = 0) := by decide
    simp only [if_neg h10]
    refine ⟨?_, ?_, ?_⟩
    · rw [(drive_result _ _ _ _ _ _ _).1]; rfl
    · rw [(drive_result _ _ _ _ _ _ _).2.1]
      have : to_int 0 = 1 - 1 := by decide
      rw [this]
      simp
    · rw [drive_reads_back E hE _ _ _ _ _ _ (Or.inl rfl)]; rfl

/-- C2: `toggle` is an involution. Over a driver in which reading a pin returns the
last driven level, for a pin that resolves and can be acquired (request returns 0 or
`-EBUSY`) in both runs and whose value is `v` in {0, 1}: the first `do_gpio` with a
verb starting with `t` drives and returns `1 - v` and leaves the pin reading `1 - v`;
the second run, on the state the first one left, drives and returns `v` and leaves the
pin reading `v`. -/
theorem toggle_twice_restores {σ : Type} (cfg : Config) (E : Extern σ)
    (hE : ReadsLastDriven E) (s : σ) (argv : List CStr) (verb : CStr) (all : Bool)
    (pin : CStr) (gpio : Nat) (v : Int)
    (hargs : parse_args cfg argv = some (verb, all, some pin))
    (hstatus : strcmp verb "status".data ≠ 0)
    (hverb : verb.head? = some 't')
    (hres : resolves cfg E s pin gpio)
    (hreq : (E.gpio_request s gpio).1 = 0 ∨ (E.gpio_request s gpio).1 = -EBUSY)
    (hres2 : resolves cfg E (do_gpio cfg E s argv).state pin gpio)
    (hreq2 : (E.gpio_request (do_gpio cfg E s argv).state gpio).1 = 0 ∨
      (E.gpio_request (do_gpio cfg E s argv).state gpio).1 = -EBUSY)
    (hv : E.gpio_get_value s gpio = v) (hv01 : v = 0 ∨ v = 1) :
    (do_gpio cfg E s argv).ret = 1 - v ∧
      Call.direction_output gpio (1 - v)
        (E.gpio_direction_output (E.gpio_request s gpio).2 gpio (1 - v)).1
          ∈ (do_gpio cfg E s argv).calls ∧
      E.gpio_get_value (do_gpio cfg E s argv).state gpio = 1 - v ∧
      (do_gpio cfg E (do_gpio cfg E s argv).state argv).ret = v ∧
      Call.direction_output gpio v
        (E.gpio_direction_output
          (E.gpio_request (do_gpio cfg E s argv).state gpio).2 gpio v).1
          ∈ (do_gpio cfg E (do_gpio cfg E s argv).state argv).calls ∧
      E.gpio_get_value (do_gpio cfg E (do_gpio cfg E s argv).state argv).state gpio = v := by
  have h1 := toggle_run cfg E hE s argv verb all pin gpio v hargs hstatus hverb hres hreq
    hv hv01
  have hv01' : (1 - v = 0) ∨ (1 - v = 1) := by omega
  have h2 := toggle_run cfg E hE (do_gpio cfg E s argv).state argv verb all pin gpio
    (1 - v) hargs hstatus hverb hres2 hreq2 h1.2.2 hv01'
  have hvv : 1 - (1 - v) = v := by omega
  rw [hvv] at h2
  exact ⟨h1.1, h1.2.1, h1.2.2, h2.1, h2.2.1, h2.2.2⟩

/-- C2 on the reference driver: `gpio toggle 14` twice on idle pins (pin 14 low)
returns 1, then 0, and leaves pin 14 reading 0. -/
theorem toggle_twice_restores_witness :
    (do_gpio ⟨true, false⟩ (sim []) pins_idle
        ["gpio".data, "toggle".data, "14".data]).ret = 1 - 0 ∧
      (do_gpio ⟨true, false⟩ (sim [])
        (do_gpio ⟨true, false⟩ (sim []) pins_idle
          ["gpio".data, "toggle".data, "14".data]).state
        ["gpio".data, "toggle".data, "14".data]).ret = 0 ∧
      (sim []).gpio_get_value
        (do_gpio ⟨true, false⟩ (sim [])
          (do_gpio ⟨true, false⟩ (sim []) pins_idle
            ["gpio".data, "toggle".data, "14".data]).state
          ["gpio".data, "toggle".data, "14".data]).state 14 = 0 :=
  have h := toggle_twice_restores ⟨true, false⟩ (sim []) (sim_reads_last_driven [])
    pins_idle ["gpio".data, "toggle".data, "14".data] "toggle".data false "14".data 14 0
    (by decide) (by decide) (by decide)
    ⟨fun _ => ⟨by decide, by decide⟩, fun h => nomatch h⟩ (Or.inl (by decide))
    ⟨fun _ => ⟨by decide, by decide⟩, fun h => nomatch h⟩ (Or.inl (by decide))
    (by decide) (Or.inl rfl)
  ⟨h.1, h.2.2.2.1, h.2.2.2.2.2⟩

/-! ## Acquire and release -/

theorem exec_cmd_calls {σ : Type} (E : Extern σ) (s : σ) (sub_cmd : gpio_cmd)
    (pin : CStr) (gpio : Nat) (ret : Int) (calls : List Call) :
    ∃ ops value, (exec_cmd E s sub_cmd pin gpio ret calls).calls =
        calls ++ ops ++ (if ret = -EBUSY then [] else [Call.free gpio]) ∧
      (∀ c ∈ ops, c.isAcquire = false) ∧ (∃ c ∈ ops, c.isDirection gpio = true) ∧
      (exec_cmd E s sub_cmd pin gpio ret calls).ret = to_int value ∧
      (exec_cmd E s sub_cmd pin gpio ret calls).out = [Ev.value_is pin gpio value] := by
  cases sub_cmd
  · refine ⟨[Call.direction_input gpio (E.gpio_direction_input s gpio).1,
      Call.get_value gpio (E.gpio_get_value (E.gpio_direction_input s gpio).2 gpio)],
      to_ulong (E.gpio_get_value (E.gpio_direction_input s gpio).2 gpio), ?_, ?_, ?_, ?_, ?_⟩
    · simp only [exec_cmd, report_and_free]
      by_cases h : ret = -EBUSY <;> simp [h]
    · intro c hc
      simp only [List.mem_cons, List.mem_singleton, List.not_mem_nil, or_false] at hc
      rcases hc with rfl | rfl <;> rfl
    · exact ⟨_, List.mem_cons_self _ _, by simp [Call.isDirection]⟩
    · simp only [exec_cmd, report_and_free]
      by_cases h : ret = -EBUSY <;> simp [h]
    · simp only [exec_cmd, report_and_free]
      by_cases h : ret = -EBUSY <;> simp [h]
  · refine ⟨[Call.direction_output gpio (to_int 1)
      (E.gpio_direction_output s gpio (to_int 1)).1], 1, ?_, ?_, ?_, ?_, ?_⟩
    · simp only [exec_cmd]
      rw [(drive_result _ _ _ _ _ _ _).2.1]
    · intro c hc
      simp only [List.mem_singleton] at hc
      rw [hc]; rfl
    · exact ⟨_, List.mem_cons_self _ _, by simp [Call.isDirection]⟩
    · simp only [exec_cmd]
      exact (drive_result _ _ _ _ _ _ _).1
    · simp only [exec_cmd]
      exact (drive_result _ _ _ _ _ _ _).2.2.1
  · refine ⟨[Call.direction_output gpio (to_int 0)
      (E.gpio_direction_output s gpio (to_int 0)).1], 0, ?_, ?_, ?_, ?_, ?_⟩
    · simp only [exec_cmd]
      rw [(drive_result _ _ _ _ _ _ _).2.1]
    · intro c hc
      simp only [List.mem_singleton] at hc
      rw [hc]; rfl
    · exact ⟨_, List.mem_cons_self _ _, by simp [Call.isDirection]⟩
    · simp only [exec_cmd]
      exact (drive_result _ _ _ _ _ _ _).1
    · simp only [exec_cmd]
      exact (drive_result _ _ _ _ _ _ _).2.2.1
  · refine ⟨[Call.get_value gpio (E.gpio_get_value s gpio),
      Call.direction_output gpio (to_int (if E.gpio_get_value s gpio = 0 then 1 else 0))
        (E.gpio_direction_output s gpio
          (to_int (if E.gpio_get_value s gpio = 0 then 1 else 0))).1],
      (if E.gpio_get_value s gpio = 0 then 1 else 0), ?_, ?_, ?_, ?_, ?_⟩
    · simp only [exec_cmd]
      rw [(drive_result _ _ _ _ _ _ _).2.1]
      simp
    · intro c hc
      simp only [List.mem_cons, List.mem_singleton, List.not_mem_nil, or_false] at hc
      rcases hc with rfl | rfl <;> rfl
    · exact ⟨_, List.mem_cons_of_mem _ (List.mem_cons_self _ _), by simp [Call.isDirection]⟩
    · simp only [exec_cmd]
      exact (drive_result _ _ _ _ _ _ _).1
    · simp only [exec_cmd]
      exact (drive_result _ _ _ _ _ _ _).2.2.1

theorem strcmp_status_head (verb : CStr) (h : strcmp verb "status".data = 0) :
    verb.head? = some 's' := by
  have hs : "status".data = 's' :: "tatus".data := rfl
  rw [hs] at h
  cases verb with
  | nil =>
    simp only [strcmp] at h
    exact absurd h (by decide)
  | cons c cs =>
    simp only [strcmp] at h
    by_cases hc : c = 's'
    · rw [hc]; rfl
    · rw [if_neg hc] at h
      exact absurd h (char_diff_ne_zero c 's' hc)

theorem parse_behavior_none (verb : CStr)
    (h : ∀ c, verb.head? = some c → c ≠ 'i' ∧ c ≠ 's' ∧ c ≠ 'c' ∧ c ≠ 't') :
    parse_behavior verb = none := by
  unfold parse_behavior
  cases hv : verb.head? with
  | none => rfl
  | some c =>
    obtain ⟨h1, h2, h3, h4⟩ := h c hv
    simp only [if_neg h1, if_neg h2, if_neg h3, if_neg h4]

theorem parse_args_short (cfg : Config) (argv : List CStr) (h : argv.length < 2) :
    parse_args cfg argv = none := by
  match argv, h with
  | [], _ => rfl
  | [_], _ => rfl
  | _ :: _ :: _, h =>
    simp only [List.length_cons] at h
    omega

/-- C4 fails as stated: `gpio status` is an argument list with no pin operand, and with
`CONFIG_DM_GPIO` it enumerates the banks, prints their pins and returns 0, not
`CMD_RET_USAGE`. -/
theorem usage_error_counterexample :
    parse_args ⟨true, false⟩ ["gpio".data, "status".data]
        = some ("status".data, false, none) ∧
      (do_gpio ⟨true, false⟩ (sim [bankA]) pins_idle ["gpio".data, "status".data]).ret = 0 ∧
      (do_gpio ⟨true, false⟩ (sim [bankA]) pins_idle ["gpio".data, "status".data]).ret
        ≠ CMD_RET_USAGE ∧
      (do_gpio ⟨true, false⟩ (sim [bankA]) pins_idle ["gpio".data, "status".data]).calls
        = [Call.enumerate 0] ∧
      (do_gpio ⟨true, false⟩ (sim [bankA]) pins_idle ["gpio".data, "status".data]).out
        = [Ev.show_gpio 0 0, Ev.bank 0 "A".data,
            Ev.pin 0 0 (Line.fields (some "A".data) 0 (some "input".data) 1),
            Ev.show_gpio 0 1, Ev.show_gpio 0 2,
            Ev.pin 0 2 (Line.fields (some "A".data) 2 (some "input".data) 1)] := by
  decide

/-- C4, amended: `do_gpio` returns `CMD_RET_USAGE`, makes no driver call, prints nothing
and leaves the driver state as it was for every argument list with fewer than 2
arguments, for every argument list whose verb starts with none of `i`, `s`, `c`, `t`
(such a verb is not `status`), and for every argument list whose verb is not `status`
and which has no pin operand. -/
theorem usage_error_no_driver_call {σ : Type} (cfg : Config) (E : Extern σ) (s : σ)
    (argv : List CStr) :
    (argv.length < 2 →
      (do_gpio cfg E s argv).ret = CMD_RET_USAGE ∧ (do_gpio cfg E s argv).calls = [] ∧
        (do_gpio cfg E s argv).out = [] ∧ (do_gpio cfg E s argv).state = s) ∧
    (∀ (verb : CStr) (all : Bool) (operand : Option CStr),
      parse_args cfg argv = some (verb, all, operand) →
      ((∀ c, verb.head? = some c → c ≠ 'i' ∧ c ≠ 's' ∧ c ≠ 'c' ∧ c ≠ 't') ∨
        (strcmp verb "status".data ≠ 0 ∧ operand = none)) →
      (do_gpio cfg E s argv).ret = CMD_RET_USAGE ∧ (do_gpio cfg E s argv).calls = [] ∧
        (do_gpio cfg E s argv).out = [] ∧ (do_gpio cfg E s argv).state = s) := by
  constructor
  · intro h
    unfold do_gpio
    rw [parse_args_short cfg argv h]
    exact ⟨rfl, rfl, rfl, rfl⟩
  · intro verb all operand hargs h
    have hu : do_gpio cfg E s argv = show_usage s := by
      unfold do_gpio
      rw [hargs]
      rcases h with h | ⟨h1, h2⟩
      · have hstatus : strcmp verb "status".data ≠ 0 := by
          intro h0
          exact (h 's' (strcmp_status_head verb h0)).2.1 rfl
        simp only [if_neg hstatus]
        cases operand with
        | none => rfl
        | some pin =>
          simp only [parse_behavior_none verb h]
      · simp only [if_neg h1, h2]
    rw [hu]
    exact ⟨rfl, rfl, rfl, rfl⟩

/-- C4, amended, on the reference driver: `gpio frobnicate 3` is a usage error without
any driver call. -/
theorem usage_error_no_driver_call_witness :
    (do_gpio ⟨true, false⟩ (sim [bankA]) pins_idle
        ["gpio".data, "frobnicate".data, "3".data]).ret = CMD_RET_USAGE ∧
      (do_gpio ⟨true, false⟩ (sim [bankA]) pins_idle
        ["gpio".data, "frobnicate".data, "3".data]).calls = [] :=
  have h := (usage_error_no_driver_call ⟨true, false⟩ (sim [bankA]) pins_idle
    ["gpio".data, "frobnicate".data, "3".data]).2 "frobnicate".data false
    (some "3".data) (by decide)
    (Or.inl (by
      intro c hc
      have : c = 'f' := by
        have h' : some 'f' = some c := hc
        exact (Option.some.inj h').symm
      subst this
      decide))
  ⟨h.1, h.2.1⟩

/-! ## The exit code -/

/-- C12: with `CONFIG_DM_GPIO`, when `gpio_lookup_name` returns nonzero for the pin
operand, `do_gpio` returns what `cmd_process_error` makes of that error and touches no
hardware: the lookup is the only driver call (no request, direction change, read,
drive or free) and the driver state is unchanged. -/
theorem lookup_failure_touches_nothing {σ : Type} (cfg : Config) (E : Extern σ) (s : σ)
    (argv : List CStr) (verb : CStr) (all : Bool) (pin : CStr) (sub_cmd : gpio_cmd)
    (hcfg : cfg.CONFIG_DM_GPIO = true)
    (hargs : parse_args cfg argv = some (verb, all, some pin))
    (hstatus : strcmp verb "status".data ≠ 0)
    (hverb : parse_behavior verb = some sub_cmd)
    (hfail : (E.gpio_lookup_name s pin).1 ≠ 0) :
    (do_gpio cfg E s argv).ret = (cmd_process_error (E.gpio_lookup_name s pin).1).1 ∧
      (do_gpio cfg E s argv).ret ≠ 0 ∧
      (do_gpio cfg E s argv).calls =
        [Call.lookup_name pin (E.gpio_lookup_name s pin).1 (E.gpio_lookup_name s pin).2] ∧
      (do_gpio cfg E s argv).state = s ∧
      (do_gpio cfg E s argv).out = (cmd_process_error (E.gpio_lookup_name s pin).1).2 := by
  rw [do_gpio_mutate cfg E s argv verb all pin sub_cmd hargs hstatus hverb]
  unfold mutate
  rw [hcfg, if_pos rfl, if_pos hfail]
  refine ⟨rfl, ?_, rfl, rfl, rfl⟩
  show (cmd_process_error (E.gpio_lookup_name s pin).1).1 ≠ 0
  unfold cmd_process_error
  rw [if_pos hfail]
  exact one_ne_zero

/-- C12 on a driver whose lookup fails with -22: `gpio set nopin` returns 1 after the
lookup alone and leaves the pins as they were. -/
theorem lookup_failure_touches_nothing_witness :
    (do_gpio ⟨true, false⟩ (sim_faulty (-22) 0 0 0) pins_idle
        ["gpio".data, "set".data, "nopin".data]).ret = 1 ∧
      (do_gpio ⟨true, false⟩ (sim_faulty (-22) 0 0 0) pins_idle
        ["gpio".data, "set".data, "nopin".data]).calls
        = [Call.lookup_name "nopin".data (-22) 0] ∧
      (do_gpio ⟨true, false⟩ (sim_faulty (-22) 0 0 0) pins_idle
        ["gpio".data, "set".data, "nopin".data]).state = pins_idle :=
  have h := lookup_failure_touches_nothing ⟨true, false⟩ (sim_faulty (-22) 0 0 0) pins_idle
    ["gpio".data, "set".data, "nopin".data] "set".data false "nopin".data
    gpio_cmd.GPIO_SET rfl (by decide) (by decide) (by decide) (by decide)
  ⟨h.1.trans (by decide), h.2.2.1.trans (by decide), h.2.2.2.1⟩

/-! ## The function classification -/

theorem gpio_function_length : (gpio_function.length : Int) = 5 := rfl

theorem pin_func_range (dev : udevice) (o : Int) :
    0 ≤ pin_func dev o ∧ pin_func dev o < 5 := by
  unfold pin_func
  split
  · simp only [gpio_function_length]
    split
    · rename_i h
      exact ⟨h.1, h.2⟩
    · exact ⟨by decide, by decide⟩
  · exact ⟨by decide, by decide⟩

theorem gpio_function_get (f : Int) (h0 : 0 ≤ f) (h5 : f < 5) :
    ∃ label, gpio_function.get? f.toNat = some label := by
  have h : f.toNat < 5 := by omega
  match hn : f.toNat, h with
  | 0, _ => exact ⟨_, rfl⟩
  | 1, _ => exact ⟨_, rfl⟩
  | 2, _ => exact ⟨_, rfl⟩
  | 3, _ => exact ⟨_, rfl⟩
  | 4, _ => exact ⟨_, rfl⟩

/-- C17: the classification `func` used by `show_gpio` is the result of `get_function`
when the operation exists and its result `r` satisfies `0 <= r < GPIOF_COUNT`, and
`GPIOF_UNKNOWN` otherwise (operation absent, negative result, result `>= GPIOF_COUNT`);
so `func` always indexes the label table `gpio_function` (whose length is
`GPIOF_COUNT`) in range, and a pin whose function is unavailable has the label
`unknown` and is printed by `show_gpio` whatever the flags, also without show-all. -/
theorem pin_func_classification (i : Nat) (dev : udevice) (bn : Option CStr) (o : Int)
    (flags : Nat) :
    (∀ g, dev.get_function = some g → 0 ≤ g o → g o < (GPIOF_COUNT : Int) →
      pin_func dev o = g o) ∧
    (∀ g, dev.get_function = some g → (g o < 0 ∨ (GPIOF_COUNT : Int) ≤ g o) →
      pin_func dev o = GPIOF_UNKNOWN) ∧
    (dev.get_function = none → pin_func dev o = GPIOF_UNKNOWN) ∧
    (gpio_function.length = GPIOF_COUNT ∧ 0 ≤ pin_func dev o ∧
      pin_func dev o < (gpio_function.length : Int)) ∧
    (∃ label, gpio_function.get? (pin_func dev o).toNat = some label) ∧
    (pin_func dev o = GPIOF_UNKNOWN →
      gpio_function.get? (pin_func dev o).toNat = some "unknown".data ∧
      show_line i dev bn o ∈ (show_gpio i dev bn o flags).2 ∧
      (dev.get_state = none →
        show_line i dev bn o =
          Ev.pin i o (Line.fields bn o (some "unknown".data) (dev.get_value o)))) := by
  have hc : (GPIOF_COUNT : Int) = 5 := rfl
  refine ⟨?_, ?_, ?_, ⟨rfl, (pin_func_range dev o).1, (pin_func_range dev o).2⟩,
    gpio_function_get _ (pin_func_range dev o).1 (pin_func_range dev o).2, ?_⟩
  · intro g hg h0 h5
    unfold pin_func
    rw [hg]
    simp only [gpio_function_length]
    rw [hc] at h5
    rw [if_pos ⟨h0, h5⟩]
  · intro g hg h
    unfold pin_func
    rw [hg]
    simp only [gpio_function_length]
    rw [hc] at h
    rw [if_neg]
    intro hh
    have := hh.1
    have := hh.2
    omega
  · intro hg
    unfold pin_func
    rw [hg]
  · intro hu
    have hl : gpio_function.get? (pin_func dev o).toNat = some "unknown".data := by
      rw [hu]; rfl
    refine ⟨hl, ?_, ?_⟩
    · unfold show_gpio
      rw [if_neg]
      · simp
      · intro h
        rw [hu] at h
        exact absurd h.2 (by decide)
    · intro hs
      unfold show_line
      rw [hs, hl]

/-- C17 at bank `AB`, which has no `get_function`: pin 1 is classified
`GPIOF_UNKNOWN` and printed with the label `unknown` without show-all. -/
theorem pin_func_classification_witness :
    pin_func bankAB 1 = GPIOF_UNKNOWN ∧
      Ev.pin 0 1 (Line.fields (some "AB".data) 1 (some "unknown".data) 0)
        ∈ (show_gpio 0 bankAB (some "AB".data) 1 2).2 :=
  have h := pin_func_classification 0 bankAB (some "AB".data) 1 2
  ⟨h.2.2.1 rfl, (h.2.2.2.2.2 (h.2.2.1 rfl)).2.2 rfl ▸ (h.2.2.2.2.2 (h.2.2.1 rfl)).2.1⟩

/-! ## Status mode and the pin state -/

theorem to_ulong_to_int (u : Nat) : to_ulong (to_int u) = u % 2 ^ 32 := by
  unfold to_int to_ulong
  have e32 : (2 : Int) ^ 32 = 4294967296 := by norm_num
  have n32 : (2 : Nat) ^ 32 = 4294967296 := by norm_num
  have n31 : (2 : Nat) ^ 31 = 2147483648 := by norm_num
  simp only [e32, n32, n31]
  split <;> omega

theorem request_and_exec_requests {σ : Type} (E : Extern σ) (s : σ) (sub_cmd : gpio_cmd)
    (pin : CStr) (gpio : Nat) (calls : List Call) :
    ∃ rest, (request_and_exec E s sub_cmd pin gpio calls).calls =
      calls ++ Call.request gpio (E.gpio_request s gpio).1 :: rest := by
  unfold request_and_exec
  split
  · exact ⟨[], rfl⟩
  · obtain ⟨ops, _, h, _⟩ := exec_cmd_calls E (E.gpio_request s gpio).2 sub_cmd pin gpio
      (E.gpio_request s gpio).1 (calls ++ [Call.request gpio (E.gpio_request s gpio).1])
    refine ⟨ops ++ (if (E.gpio_request s gpio).1 = -EBUSY then [] else [Call.free gpio]), ?_⟩
    rw [h]
    simp

theorem parse_decimal_no_digit (pin : CStr) (acc : Nat)
    (h : ∀ c, pin.head? = some c → c.isDigit = false) : parse_decimal pin acc = acc := by
  cases pin with
  | nil => rfl
  | cons c cs =>
    have hc := h c rfl
    simp [parse_decimal, hc]

theorem parse_decimal_leading (rest : CStr)
    (hrest : ∀ c, rest.head? = some c → c.isDigit = false) :
    ∀ (ds : CStr) (acc : Nat), (∀ c ∈ ds, c.isDigit = true) →
      parse_decimal (ds ++ rest) acc = parse_decimal ds acc
  | [], acc, _ => by
    simp only [List.nil_append, parse_decimal]
    exact parse_decimal_no_digit rest acc hrest
  | d :: ds, acc, hd => by
    have h1 : d.isDigit = true := hd d (List.mem_cons_self _ _)
    simp only [List.cons_append, parse_decimal, h1, if_true]
    exact parse_decimal_leading rest hrest ds _ (fun c hc => hd c (List.mem_cons_of_mem _ hc))

/-- C13: without `CONFIG_DM_GPIO`, with the default `name_to_gpio` over a
`simple_strtoul` that reads the leading unsigned decimal integer, pin resolution never
fails: every operand resolves to the number its leading digits spell (as an `unsigned
int`), what follows the digits is ignored, an operand without a leading digit resolves
to pin 0, and `do_gpio` goes on to `gpio_request` on that pin instead of returning at
the `gpio < 0` test. -/
theorem legacy_resolution_never_fails {σ : Type} (cfg : Config) (E : Extern σ) (s : σ)
    (argv : List CStr) (verb : CStr) (all : Bool) (pin : CStr) (sub_cmd : gpio_cmd)
    (hcfg : cfg.CONFIG_DM_GPIO = false) (hst : E.simple_strtoul = strtoul_dec)
    (hargs : parse_args cfg argv = some (verb, all, some pin))
    (hstatus : strcmp verb "status".data ≠ 0)
    (hverb : parse_behavior verb = some sub_cmd) :
    name_to_gpio E.simple_strtoul pin = to_int (parse_decimal pin 0) ∧
    resolves cfg E s pin (parse_decimal pin 0 % 2 ^ 32) ∧
    do_gpio cfg E s argv =
      request_and_exec E s sub_cmd pin (parse_decimal pin 0 % 2 ^ 32)
        [Call.name_to_gpio pin (to_int (parse_decimal pin 0))] ∧
    (∃ rest, (do_gpio cfg E s argv).calls =
      Call.name_to_gpio pin (to_int (parse_decimal pin 0)) ::
        Call.request (parse_decimal pin 0 % 2 ^ 32)
          (E.gpio_request s (parse_decimal pin 0 % 2 ^ 32)).1 :: rest) ∧
    ((∀ c, pin.head? = some c → c.isDigit = false) → parse_decimal pin 0 = 0) ∧
    (∀ ds rest, pin = ds ++ rest → (∀ c ∈ ds, c.isDigit = true) →
      (∀ c, rest.head? = some c → c.isDigit = false) →
      parse_decimal pin 0 = parse_decimal ds 0) := by
  have hn : name_to_gpio E.simple_strtoul pin = to_int (parse_decimal pin 0) := by
    unfold name_to_gpio
    rw [hst]
    rfl
  have hres : resolves cfg E s pin (parse_decimal pin 0 % 2 ^ 32) := by
    constructor
    · intro h
      rw [hcfg] at h
      exact absurd h (by decide)
    · intro _
      rw [hn, to_ulong_to_int]
  have hd : do_gpio cfg E s argv =
      request_and_exec E s sub_cmd pin (parse_decimal pin 0 % 2 ^ 32)
        [Call.name_to_gpio pin (to_int (parse_decimal pin 0))] := by
    rw [do_gpio_mutate cfg E s argv verb all pin sub_cmd hargs hstatus hverb,
      mutate_resolved cfg E s sub_cmd pin _ hres]
    unfold lookup_call
    rw [hcfg, hn]
    rfl
  refine ⟨hn, hres, hd, ?_, fun h => parse_decimal_no_digit pin 0 h, ?_⟩
  · rw [hd]
    obtain ⟨rest, h⟩ := request_and_exec_requests E s sub_cmd pin
      (parse_decimal pin 0 % 2 ^ 32) [Call.name_to_gpio pin (to_int (parse_decimal pin 0))]
    exact ⟨rest, h⟩
  · intro ds rest hp hds hrest
    rw [hp]
    exact parse_decimal_leading rest hrest ds 0 hds

/-- C13 on the reference driver without `CONFIG_DM_GPIO`: `gpio set abc` requests and
drives pin 0, and `gpio set 14x` pin 14. -/
theorem legacy_resolution_never_fails_witness :
    (do_gpio ⟨false, false⟩ (sim []) pins_idle ["gpio".data, "set".data, "abc".data]).calls
        = [Call.name_to_gpio "abc".data 0, Call.request 0 0, Call.direction_output 0 1 0,
            Call.free 0] ∧
      parse_decimal "abc".data 0 = 0 ∧ parse_decimal "14x".data 0 = 14 :=
  have h := legacy_resolution_never_fails ⟨false, false⟩ (sim []) pins_idle
    ["gpio".data, "set".data, "abc".data] "set".data false "abc".data gpio_cmd.GPIO_SET
    rfl rfl (by decide) (by decide) (by decide)
  ⟨(congrArg Result.calls h.2.2.1).trans (by decide), h.2.2.2.2.1 (by decide), by decide⟩

/-! ## Driver failures and the exit code -/

/-- C14, the code at the failing inputs: on a driver whose `gpio_direction_output`
fails with -5, `gpio clear 14` logs the failed drive and still returns 0, and `gpio set
14` returns 1; on a driver whose `gpio_direction_input` fails, `gpio input 14` returns
the value read, 0; on a driver whose read reports -1, `gpio toggle 14` drives and
returns 0. Only a failed `gpio_request` is turned into an error code, -1. -/
theorem driver_failure_not_surfaced :
    (do_gpio ⟨true, false⟩ (sim_faulty 0 0 0 (-5)) pins_idle
        ["gpio".data, "clear".data, "14".data]).calls =
        [Call.lookup_name "14".data 0 14, Call.request 14 0,
          Call.direction_output 14 0 (-5), Call.free 14] ∧
      (do_gpio ⟨true, false⟩ (sim_faulty 0 0 0 (-5)) pins_idle
        ["gpio".data, "clear".data, "14".data]).ret = 0 ∧
      (do_gpio ⟨true, false⟩ (sim_faulty 0 0 0 (-5)) pins_idle
        ["gpio".data, "set".data, "14".data]).ret = 1 ∧
      (do_gpio ⟨true, false⟩ (sim_faulty 0 0 (-5) 0) pins_idle
        ["gpio".data, "input".data, "14".data]).calls =
        [Call.lookup_name "14".data 0 14, Call.request 14 0,
          Call.direction_input 14 (-5), Call.get_value 14 0, Call.free 14] ∧
      (do_gpio ⟨true, false⟩ (sim_faulty 0 0 (-5) 0) pins_idle
        ["gpio".data, "input".data, "14".data]).ret = 0 ∧
      (do_gpio ⟨true, false⟩ (sim []) pins_fault
        ["gpio".data, "toggle".data, "14".data]).calls =
        [Call.lookup_name "14".data 0 14, Call.request 14 0, Call.get_value 14 (-1),
          Call.direction_output 14 0 0, Call.free 14] ∧
      (do_gpio ⟨true, false⟩ (sim []) pins_fault
        ["gpio".data, "toggle".data, "14".data]).ret = 0 ∧
      (do_gpio ⟨true, false⟩ (sim_faulty 0 (-5) 0 0) pins_idle
        ["gpio".data, "clear".data, "14".data]).ret = -1 := by
  decide

theorem report_and_free_ret {σ : Type} (E : Extern σ) (s : σ) (pin : CStr) (gpio : Nat)
    (ret : Int) (value : Nat) (calls : List Call) :
    (report_and_free E s pin gpio ret value calls).ret = to_int value := by
  unfold report_and_free
  split <;> rfl

theorem exec_cmd_ret {σ : Type} (E : Extern σ) (s : σ) (sub_cmd : gpio_cmd) (pin : CStr)
    (gpio : Nat) (ret : Int) (calls : List Call) :
    (sub_cmd = gpio_cmd.GPIO_INPUT →
      (exec_cmd E s sub_cmd pin gpio ret calls).ret =
        to_int (to_ulong (E.gpio_get_value (E.gpio_direction_input s gpio).2 gpio))) ∧
    (sub_cmd ≠ gpio_cmd.GPIO_INPUT →
      (exec_cmd E s sub_cmd pin gpio ret calls).ret = 0 ∨
        (exec_cmd E s sub_cmd pin gpio ret calls).ret = 1) := by
  constructor
  · intro h
    subst h
    simp only [exec_cmd]
    exact report_and_free_ret _ _ _ _ _ _ _
  · intro h
    have h0 : to_int 0 = 0 := by decide
    have h1 : to_int 1 = 1 := by decide
    cases sub_cmd with
    | GPIO_INPUT => exact absurd rfl h
    | GPIO_SET =>
      simp only [exec_cmd, drive]
      rw [report_and_free_ret, h1]
      exact Or.inr rfl
    | GPIO_CLEAR =>
      simp only [exec_cmd, drive]
      rw [report_and_free_ret, h0]
      exact Or.inl rfl
    | GPIO_TOGGLE =>
      simp only [exec_cmd, drive]
      rw [report_and_free_ret]
      split
      · rw [h1]; exact Or.inr rfl
      · rw [h0]; exact Or.inl rfl

/-- C15 fails as stated: `gpio set 14` is well formed (verb `set`, pin operand `14`),
and on a driver whose `gpio_request` fails with -5 `do_gpio` returns `CMD_RET_USAGE`;
`gpio input 14` is well formed, and on a driver whose read reports -1 `do_gpio` returns
`CMD_RET_USAGE` as well. -/
theorem usage_code_counterexample :
    parse_args ⟨true, false⟩ ["gpio".data, "set".data, "14".data]
        = some ("set".data, false, some "14".data) ∧
      parse_behavior "set".data = some gpio_cmd.GPIO_SET ∧
      (do_gpio ⟨true, false⟩ (sim_faulty 0 (-5) 0 0) pins_idle
        ["gpio".data, "set".data, "14".data]).calls =
        [Call.lookup_name "14".data 0 14, Call.request 14 (-5)] ∧
      (do_gpio ⟨true, false⟩ (sim_faulty 0 (-5) 0 0) pins_idle
        ["gpio".data, "set".data, "14".data]).ret = CMD_RET_USAGE ∧
      (do_gpio ⟨true, false⟩ (sim []) pins_fault
        ["gpio".data, "input".data, "14".data]).ret = CMD_RET_USAGE := by
  decide

theorem do_gpio_short {σ : Type} (cfg : Config) (E : Extern σ) (s : σ) (argv : List CStr)
    (h : argv.length < 2) : do_gpio cfg E s argv = show_usage s := by
  unfold do_gpio
  rw [parse_args_short cfg argv h]

theorem do_gpio_no_operand {σ : Type} (cfg : Config) (E : Extern σ) (s : σ)
    (argv : List CStr) (verb : CStr) (all : Bool)
    (hargs : parse_args cfg argv = some (verb, all, none))
    (hstatus : strcmp verb "status".data ≠ 0) : do_gpio cfg E s argv = show_usage s := by
  unfold do_gpio
  rw [hargs]
  simp only [if_neg hstatus]

theorem do_gpio_bad_verb {σ : Type} (cfg : Config) (E : Extern σ) (s : σ)
    (argv : List CStr) (verb : CStr) (all : Bool) (operand : Option CStr)
    (hargs : parse_args cfg argv = some (verb, all, operand))
    (hstatus : strcmp verb "status".data ≠ 0) (hverb : parse_behavior verb = none) :
    do_gpio cfg E s argv = show_usage s := by
  unfold do_gpio
  rw [hargs]
  simp only [if_neg hstatus]
  cases operand with
  | none => rfl
  | some pin => simp only [hverb]

/-- C15, amended: `do_gpio` returns `CMD_RET_USAGE` (-1) for every malformed invocation:
fewer than 2 arguments, a verb other than `status` without pin operand, an unrecognized
verb (one that is not `status` and for which line 175 finds no behaviour, as is every
verb that starts with none of `i`, `s`, `c`, `t`), and `status` exactly in a
configuration that supports neither `gpio_status()` nor `CONFIG_DM_GPIO`. For an
invocation with a well-formed verb and a pin operand, a failed lookup returns 1, and
after a request that returned 0 or `-EBUSY`, `set`, `clear` and `toggle` never return
`CMD_RET_USAGE` while `input` returns it exactly when the value it reads from
`gpio_get_value` is -1. -/
theorem usage_code_cases {σ : Type} (cfg : Config) (E : Extern σ) (s : σ)
    (argv : List CStr) :
    (argv.length < 2 → (do_gpio cfg E s argv).ret = CMD_RET_USAGE) ∧
    (∀ (verb : CStr) (all : Bool) (operand : Option CStr),
      parse_args cfg argv = some (verb, all, operand) →
      (strcmp verb "status".data = 0 →
        ((do_gpio cfg E s argv).ret = CMD_RET_USAGE ↔
          (cfg.gpio_status = false ∧ cfg.CONFIG_DM_GPIO = false))) ∧
      (strcmp verb "status".data ≠ 0 → operand = none →
        (do_gpio cfg E s argv).ret = CMD_RET_USAGE) ∧
      (strcmp verb "status".data ≠ 0 → parse_behavior verb = none →
        (do_gpio cfg E s argv).ret = CMD_RET_USAGE) ∧
      ((∀ c, verb.head? = some c → c ≠ 'i' ∧ c ≠ 's' ∧ c ≠ 'c' ∧ c ≠ 't') →
        (do_gpio cfg E s argv).ret = CMD_RET_USAGE) ∧
      (∀ (pin : CStr) (sub_cmd : gpio_cmd), operand = some pin →
        strcmp verb "status".data ≠ 0 → parse_behavior verb = some sub_cmd →
        (cfg.CONFIG_DM_GPIO = true → (E.gpio_lookup_name s pin).1 ≠ 0 →
          (do_gpio cfg E s argv).ret = 1) ∧
        (∀ gpio, resolves cfg E s pin gpio →
          ((E.gpio_request s gpio).1 = 0 ∨ (E.gpio_request s gpio).1 = -EBUSY) →
            (sub_cmd ≠ gpio_cmd.GPIO_INPUT →
              (do_gpio cfg E s argv).ret ≠ CMD_RET_USAGE) ∧
            (sub_cmd = gpio_cmd.GPIO_INPUT →
              ((do_gpio cfg E s argv).ret = CMD_RET_USAGE ↔
                to_int (to_ulong (E.gpio_get_value
                  (E.gpio_direction_input (E.gpio_request s gpio).2 gpio).2 gpio))
                    = -1))))) := by
  refine ⟨fun h => ?_, fun verb all operand hargs => ⟨?_, ?_, ?_, ?_, ?_⟩⟩
  · rw [do_gpio_short cfg E s argv h]
    rfl
  · intro hstatus
    have hd : do_gpio cfg E s argv = status cfg E s all operand := by
      unfold do_gpio
      rw [hargs]
      simp only [if_pos hstatus]
    rw [hd]
    cases hg : cfg.gpio_status
    · cases hdm : cfg.CONFIG_DM_GPIO
      · have hs : status cfg E s all operand = show_usage s := by
          unfold status
          rw [hg, hdm]
          rfl
        rw [hs]
        exact ⟨fun _ => ⟨rfl, rfl⟩, fun _ => rfl⟩
      · have hs : (status cfg E s all operand).ret = (cmd_process_error
            (do_gpio_status E.simple_strtoul (E.uclass s).1 (E.uclass s).2 all
              operand).1).1 := by
          unfold status
          rw [hg, hdm]
          rfl
        rw [hs]
        constructor
        · intro h
          unfold cmd_process_error at h
          have h1 : ¬ ((1 : Int) = CMD_RET_USAGE) := by decide
          have h0 : ¬ ((0 : Int) = CMD_RET_USAGE) := by decide
          split at h
          · exact absurd h h1
          · exact absurd h h0
        · intro h
          exact absurd h.2 (by decide)
    · have hs : (status cfg E s all operand).ret = 0 := by
        unfold status
        rw [hg]
        rfl
      rw [hs]
      constructor
      · intro h
        exact absurd h (by decide)
      · intro h
        exact absurd h.1 (by decide)
  · intro hstatus hop
    rw [hop] at hargs
    rw [do_gpio_no_operand cfg E s argv verb all hargs hstatus]
    rfl
  · intro hstatus hverb
    rw [do_gpio_bad_verb cfg E s argv verb all operand hargs hstatus hverb]
    rfl
  · intro hhead
    have hstatus : strcmp verb "status".data ≠ 0 := by
      intro h0
      exact (hhead 's' (strcmp_status_head verb h0)).2.1 rfl
    rw [do_gpio_bad_verb cfg E s argv verb all operand hargs hstatus
      (parse_behavior_none verb hhead)]
    rfl
  · intro pin sub_cmd hop hstatus hverb
    rw [hop] at hargs
    have hm := do_gpio_mutate cfg E s argv verb all pin sub_cmd hargs hstatus hverb
    refine ⟨?_, ?_⟩
    · intro hcfg hfail
      rw [hm]
      unfold mutate
      rw [hcfg, if_pos rfl, if_pos hfail]
      show (cmd_process_error (E.gpio_lookup_name s pin).1).1 = 1
      unfold cmd_process_error
      rw [if_pos hfail]
    · intro gpio hres hok
      rw [hm, mutate_resolved cfg E s sub_cmd pin gpio hres,
        request_and_exec_ok E s sub_cmd pin gpio _ hok]
      have hr := exec_cmd_ret E (E.gpio_request s gpio).2 sub_cmd pin gpio
        (E.gpio_request s gpio).1
        ([lookup_call cfg E s pin] ++ [Call.request gpio (E.gpio_request s gpio).1])
      refine ⟨?_, ?_⟩
      · intro hne
        rcases hr.2 hne with h | h <;> rw [h] <;> decide
      · intro hi
        rw [hr.1 hi]
        rfl

/-- C15, amended, on the reference driver: `gpio` alone, `gpio set` and `gpio blink 14`
return `CMD_RET_USAGE`; `gpio set 14` with a successful request does not return it, and
`gpio input 14` returns it when the value read is -1. -/
theorem usage_code_cases_witness :
    (do_gpio ⟨true, false⟩ (sim []) pins_idle ["gpio".data]).ret = CMD_RET_USAGE ∧
      (do_gpio ⟨true, false⟩ (sim []) pins_idle ["gpio".data, "set".data]).ret
        = CMD_RET_USAGE ∧
      (do_gpio ⟨true, false⟩ (sim []) pins_idle
        ["gpio".data, "blink".data, "14".data]).ret = CMD_RET_USAGE ∧
      (do_gpio ⟨true, false⟩ (sim []) pins_idle ["gpio".data, "set".data, "14".data]).ret
        ≠ CMD_RET_USAGE ∧
      (do_gpio ⟨true, false⟩ (sim []) pins_fault
        ["gpio".data, "input".data, "14".data]).ret = CMD_RET_USAGE :=
  ⟨(usage_code_cases ⟨true, false⟩ (sim []) pins_idle ["gpio".data]).1 (by decide),
    ((usage_code_cases ⟨true, false⟩ (sim []) pins_idle ["gpio".data, "set".data]).2
      "set".data false none (by decide)).2.1 (by decide) rfl,
    ((usage_code_cases ⟨true, false⟩ (sim []) pins_idle
      ["gpio".data, "blink".data, "14".data]).2
      "blink".data false (some "14".data) (by decide)).2.2.1 (by decide) (by decide),
    (((((usage_code_cases ⟨true, false⟩ (sim []) pins_idle
      ["gpio".data, "set".data, "14".data]).2 "set".data false (some "14".data)
      (by decide)).2.2.2.2 "14".data gpio_cmd.GPIO_SET rfl (by decide) (by decide)).2 14
      ⟨fun _ => ⟨by decide, by decide⟩, fun h => nomatch h⟩) (Or.inl (by decide))).1
      (by decide),
    ((((((usage_code_cases ⟨true, false⟩ (sim []) pins_fault
      ["gpio".data, "input".data, "14".data]).2 "input".data false (some "14".data)
      (by decide)).2.2.2.2 "14".data gpio_cmd.GPIO_INPUT rfl (by decide) (by decide)).2 14
      ⟨fun _ => ⟨by decide, by decide⟩, fun h => nomatch h⟩) (Or.inl (by decide))).2
      rfl).2 (by decide)⟩

/-! ## Offsets outside the bank -/

/-- C19, the code at the failing input: on the 8-pin bank `A`, `gpio status A99` enters
`show_gpio` with offset 99 and prints a line for pin `A99`, although only the offsets 0
to 7 exist. -/
theorem status_offset_out_of_range :
    bankA8.gpio_count = 8 ∧
      (do_gpio_status strtoul_dec [bankA8] 0 false (some "A99".data)).2 =
        [Ev.show_gpio 0 99, Ev.bank 0 "A".data,
          Ev.pin 0 99 (Line.fields (some "A".data) 99 (some "unknown".data) 0)] ∧
      ¬ ((99 : Int) < bankA8.gpio_count) := by
  decide

/-! ## The render flags as three booleans -/

theorem or_flag_ne_zero (a k : Nat) (hk : k ≠ 0) : a ||| k ≠ 0 := by
  intro h
  exact hk ((or_eq_zero a k).1 h).2

theorem bank_pending_bank_flags (all : Bool) (f : Nat) :
    bank_pending (bank_flags all f) = true := by
  unfold bank_pending bank_flags
  cases all
  · simp only [Bool.false_eq_true, if_false, or_and_flag, decide_eq_true_eq]
    exact or_flag_ne_zero _ _ (by decide)
  · simp only [if_true, or_and_flag, decide_eq_true_eq]
    show (f &&& FLAG_SHOW_BANK ||| 2) ||| 0 ≠ 0
    rw [Nat.or_zero]
    exact or_flag_ne_zero _ _ (by decide)

theorem newline_pending_bank_flags (all : Bool) (f : Nat) :
    newline_pending (bank_flags all f) = newline_pending f := by
  unfold newline_pending bank_flags
  cases all
  · simp only [Bool.false_eq_true, if_false, or_and_flag]
    show decide ((f &&& FLAG_SHOW_NEWLINE) ||| 0 ≠ 0) = _
    rw [Nat.or_zero]
  · simp only [if_true, or_and_flag]
    show decide (((f &&& FLAG_SHOW_NEWLINE) ||| 0) ||| 0 ≠ 0) = _
    rw [Nat.or_zero, Nat.or_zero]

theorem show_all_bank_flags (all : Bool) (f : Nat) :
    show_all (bank_flags all f) = (show_all f || all) := by
  unfold show_all
  cases all
  · rw [bank_flags_false_all, Bool.or_false]
  · rw [Bool.or_true, decide_eq_true_eq]
    exact bank_flags_true_all f

theorem show_all_end_flags (f : Nat) : show_all (end_flags f) = show_all f := by
  unfold show_all
  rw [end_flags_all]

theorem newline_pending_end_flags (f : Nat) :
    newline_pending (end_flags f) = (newline_pending f || !bank_pending f) := by
  unfold newline_pending bank_pending end_flags
  by_cases h : f &&& FLAG_SHOW_BANK = 0
  · rw [if_pos h, or_and_flag]
    have h1 : (f &&& FLAG_SHOW_NEWLINE ||| FLAG_SHOW_NEWLINE) ≠ 0 :=
      or_flag_ne_zero _ _ (by decide)
    simp [h, h1]
  · rw [if_neg h]
    simp [h]

theorem show_all_show_gpio (i : Nat) (dev : udevice) (bn : Option CStr) (o : Int)
    (f : Nat) : show_all (show_gpio i dev bn o f).1 = show_all f := by
  unfold show_all
  rw [show_gpio_all]

theorem clear_bank_pending (f : Nat) : bank_pending (clear_flag f FLAG_SHOW_BANK) = false := by
  unfold bank_pending
  rw [clear_flag_and]
  show decide (f &&& 0 ≠ 0) = false
  simp

theorem clear_bank_newline (f : Nat) :
    newline_pending (clear_flag f FLAG_SHOW_BANK) = newline_pending f := by
  unfold newline_pending
  rw [clear_flag_and]
  rfl

theorem clear_newline_pending (f : Nat) :
    newline_pending (clear_flag f FLAG_SHOW_NEWLINE) = false := by
  unfold newline_pending
  rw [clear_flag_and]
  show decide (f &&& 0 ≠ 0) = false
  simp

theorem show_header_events (i : Nat) (bn : Option CStr) (f : Nat) :
    (show_header i bn f).2 =
      (match bn with
        | some name =>
            if bank_pending f then header_events i name (newline_pending f) else []
        | none => []) ∧
    bank_pending (show_header i bn f).1 = (bank_pending f && bn.isNone) ∧
    newline_pending (show_header i bn f).1 =
      (newline_pending f && (bn.isNone || !bank_pending f)) := by
  unfold show_header
  cases bn with
  | none => simp
  | some name =>
    simp only
    by_cases hb : f &&& FLAG_SHOW_BANK ≠ 0
    · have hb' : bank_pending f = true := by simp [bank_pending, hb]
      rw [if_pos hb]
      by_cases hn : f &&& FLAG_SHOW_NEWLINE ≠ 0
      · have hn' : newline_pending f = true := by simp [newline_pending, hn]
        rw [if_pos hn]
        simp [hb', hn', header_events, clear_bank_pending, clear_bank_newline,
          clear_newline_pending]
      · have hn' : newline_pending f = false := by simpa [newline_pending] using hn
        rw [if_neg hn]
        simp [hb', hn', header_events, clear_bank_pending, clear_bank_newline]
    · have hb' : bank_pending f = false := by simpa [bank_pending] using hb
      rw [if_neg hb]
      simp [hb']

/-! ## The status report against the rendering policy -/

theorem show_gpio_render (i : Nat) (dev : udevice) (bn : Option CStr) (o : Int) (f : Nat)
    (all : Bool) (ha : show_all f = all) :
    (show_gpio i dev bn o f).2 =
      (if all = false ∧ pin_func dev o = GPIOF_UNUSED then [Ev.show_gpio i o]
        else Ev.show_gpio i o ::
          (match bn with
            | some name =>
                if bank_pending f then header_events i name (newline_pending f) else []
            | none => []) ++ [show_line i dev bn o]) ∧
    (all = false ∧ pin_func dev o = GPIOF_UNUSED → (show_gpio i dev bn o f).1 = f) ∧
    (¬ (all = false ∧ pin_func dev o = GPIOF_UNUSED) →
      bank_pending (show_gpio i dev bn o f).1 = (bank_pending f && bn.isNone) ∧
      newline_pending (show_gpio i dev bn o f).1 =
        (newline_pending f && (bn.isNone || !bank_pending f))) := by
  have hc : (f &&& FLAG_SHOW_ALL = 0 ∧ pin_func dev o = GPIOF_UNUSED) ↔
      (all = false ∧ pin_func dev o = GPIOF_UNUSED) := by
    rw [← ha]
    simp [show_all]
  unfold show_gpio
  by_cases h : all = false ∧ pin_func dev o = GPIOF_UNUSED
  · rw [if_pos (hc.2 h), if_pos h]
    exact ⟨rfl, fun _ => rfl, fun hn => absurd h hn⟩
  · rw [if_neg (fun h' => h (hc.1 h')), if_neg h]
    refine ⟨?_, fun h' => absurd h' h, fun _ => ?_⟩
    · rw [(show_header_events i bn f).1]
    · exact ⟨(show_header_events i bn f).2.1, (show_header_events i bn f).2.2⟩

theorem insert_header_no_entry (hdr : List Ev) :
    ∀ (l : List Ev), l.any Ev.isPinEntry = false → insert_header hdr l = l
  | [], _ => rfl
  | e :: rest, h => by
    simp only [List.any_cons, Bool.or_eq_false_iff] at h
    simp only [insert_header, h.1, Bool.false_eq_true, if_false]
    rw [insert_header_no_entry hdr rest h.2]

theorem show_pins_unnamed (all : Bool) (i : Nat) (dev : udevice) :
    ∀ (offs : List Int) (f : Nat), show_all f = all →
      show_pins i dev none offs f = (f, pin_part all i dev none offs)
  | [], _, _ => rfl
  | o :: rest, f, ha => by
    have h := show_gpio_render i dev none o f all ha
    have hf : (show_gpio i dev none o f).1 = f := by
      unfold show_gpio
      split
      · rfl
      · rfl
    simp only [show_pins, pin_part]
    rw [hf, show_pins_unnamed all i dev rest f ha, h.1]
    by_cases hh : all = false ∧ pin_func dev o = GPIOF_UNUSED
    · rw [if_pos hh, if_pos hh]
    · rw [if_neg hh, if_neg hh]
      rfl

theorem show_pins_render (all : Bool) (i : Nat) (dev : udevice) (name : CStr) :
    ∀ (offs : List Int) (f : Nat), show_all f = all →
      (show_pins i dev (some name) offs f).2 =
        (if bank_pending f then
          insert_header (header_events i name (newline_pending f))
            (pin_part all i dev (some name) offs)
        else pin_part all i dev (some name) offs) ∧
      show_all (show_pins i dev (some name) offs f).1 = all ∧
      bank_pending (show_pins i dev (some name) offs f).1 =
        (bank_pending f && !(pin_part all i dev (some name) offs).any Ev.isPinEntry) ∧
      newline_pending (show_pins i dev (some name) offs f).1 =
        (newline_pending f &&
          !(bank_pending f && (pin_part all i dev (some name) offs).any Ev.isPinEntry))
  | [], f, ha => by
    simp only [show_pins, pin_part, insert_header, List.any_nil, Bool.not_false,
      Bool.and_true, Bool.and_false, ite_self]
    exact ⟨trivial, ha, trivial, trivial⟩
  | o :: rest, f, ha => by
    have h := show_gpio_render i dev (some name) o f all ha
    have hcall : Ev.isPinEntry (Ev.show_gpio i o) = false := rfl
    have hline := (show_line_dev i dev (some name) o).2.2
    by_cases hh : all = false ∧ pin_func dev o = GPIOF_UNUSED
    · have ih := show_pins_render all i dev name rest f ha
      simp only [show_pins, pin_part]
      rw [h.2.1 hh, h.1, if_pos hh, if_pos hh]
      refine ⟨?_, ih.2.1, ?_, ?_⟩
      · rw [ih.1]
        split
        · simp only [List.singleton_append, insert_header, hcall, Bool.false_eq_true,
            if_false]
          rfl
        · rfl
      · rw [ih.2.2.1]
        simp [hcall]
      · rw [ih.2.2.2]
        simp [hcall]
    · have hb := (h.2.2 hh).1
      have hn := (h.2.2 hh).2
      simp only [Option.isNone_some, Bool.and_false, Bool.false_or] at hb hn
      have ha1 : show_all (show_gpio i dev (some name) o f).1 = all := by
        rw [show_all_show_gpio]; exact ha
      have ih := show_pins_render all i dev name rest _ ha1
      rw [hb] at ih
      simp only [Bool.false_eq_true, if_false, Bool.false_and, Bool.not_false,
        Bool.and_true] at ih
      simp only [show_pins, pin_part]
      rw [h.1, if_neg hh, if_neg hh]
      refine ⟨?_, ih.2.1, ?_, ?_⟩
      · rw [ih.1]
        cases hbp : bank_pending f
        · simp
        · simp only [if_true, List.cons_append, List.nil_append, List.singleton_append,
            insert_header, hcall, hline, Bool.false_eq_true, if_false, List.append_assoc]
          rfl
      · rw [ih.2.2.1]
        simp [hline]
      · rw [ih.2.2.2, hn]
        simp [hline]

theorem status_bank_render (st : CStr → Nat → Nat) (all : Bool) (name : Option CStr)
    (i : Nat) (dev : udevice) (f : Nat) (ha : show_all f = false ∨ all = true) :
    (status_bank st all name i dev f).2 =
        bank_render st all name (newline_pending f) i dev ∧
      (show_all (status_bank st all name i dev f).1 = false ∨ all = true) ∧
      newline_pending (status_bank st all name i dev f).1 =
        (newline_pending f || bank_has_header st all name i dev) := by
  have ha1 : show_all (bank_flags all f) = all := by
    rw [show_all_bank_flags]
    rcases ha with h | h
    · rw [h, Bool.false_or]
    · rw [h, Bool.or_true]
  have hinv : ∀ g, show_all g = all → (show_all g = false ∨ all = true) := by
    intro g hg
    cases all
    · exact Or.inl hg
    · exact Or.inr rfl
  unfold status_bank bank_render bank_has_header
  by_cases hc : dev.gpio_count = 0
  · rw [if_pos hc, if_neg (fun h => h.1 hc)]
    refine ⟨rfl, hinv _ ha1, ?_⟩
    rw [newline_pending_bank_flags]
    simp [hc]
  · rw [if_neg hc, status_pins_eq]
    cases hm : bank_matches name dev.bank_name
    · rw [if_neg (by simp), if_neg (by simp)]
      refine ⟨rfl, hinv _ (by rw [show_all_end_flags]; exact ha1), ?_⟩
      rw [newline_pending_end_flags, newline_pending_bank_flags, bank_pending_bank_flags]
      simp
    · rw [if_pos rfl, if_pos ⟨hc, rfl⟩]
      cases hbn : dev.bank_name with
      | none =>
        rw [show_pins_unnamed all i dev _ _ ha1]
        refine ⟨rfl, hinv _ (by rw [show_all_end_flags]; exact ha1), ?_⟩
        rw [newline_pending_end_flags, newline_pending_bank_flags, bank_pending_bank_flags]
        simp
      | some nm =>
        have h := show_pins_render all i dev nm (shown_offsets st name dev) _ ha1
        rw [bank_pending_bank_flags, newline_pending_bank_flags] at h
        simp only [if_true, Bool.true_and] at h
        refine ⟨h.1, hinv _ (by rw [show_all_end_flags]; exact h.2.1), ?_⟩
        rw [newline_pending_end_flags, h.2.2.1, h.2.2.2]
        simp only [hc, ne_eq, not_false_eq_true, decide_True, Bool.true_and,
          Option.isSome_some, Bool.and_true]
        cases newline_pending f <;>
          cases (pin_part all i dev (some nm) (shown_offsets st name dev)).any Ev.isPinEntry <;>
          rfl

theorem status_loop_render (st : CStr → Nat → Nat) (all : Bool) (name : Option CStr) :
    ∀ (devs : List udevice) (i : Nat) (f : Nat), (show_all f = false ∨ all = true) →
      (status_loop st all name i devs f).2 =
        status_render st all name (newline_pending f) i devs
  | [], _, _, _ => rfl
  | dev :: rest, i, f, ha => by
    have h := status_bank_render st all name i dev f ha
    simp only [status_loop, status_render]
    rw [h.1, status_loop_render st all name rest (i + 1) _ h.2.1, h.2.2]

/-! ## Headers and separating newlines of the rendering -/

theorem mem_pin_part (all : Bool) (i : Nat) (dev : udevice) (bn : Option CStr) :
    ∀ (offs : List Int) (e : Ev), e ∈ pin_part all i dev bn offs →
      (∃ o, e = Ev.show_gpio i o) ∨ (∃ o, e = show_line i dev bn o)
  | [], e, h => by simp [pin_part] at h
  | o :: rest, e, h => by
    simp only [pin_part, List.mem_append] at h
    rcases h with h | h
    · split at h
      · simp only [List.mem_singleton] at h
        exact Or.inl ⟨o, h⟩
      · simp only [List.mem_cons, List.mem_singleton, List.not_mem_nil, or_false] at h
        rcases h with h | h
        · exact Or.inl ⟨o, h⟩
        · exact Or.inr ⟨o, h⟩
    · exact mem_pin_part all i dev bn rest e h

theorem pin_part_no_header (all : Bool) (i : Nat) (dev : udevice) (bn : Option CStr)
    (offs : List Int) (e : Ev) (h : e ∈ pin_part all i dev bn offs) :
    (∀ j nm, e ≠ Ev.bank j nm) ∧ (∀ j, e ≠ Ev.newline j) := by
  rcases mem_pin_part all i dev bn offs e h with ⟨o, he⟩ | ⟨o, he⟩
  · rw [he]
    exact ⟨fun _ _ h' => (by cases h'), fun _ h' => (by cases h')⟩
  · rcases show_line_cases i dev bn o with h1 | ⟨l, h1⟩ <;> rw [he, h1] <;>
      exact ⟨fun _ _ h' => (by cases h'), fun _ h' => (by cases h')⟩

theorem mem_insert_header (hdr : List Ev) (e : Ev) :
    ∀ (l : List Ev), e ∈ insert_header hdr l ↔
      e ∈ l ∨ (l.any Ev.isPinEntry = true ∧ e ∈ hdr)
  | [] => by simp [insert_header]
  | x :: rest => by
    simp only [insert_header]
    by_cases hx : x.isPinEntry = true
    · rw [if_pos hx]
      simp only [List.mem_append, List.mem_cons, List.any_cons, hx, Bool.true_or, true_and]
      constructor
      · rintro (h | h | h)
        · exact Or.inr h
        · exact Or.inl (Or.inl h)
        · exact Or.inl (Or.inr h)
      · rintro ((h | h) | h)
        · exact Or.inr (Or.inl h)
        · exact Or.inr (Or.inr h)
        · exact Or.inl h
    · rw [if_neg hx]
      have hx' : x.isPinEntry = false := by simpa using hx
      simp only [List.mem_cons, mem_insert_header hdr e rest, List.any_cons, hx',
        Bool.false_or]
      constructor
      · rintro (h | h | h)
        · exact Or.inl (Or.inl h)
        · exact Or.inl (Or.inr h)
        · exact Or.inr h
      · rintro ((h | h) | h)
        · exact Or.inl h
        · exact Or.inr (Or.inl h)
        · exact Or.inr (Or.inr h)

theorem mem_bank_render_header (st : CStr → Nat → Nat) (all : Bool) (name : Option CStr)
    (seen : Bool) (k : Nat) (dev : udevice) (j : Nat) (nm : CStr) :
    Ev.bank j nm ∈ bank_render st all name seen k dev ↔
      (j = k ∧ dev.bank_name = some nm ∧ bank_has_header st all name k dev = true) := by
  unfold bank_render bank_has_header
  by_cases hc : dev.gpio_count ≠ 0 ∧ bank_matches name dev.bank_name = true
  · rw [if_pos hc]
    cases hbn : dev.bank_name with
    | none =>
      simp only [Option.isSome_none, Bool.and_false, Bool.false_and, Bool.false_eq_true,
        and_false, iff_false]
      intro h
      exact (pin_part_no_header all k dev none _ _ h).1 j nm rfl
    | some n =>
      rw [hbn] at hc
      simp only [mem_insert_header, header_events, List.mem_append, List.mem_singleton,
        Ev.bank.injEq, Option.some.injEq]
      have hno : Ev.bank j nm ∉ pin_part all k dev (some n) (shown_offsets st name dev) :=
        fun h => (pin_part_no_header all k dev (some n) _ _ h).1 j nm rfl
      have hnl : Ev.bank j nm ∉ (if seen = true then [Ev.newline k] else []) := by
        split <;> simp
      simp only [hno, hnl, false_or, hc.1, hc.2, ne_eq, not_false_eq_true, decide_True,
        Bool.true_and, Option.isSome_some, Bool.and_true]
      constructor
      · rintro ⟨h1, h2, h3⟩
        exact ⟨h2, h3.symm, h1⟩
      · rintro ⟨h1, h2, h3⟩
        exact ⟨h3, h1, h2.symm⟩
  · rw [if_neg hc]
    simp only [List.not_mem_nil, false_iff]
    rintro ⟨_, _, h⟩
    apply hc
    simp only [Bool.and_eq_true, decide_eq_true_eq] at h
    exact ⟨h.1.1.1, h.1.1.2⟩

theorem mem_bank_render_newline (st : CStr → Nat → Nat) (all : Bool) (name : Option CStr)
    (seen : Bool) (k : Nat) (dev : udevice) (j : Nat) :
    Ev.newline j ∈ bank_render st all name seen k dev ↔
      (j = k ∧ seen = true ∧ bank_has_header st all name k dev = true) := by
  unfold bank_render bank_has_header
  by_cases hc : dev.gpio_count ≠ 0 ∧ bank_matches name dev.bank_name = true
  · rw [if_pos hc]
    cases hbn : dev.bank_name with
    | none =>
      simp only [Option.isSome_none, Bool.and_false, Bool.false_and, Bool.false_eq_true,
        and_false, iff_false]
      intro h
      exact (pin_part_no_header all k dev none _ _ h).2 j rfl
    | some n =>
      rw [hbn] at hc
      simp only [mem_insert_header, header_events, List.mem_append, List.mem_singleton]
      have hno : Ev.newline j ∉ pin_part all k dev (some n) (shown_offsets st name dev) :=
        fun h => (pin_part_no_header all k dev (some n) _ _ h).2 j rfl
      have hb : ¬ (Ev.newline j = Ev.bank k n) := fun h => by cases h
      simp only [hno, hb, false_or, or_false, hc.1, hc.2, ne_eq, not_false_eq_true,
        decide_True, Bool.true_and, Option.isSome_some, Bool.and_true]
      cases seen
      · simp
      · simp only [if_true, List.mem_singleton, Ev.newline.injEq, true_and]
        constructor
        · rintro ⟨h1, h2⟩
          exact ⟨h2, h1⟩
        · rintro ⟨h1, h2⟩
          exact ⟨h2, h1⟩
  · rw [if_neg hc]
    simp only [List.not_mem_nil, false_iff]
    rintro ⟨_, _, h⟩
    apply hc
    simp only [Bool.and_eq_true, decide_eq_true_eq] at h
    exact ⟨h.1.1.1, h.1.1.2⟩

theorem header_printed_ge (st : CStr → Nat → Nat) (all : Bool) (name : Option CStr) :
    ∀ (devs : List udevice) (k j : Nat), header_printed st all name k devs j = true → k ≤ j
  | [], _, _, h => by simp [header_printed] at h
  | dev :: rest, k, j, h => by
    simp only [header_printed, Bool.or_eq_true, Bool.and_eq_true, decide_eq_true_eq] at h
    rcases h with h | h
    · omega
    · have := header_printed_ge st all name rest (k + 1) j h
      omega

theorem mem_status_render_header (st : CStr → Nat → Nat) (all : Bool)
    (name : Option CStr) :
    ∀ (devs : List udevice) (seen : Bool) (k j : Nat),
      (∃ nm, Ev.bank j nm ∈ status_render st all name seen k devs) ↔
        header_printed st all name k devs j = true
  | [], _, _, _ => by simp [status_render, header_printed]
  | dev :: rest, seen, k, j => by
    simp only [status_render, header_printed, List.mem_append, Bool.or_eq_true,
      Bool.and_eq_true, decide_eq_true_eq, mem_bank_render_header]
    rw [← mem_status_render_header st all name rest
      (seen || bank_has_header st all name k dev) (k + 1) j]
    constructor
    · rintro ⟨nm, h | h⟩
      · exact Or.inl ⟨h.1, h.2.2⟩
      · exact Or.inr ⟨nm, h⟩
    · rintro (⟨h1, h2⟩ | ⟨nm, h⟩)
      · have hs : dev.bank_name.isSome = true := by
          unfold bank_has_header at h2
          simp only [Bool.and_eq_true] at h2
          exact h2.1.2
        obtain ⟨nm, hnm⟩ := Option.isSome_iff_exists.1 hs
        exact ⟨nm, Or.inl ⟨h1, hnm, h2⟩⟩
      · exact ⟨nm, Or.inr h⟩

theorem mem_status_render_newline (st : CStr → Nat → Nat) (all : Bool)
    (name : Option CStr) :
    ∀ (devs : List udevice) (seen : Bool) (k i : Nat),
      Ev.newline i ∈ status_render st all name seen k devs ↔
        (header_printed st all name k devs i = true ∧
          (seen = true ∨ ∃ j, j < i ∧ header_printed st all name k devs j = true))
  | [], _, _, _ => by simp [status_render, header_printed]
  | dev :: rest, seen, k, i => by
    simp only [status_render, List.mem_append, mem_bank_render_newline,
      mem_status_render_newline st all name rest
        (seen || bank_has_header st all name k dev) (k + 1) i,
      header_printed, Bool.or_eq_true, Bool.and_eq_true, decide_eq_true_eq]
    have hge := header_printed_ge st all name rest (k + 1)
    constructor
    · rintro (⟨h1, h2, h3⟩ | ⟨h1, h2⟩)
      · exact ⟨Or.inl ⟨h1, h3⟩, Or.inl h2⟩
      · refine ⟨Or.inr h1, ?_⟩
        rcases h2 with (h2 | h2) | ⟨j, hj, h2⟩
        · exact Or.inl h2
        · exact Or.inr ⟨k, by have := hge i h1; omega, Or.inl ⟨rfl, h2⟩⟩
        · exact Or.inr ⟨j, hj, Or.inr h2⟩
    · rintro ⟨h1 | h1, h2⟩
      · rcases h2 with h2 | ⟨j, hj, h2 | h2⟩
        · exact Or.inl ⟨h1.1, h2, h1.2⟩
        · omega
        · have := hge j h2
          omega
      · rcases h2 with h2 | ⟨j, hj, h2 | h2⟩
        · exact Or.inr ⟨h1, Or.inl (Or.inl h2)⟩
        · exact Or.inr ⟨h1, Or.inl (Or.inr h2.2)⟩
        · exact Or.inr ⟨h1, Or.inr ⟨j, hj, h2⟩⟩

theorem countP_insert_header (p : Ev → Bool) (hdr : List Ev) :
    ∀ (l : List Ev), (insert_header hdr l).countP p =
      l.countP p + (if l.any Ev.isPinEntry = true then hdr.countP p else 0)
  | [] => by simp [insert_header]
  | x :: rest => by
    simp only [insert_header]
    by_cases hx : x.isPinEntry = true
    · rw [if_pos hx]
      simp only [List.countP_append, List.any_cons, hx, Bool.true_or, if_true]
      omega
    · rw [if_neg hx]
      have hx' : x.isPinEntry = false := by simpa using hx
      simp only [List.countP_cons, countP_insert_header p hdr rest, List.any_cons, hx',
        Bool.false_or]
      omega

theorem countP_header_bank_render (st : CStr → Nat → Nat) (all : Bool)
    (name : Option CStr) (seen : Bool) (k : Nat) (dev : udevice) (i : Nat) :
    (bank_render st all name seen k dev).countP (Ev.isHeaderOf i) ≤
      (if k = i then 1 else 0) := by
  have hp : ∀ (bn : Option CStr) (offs : List Int),
      (pin_part all k dev bn offs).countP (Ev.isHeaderOf i) = 0 := by
    intro bn offs
    rw [List.countP_eq_zero]
    intro e he
    rcases mem_pin_part all k dev bn offs e he with ⟨o, h⟩ | ⟨o, h⟩
    · rw [h]; simp [Ev.isHeaderOf]
    · rcases show_line_cases k dev bn o with h1 | ⟨l, h1⟩ <;> rw [h, h1] <;>
        simp [Ev.isHeaderOf]
  unfold bank_render
  split
  · split
    · rename_i nm _
      rw [countP_insert_header, hp]
      have hh : (header_events k nm seen).countP (Ev.isHeaderOf i) =
          (if k = i then 1 else 0) := by
        unfold header_events
        cases seen <;> by_cases hk : k = i <;> simp [Ev.isHeaderOf, hk]
      rw [hh]
      split <;> split <;> omega
    · rw [hp]
      exact Nat.zero_le _
  · simp

theorem countP_header_status_render (st : CStr → Nat → Nat) (all : Bool)
    (name : Option CStr) (i : Nat) :
    ∀ (devs : List udevice) (seen : Bool) (k : Nat),
      (status_render st all name seen k devs).countP (Ev.isHeaderOf i) ≤
        (if k ≤ i then 1 else 0)
  | [], _, _ => by simp [status_render]
  | dev :: rest, seen, k => by
    simp only [status_render, List.countP_append]
    have h1 := countP_header_bank_render st all name seen k dev i
    have h2 := countP_header_status_render st all name i rest
      (seen || bank_has_header st all name k dev) (k + 1)
    by_cases hk : k = i
    · rw [if_pos hk] at h1
      rw [if_neg (by omega)] at h2
      rw [if_pos (by omega)]
      omega
    · rw [if_neg hk] at h1
      by_cases hle : k ≤ i
      · rw [if_pos (by omega)] at h2
        rw [if_pos hle]
        omega
      · rw [if_neg (by omega)] at h2
        rw [if_neg hle]
        omega

theorem insert_header_first (hdr : List Ev) (e : Ev) (post : List Ev)
    (he : e.isPinEntry = true) :
    ∀ (pre : List Ev), (∀ x ∈ pre, x.isPinEntry = false) →
      insert_header hdr (pre ++ e :: post) = pre ++ hdr ++ e :: post
  | [], _ => by simp [insert_header, he]
  | x :: pre, h => by
    have hx : x.isPinEntry = false := h x (List.mem_cons_self _ _)
    rw [List.cons_append, insert_header, if_neg (by simp [hx]),
      insert_header_first hdr e post he pre (fun y hy => h y (List.mem_cons_of_mem _ hy))]
    simp

/-! ## The render flags across banks -/

theorem status_loop_append (st : CStr → Nat → Nat) (all : Bool) (name : Option CStr) :
    ∀ (l1 l2 : List udevice) (i : Nat) (f : Nat),
      status_loop st all name i (l1 ++ l2) f =
        ((status_loop st all name (i + l1.length) l2 (status_loop st all name i l1 f).1).1,
          (status_loop st all name i l1 f).2 ++
            (status_loop st all name (i + l1.length) l2 (status_loop st all name i l1 f).1).2)
  | [], l2, i, f => by simp [status_loop]
  | dev :: rest, l2, i, f => by
    simp only [List.cons_append, status_loop, List.length_cons, List.append_eq]
    rw [status_loop_append st all name rest l2 (i + 1) _]
    have : i + 1 + rest.length = i + (rest.length + 1) := by omega
    rw [this]
    simp

theorem status_loop_flags (st : CStr → Nat → Nat) (all : Bool) (name : Option CStr) :
    ∀ (devs : List udevice) (i : Nat) (f : Nat), (show_all f = false ∨ all = true) →
      (newline_pending (status_loop st all name i devs f).1 = true ↔
        (newline_pending f = true ∨ ∃ j, header_printed st all name i devs j = true))
  | [], _, _, _ => by simp [status_loop, header_printed]
  | dev :: rest, i, f, ha => by
    have h := status_bank_render st all name i dev f ha
    simp only [status_loop, header_printed, Bool.or_eq_true, Bool.and_eq_true,
      decide_eq_true_eq]
    rw [status_loop_flags st all name rest (i + 1) _ h.2.1, h.2.2, Bool.or_eq_true]
    constructor
    · rintro ((h1 | h1) | ⟨j, hj⟩)
      · exact Or.inl h1
      · exact Or.inr ⟨i, Or.inl ⟨rfl, h1⟩⟩
      · exact Or.inr ⟨j, Or.inr hj⟩
    · rintro (h1 | ⟨j, ⟨_, hj⟩ | hj⟩)
      · exact Or.inl (Or.inl h1)
      · exact Or.inl (Or.inr hj)
      · exact Or.inr ⟨j, hj⟩

theorem newline_pending_zero : newline_pending 0 = false := by decide

theorem show_all_zero : show_all 0 = false := by decide

theorem status_newline_iff (st : CStr → Nat → Nat) (all : Bool) (name : Option CStr)
    (devs : List udevice) (i : Nat) :
    Ev.newline i ∈ (status_loop st all name 0 devs 0).2 ↔
      ((∃ nm, Ev.bank i nm ∈ (status_loop st all name 0 devs 0).2) ∧
        ∃ j nm, j < i ∧ Ev.bank j nm ∈ (status_loop st all name 0 devs 0).2) := by
  rw [status_loop_render st all name devs 0 0 (Or.inl show_all_zero), newline_pending_zero,
    mem_status_render_newline, mem_status_render_header]
  simp only [Bool.false_eq_true, false_or]
  constructor
  · rintro ⟨h1, j, hj, h2⟩
    obtain ⟨nm, hnm⟩ := (mem_status_render_header st all name devs false 0 j).2 h2
    exact ⟨h1, j, nm, hj, hnm⟩
  · rintro ⟨h1, j, nm, hj, h2⟩
    exact ⟨h1, j, hj, (mem_status_render_header st all name devs false 0 j).1 ⟨nm, h2⟩⟩

theorem countP_bank_render (st : CStr → Nat → Nat) (all : Bool) (name : Option CStr)
    (seen : Bool) (k : Nat) (dev : udevice) :
    (bank_render st all name seen k dev).countP Ev.isHeader =
        (if bank_has_header st all name k dev = true then 1 else 0) ∧
      (bank_render st all name seen k dev).countP Ev.isNewline =
        (if (bank_has_header st all name k dev && seen) = true then 1 else 0) := by
  have hp : ∀ (bn : Option CStr) (offs : List Int),
      (pin_part all k dev bn offs).countP Ev.isHeader = 0 ∧
        (pin_part all k dev bn offs).countP Ev.isNewline = 0 := by
    intro bn offs
    constructor <;> rw [List.countP_eq_zero] <;> intro e he <;>
      rcases mem_pin_part all k dev bn offs e he with ⟨o, h⟩ | ⟨o, h⟩
    · rw [h]; simp [Ev.isHeader]
    · rcases show_line_cases k dev bn o with h1 | ⟨l, h1⟩ <;> rw [h, h1] <;>
        simp [Ev.isHeader]
    · rw [h]; simp [Ev.isNewline]
    · rcases show_line_cases k dev bn o with h1 | ⟨l, h1⟩ <;> rw [h, h1] <;>
        simp [Ev.isNewline]
  unfold bank_render bank_has_header
  by_cases hc : dev.gpio_count ≠ 0 ∧ bank_matches name dev.bank_name = true
  · rw [if_pos hc]
    cases hbn : dev.bank_name with
    | none =>
      simp only [(hp none _).1, (hp none _).2, Option.isSome_none, Bool.and_false,
        Bool.false_and, Bool.false_eq_true, if_false, and_self]
    | some nm =>
      rw [hbn] at hc
      have h1 : (header_events k nm seen).countP Ev.isHeader = 1 := by
        unfold header_events
        cases seen <;> simp [Ev.isHeader]
      have h2 : (header_events k nm seen).countP Ev.isNewline = (if seen = true then 1 else 0) := by
        unfold header_events
        cases seen <;> simp [Ev.isNewline]
      simp only [countP_insert_header, (hp (some nm) _).1, (hp (some nm) _).2, h1, h2,
        Nat.zero_add, hc.1, hc.2, ne_eq, not_false_eq_true, decide_True, Bool.true_and,
        Option.isSome_some, Bool.and_true, true_and]
      cases (pin_part all k dev (some nm) (shown_offsets st name dev)).any Ev.isPinEntry <;>
        cases seen <;> simp
  · rw [if_neg hc]
    have hf : (decide (dev.gpio_count ≠ 0) && bank_matches name dev.bank_name) = false := by
      cases h1 : decide (dev.gpio_count ≠ 0) <;> cases h2 : bank_matches name dev.bank_name
        <;> simp_all
    simp only [hf, Bool.false_and, Bool.false_eq_true, if_false, List.countP_nil, and_self]

theorem countP_status_render (st : CStr → Nat → Nat) (all : Bool) (name : Option CStr) :
    ∀ (devs : List udevice) (seen : Bool) (k : Nat),
      (status_render st all name seen k devs).countP Ev.isNewline +
          (if seen = true then 0
            else if (status_render st all name seen k devs).countP Ev.isHeader = 0 then 0
            else 1) =
        (status_render st all name seen k devs).countP Ev.isHeader
  | [], seen, _ => by cases seen <;> simp [status_render]
  | dev :: rest, seen, k => by
    have hb := countP_bank_render st all name seen k dev
    have ih := countP_status_render st all name rest
      (seen || bank_has_header st all name k dev) (k + 1)
    simp only [status_render, List.countP_append]
    rw [hb.1, hb.2]
    clear hb
    cases seen <;> cases hh : bank_has_header st all name k dev <;>
      simp only [hh, Bool.or_false, Bool.or_true, Bool.false_or, Bool.true_or,
        Bool.and_true, Bool.and_false, Bool.false_eq_true, if_true, if_false,
        Nat.zero_add, Nat.add_zero] at ih ⊢ <;>
      first | omega | (split_ifs at ih ⊢ <;> omega)

theorem status_render_header_bank (st : CStr → Nat → Nat) (all : Bool)
    (name : Option CStr) (j : Nat) (nm : CStr) :
    ∀ (devs : List udevice) (seen : Bool) (k : Nat),
      Ev.bank j nm ∈ status_render st all name seen k devs →
        ∃ p dev, devs.get? p = some dev ∧ j = k + p ∧ dev.bank_name = some nm ∧
          bank_has_header st all name j dev = true
  | [], _, _, h => by simp [status_render] at h
  | dev :: rest, seen, k, h => by
    simp only [status_render, List.mem_append, mem_bank_render_header] at h
    rcases h with ⟨h1, h2, h3⟩ | h
    · exact ⟨0, dev, rfl, by omega, h2, by rw [h1]; exact h3⟩
    · obtain ⟨p, d, hp, hj, hn, hh⟩ := status_render_header_bank st all name j nm rest _ _ h
      exact ⟨p + 1, d, hp, by omega, hn, hh⟩

/-! ## Separating newlines on the console -/

theorem header_follows_of_not_newline (a b : Ev) (h : a.isNewline = false) :
    header_follows a b := by
  intro i hi
  rw [hi] at h
  cases h

theorem header_follows_newline (i : Nat) (name : CStr) :
    header_follows (Ev.newline i) (Ev.bank i name) := by
  intro j hj
  cases hj
  exact ⟨name, rfl⟩

theorem show_line_not_newline (i : Nat) (dev : udevice) (bn : Option CStr) (o : Int) :
    (show_line i dev bn o).isNewline = false := by
  rcases show_line_cases i dev bn o with h | ⟨l, h⟩ <;> rw [h] <;> rfl

theorem sep_append (l1 l2 : List Ev)
    (h1 : List.Chain' header_follows l1 ∧ ∀ x ∈ l1.getLast?, Ev.isNewline x = false)
    (h2 : List.Chain' header_follows l2 ∧ ∀ x ∈ l2.getLast?, Ev.isNewline x = false) :
    List.Chain' header_follows (l1 ++ l2) ∧
      ∀ x ∈ (l1 ++ l2).getLast?, Ev.isNewline x = false := by
  constructor
  · exact List.Chain'.append h1.1 h2.1
      (fun x hx y _ => header_follows_of_not_newline x y (h1.2 x hx))
  · intro x hx
    rw [List.getLast?_append] at hx
    cases h : l2.getLast? with
    | none =>
      rw [h] at hx
      exact h1.2 x hx
    | some y =>
      rw [h] at hx
      exact h2.2 x (by rw [h]; exact hx)

theorem sep_nil : List.Chain' header_follows ([] : List Ev) ∧
    ∀ x ∈ ([] : List Ev).getLast?, Ev.isNewline x = false :=
  ⟨List.chain'_nil, fun x hx => by cases hx⟩

theorem show_header_sep (i : Nat) (bn : Option CStr) (f : Nat) (o : Int) :
    List.Chain' header_follows (Ev.show_gpio i o :: (show_header i bn f).2) ∧
      ∀ x ∈ (Ev.show_gpio i o :: (show_header i bn f).2).getLast?, Ev.isNewline x = false := by
  have hm : ∀ b, header_follows (Ev.show_gpio i o) b :=
    fun b => header_follows_of_not_newline _ b rfl
  unfold show_header
  cases bn with
  | none =>
    exact ⟨List.chain'_singleton _, fun x hx => by cases hx; rfl⟩
  | some name =>
    simp only
    split
    · split
      · refine ⟨?_, ?_⟩
        · exact List.chain'_cons.2 ⟨hm _, List.chain'_cons.2
            ⟨header_follows_newline i name, List.chain'_singleton _⟩⟩
        · intro x hx
          cases hx
          rfl
      · refine ⟨?_, ?_⟩
        · exact List.chain'_cons.2 ⟨hm _, List.chain'_singleton _⟩
        · intro x hx
          cases hx
          rfl
    · exact ⟨List.chain'_singleton _, fun x hx => by cases hx; rfl⟩

theorem show_gpio_sep (i : Nat) (dev : udevice) (bn : Option CStr) (o : Int) (f : Nat) :
    List.Chain' header_follows (show_gpio i dev bn o f).2 ∧
      ∀ x ∈ (show_gpio i dev bn o f).2.getLast?, Ev.isNewline x = false := by
  unfold show_gpio
  split
  · exact ⟨List.chain'_singleton _, fun x hx => by cases hx; rfl⟩
  · have h := sep_append (Ev.show_gpio i o :: (show_header i bn f).2)
      [show_line i dev bn o] (show_header_sep i bn f o)
      ⟨List.chain'_singleton _, fun x hx => by
        cases hx
        exact show_line_not_newline i dev bn o⟩
    exact h

theorem show_pins_sep (i : Nat) (dev : udevice) (bn : Option CStr) :
    ∀ (offs : List Int) (f : Nat),
      List.Chain' header_follows (show_pins i dev bn offs f).2 ∧
        ∀ x ∈ (show_pins i dev bn offs f).2.getLast?, Ev.isNewline x = false
  | [], _ => sep_nil
  | o :: rest, f => by
    simp only [show_pins]
    exact sep_append _ _ (show_gpio_sep i dev bn o f) (show_pins_sep i dev bn rest _)

theorem status_bank_sep (st : CStr → Nat → Nat) (all : Bool) (name : Option CStr)
    (i : Nat) (dev : udevice) (f : Nat) :
    List.Chain' header_follows (status_bank st all name i dev f).2 ∧
      ∀ x ∈ (status_bank st all name i dev f).2.getLast?, Ev.isNewline x = false := by
  unfold status_bank
  split
  · exact sep_nil
  · simp only
    rw [status_pins_eq]
    split
    · exact show_pins_sep i dev dev.bank_name _ _
    · exact sep_nil

theorem status_loop_sep (st : CStr → Nat → Nat) (all : Bool) (name : Option CStr) :
    ∀ (devs : List udevice) (i : Nat) (f : Nat),
      List.Chain' header_follows (status_loop st all name i devs f).2 ∧
        ∀ x ∈ (status_loop st all name i devs f).2.getLast?, Ev.isNewline x = false
  | [], _, _ => sep_nil
  | dev :: rest, i, f => by
    simp only [status_loop]
    exact sep_append _ _ (status_bank_sep st all name i dev f)
      (status_loop_sep st all name rest (i + 1) _)

theorem newline_then_header (l : List Ev) (h : List.Chain' header_follows l)
    (hl : ∀ x ∈ l.getLast?, Ev.isNewline x = false) (pre post : List Ev) (i : Nat)
    (hd : l = pre ++ Ev.newline i :: post) :
    ∃ name rest, post = Ev.bank i name :: rest := by
  cases post with
  | nil =>
    have h1 := hl (Ev.newline i) (by rw [hd, List.getLast?_concat]; rfl)
    cases h1
  | cons b rest =>
    rw [hd] at h
    obtain ⟨name, hb⟩ := (List.chain'_append_cons_cons.1 h).2.1 i rfl
    exact ⟨name, rest, by rw [hb]⟩

theorem mem_blank_lines :
    ∀ (l : List Ev) (fresh : Bool) (e : Ev), e ∈ blank_lines fresh l →
      e ∈ l ∧ e.isNewline = true
  | [], _, _, h => by cases h
  | a :: rest, fresh, e, h => by
    unfold blank_lines at h
    split at h
    · rw [List.mem_append] at h
      rcases h with h | h
      · split at h
        · rename_i hc
          rw [List.mem_singleton] at h
          rw [h]
          simp only [Bool.and_eq_true] at hc
          exact ⟨List.mem_cons_self _ _, hc.1⟩
        · cases h
      · have ih := mem_blank_lines rest _ e h
        exact ⟨List.mem_cons_of_mem _ ih.1, ih.2⟩
    · have ih := mem_blank_lines rest _ e h
      exact ⟨List.mem_cons_of_mem _ ih.1, ih.2⟩

theorem blank_lines_all (l : List Ev) :
    (∀ e ∈ l, e.isOutput = true → e.endsLine = true) →
      blank_lines true l = l.filter Ev.isNewline := by
  induction l with
  | nil => intro _; rfl
  | cons a rest ih =>
    intro h
    have ih1 := ih (fun e he => h e (List.mem_cons_of_mem _ he))
    unfold blank_lines
    cases ho : a.isOutput
    · have hn : a.isNewline = false := by
        cases a <;> first | rfl | cases ho
      simp only [Bool.false_eq_true, if_false, List.filter_cons, hn]
      exact ih1
    · rw [h a (List.mem_cons_self _ _) ho]
      simp only [if_true, Bool.and_true, List.filter_cons]
      cases a.isNewline
      · simpa using ih1
      · simpa using ih1

theorem blank_lines_fresh :
    ∀ (l : List Ev) (fresh : Bool),
      (∀ j, (l.filter Ev.isOutput).head? ≠ some (Ev.newline j)) →
        blank_lines fresh l = blank_lines true l
  | [], _, _ => rfl
  | a :: rest, fresh, h => by
    unfold blank_lines
    cases ho : a.isOutput
    · simp only [Bool.false_eq_true, if_false]
      apply blank_lines_fresh rest fresh
      intro j
      have := h j
      simpa [List.filter_cons, ho] using this
    · have hn : a.isNewline = false := by
        cases a with
        | newline j =>
          have := h j
          simp [List.filter_cons, ho] at this
        | _ => rfl
      simp only [if_true, hn, Bool.false_and, Bool.false_eq_true, if_false]

theorem bank_render_quiet (st : CStr → Nat → Nat) (all : Bool) (name : Option CStr)
    (seen : Bool) (k : Nat) (dev : udevice)
    (h : (bank_render st all name seen k dev).filter Ev.isOutput = []) :
    bank_has_header st all name k dev = false := by
  cases hh : bank_has_header st all name k dev
  · rfl
  · have hs : dev.bank_name.isSome = true := by
      unfold bank_has_header at hh
      simp only [Bool.and_eq_true] at hh
      exact hh.1.2
    obtain ⟨nm, hnm⟩ := Option.isSome_iff_exists.1 hs
    have hm := (mem_bank_render_header st all name seen k dev k nm).2 ⟨rfl, hnm, hh⟩
    have : Ev.bank k nm ∈ (bank_render st all name seen k dev).filter Ev.isOutput :=
      List.mem_filter.2 ⟨hm, rfl⟩
    rw [h] at this
    cases this

theorem status_render_first (st : CStr → Nat → Nat) (all : Bool) (name : Option CStr) :
    ∀ (devs : List udevice) (seen : Bool) (k j : Nat),
      ((status_render st all name seen k devs).filter Ev.isOutput).head?
        = some (Ev.newline j) → seen = true
  | [], _, _, _, h => by cases h
  | dev :: rest, seen, k, j, h => by
    simp only [status_render, List.filter_append] at h
    cases hb : (bank_render st all name seen k dev).filter Ev.isOutput with
    | nil =>
      rw [hb, List.nil_append, bank_render_quiet st all name seen k dev hb,
        Bool.or_false] at h
      exact status_render_first st all name rest seen (k + 1) j h
    | cons a l =>
      rw [hb] at h
      have ha : a = Ev.newline j := by
        simpa using h
      have hmem : Ev.newline j ∈ bank_render st all name seen k dev := by
        have : a ∈ (bank_render st all name seen k dev).filter Ev.isOutput := by
          rw [hb]; exact List.mem_cons_self _ _
        rw [ha] at this
        exact (List.mem_filter.1 this).1
      exact ((mem_bank_render_newline st all name seen k dev j).1 hmem).2.1

/-- C16 fails as stated: with the banks `U` (2 pins, both unused) and `A` registered
and no `-a`, bank `U` displays no pin and bank `A` does, yet no separating newline is
written before the header of `A` and the console shows no blank line; and after a bank
that printed its header (bank `A` from clear flags) the newline-pending flag is set and
is still set once the next bank has started, so a bank does not always start in the
state "clean". -/
theorem blank_line_counterexample :
    (do_gpio_status strtoul_dec [bankU, bankA] 0 false none).2 =
        [Ev.show_gpio 0 0, Ev.show_gpio 0 1, Ev.show_gpio 1 0, Ev.bank 1 "A".data,
          Ev.pin 1 0 (Line.fields (some "A".data) 0 (some "input".data) 1),
          Ev.show_gpio 1 1, Ev.show_gpio 1 2,
          Ev.pin 1 2 (Line.fields (some "A".data) 2 (some "input".data) 1)] ∧
      Ev.newline 1 ∉ (do_gpio_status strtoul_dec [bankU, bankA] 0 false none).2 ∧
      blank_lines true (do_gpio_status strtoul_dec [bankU, bankA] 0 false none).2 = [] ∧
      newline_pending (status_bank strtoul_dec false none 0 bankA 0).1 = true ∧
      newline_pending (bank_flags false (status_bank strtoul_dec false none 0 bankA 0).1)
        = true := by
  decide

/-- C16, amended: every bank starts with the bank header pending, and the start of a
bank does not touch the newline-pending flag; when bank `k` starts (after the banks
`pre` before it) the newline-pending flag is set iff one of the earlier banks printed
its header. The separating newline (`putc('\n')`, line 62) is written for bank `i` iff
bank `i` prints its header and some earlier bank printed its header, and the console
write that follows it is the header of bank `i`. A separating newline shows as a blank
line when the console is at the start of a line (`blank_lines`); in a run in which
every console write ends its line (all do except `<unknown>`) each separating newline
does, whatever the state of the console at the start: there the separator leaves a
blank line before the header of bank `i` iff bank `i` prints its header and some earlier
bank printed its header. -/
theorem newline_pending_across_banks (st : CStr → Nat → Nat) (devs : List udevice)
    (uc_ret : Int) (all : Bool) (gpio_name : Option CStr) :
    (∀ f, bank_pending (bank_flags all f) = true ∧
      newline_pending (bank_flags all f) = newline_pending f) ∧
    (∀ pre post, devs = pre ++ post →
      (do_gpio_status st devs uc_ret all gpio_name).2 =
        (status_loop st all (norm_name gpio_name) 0 pre 0).2 ++
          (status_loop st all (norm_name gpio_name) pre.length post
            (status_loop st all (norm_name gpio_name) 0 pre 0).1).2 ∧
      (newline_pending (status_loop st all (norm_name gpio_name) 0 pre 0).1 = true ↔
        ∃ j nm, Ev.bank j nm ∈ (status_loop st all (norm_name gpio_name) 0 pre 0).2)) ∧
    (∀ i, Ev.newline i ∈ (do_gpio_status st devs uc_ret all gpio_name).2 ↔
      ((∃ nm, Ev.bank i nm ∈ (do_gpio_status st devs uc_ret all gpio_name).2) ∧
        ∃ j nm, j < i ∧ Ev.bank j nm ∈ (do_gpio_status st devs uc_ret all gpio_name).2)) ∧
    (∀ pre i post,
      (do_gpio_status st devs uc_ret all gpio_name).2 = pre ++ Ev.newline i :: post →
        ∃ nm rest, post = Ev.bank i nm :: rest) ∧
    (∀ fresh e, e ∈ blank_lines fresh (do_gpio_status st devs uc_ret all gpio_name).2 →
      e ∈ (do_gpio_status st devs uc_ret all gpio_name).2 ∧ e.isNewline = true) ∧
    ((∀ e ∈ (do_gpio_status st devs uc_ret all gpio_name).2,
        e.isOutput = true → e.endsLine = true) →
      ∀ fresh i,
        (Ev.newline i ∈ blank_lines fresh (do_gpio_status st devs uc_ret all gpio_name).2 ↔
          ((∃ nm, Ev.bank i nm ∈ (do_gpio_status st devs uc_ret all gpio_name).2) ∧
            ∃ j nm, j < i ∧
              Ev.bank j nm ∈ (do_gpio_status st devs uc_ret all gpio_name).2))) := by
  have hr : (do_gpio_status st devs uc_ret all gpio_name).2 =
      status_render st all (norm_name gpio_name) false 0 devs := by
    unfold do_gpio_status
    rw [status_loop_render st all (norm_name gpio_name) devs 0 0 (Or.inl show_all_zero),
      newline_pending_zero]
  have hsep := status_loop_sep st all (norm_name gpio_name) devs 0 0
  refine ⟨fun f => ⟨bank_pending_bank_flags all f, newline_pending_bank_flags all f⟩,
    ?_, ?_, ?_, ?_, ?_⟩
  · intro pre post hd
    constructor
    · unfold do_gpio_status
      rw [hd, status_loop_append]
      simp
    · rw [status_loop_flags st all (norm_name gpio_name) pre 0 0 (Or.inl show_all_zero),
        newline_pending_zero,
        status_loop_render st all (norm_name gpio_name) pre 0 0 (Or.inl show_all_zero),
        newline_pending_zero]
      simp only [Bool.false_eq_true, false_or]
      constructor
      · rintro ⟨j, hj⟩
        obtain ⟨nm, hnm⟩ :=
          (mem_status_render_header st all (norm_name gpio_name) pre false 0 j).2 hj
        exact ⟨j, nm, hnm⟩
      · rintro ⟨j, nm, h⟩
        exact ⟨j, (mem_status_render_header st all (norm_name gpio_name) pre false 0 j).1
          ⟨nm, h⟩⟩
  · intro i
    exact status_newline_iff st all (norm_name gpio_name) devs i
  · intro pre i post hd
    exact newline_then_header _ hsep.1 hsep.2 pre post i hd
  · intro fresh e he
    exact mem_blank_lines _ fresh e he
  · intro hends fresh i
    have hfirst : ∀ j, ((do_gpio_status st devs uc_ret all gpio_name).2.filter
        Ev.isOutput).head? ≠ some (Ev.newline j) := by
      intro j hj
      rw [hr] at hj
      have := status_render_first st all (norm_name gpio_name) devs false 0 j hj
      cases this
    rw [blank_lines_fresh _ fresh hfirst, blank_lines_all _ hends, List.mem_filter]
    have hc := status_newline_iff st all (norm_name gpio_name) devs i
    constructor
    · intro h
      exact hc.1 h.1
    · intro h
      exact ⟨hc.2 h, rfl⟩

/-- C16, amended, at the banks `A` and `AB`: bank `A` prints its header, so the
newline-pending flag is set when bank `AB` starts, the separating newline is written
before the header of `AB`, and it shows as a blank line. -/
theorem newline_pending_across_banks_witness :
    newline_pending (status_loop strtoul_dec false (norm_name none) 0 [bankA] 0).1 = true ∧
      Ev.newline 1 ∈ (do_gpio_status strtoul_dec [bankA, bankAB] 0 false none).2 ∧
      (∀ e ∈ (do_gpio_status strtoul_dec [bankA, bankAB] 0 false none).2,
        e.isOutput = true → e.endsLine = true) ∧
      Ev.newline 1 ∈
        blank_lines false (do_gpio_status strtoul_dec [bankA, bankAB] 0 false none).2 :=
  have h := newline_pending_across_banks strtoul_dec [bankA, bankAB] 0 false none
  ⟨((h.2.1 [bankA] [bankAB] rfl).2).2 ⟨0, "A".data, by decide⟩,
    (h.2.2.1 1).2 ⟨⟨"AB".data, by decide⟩, 0, "A".data, by decide, by decide⟩,
    by decide,
    (h.2.2.2.2.2 (by decide) false 1).2
      ⟨⟨"AB".data, by decide⟩, 0, "A".data, by decide, by decide⟩⟩

/-- The events of `do_gpio_status` are those of the rendering policy (`status_render`):
per bank, the events of its shown pins with the header of a named bank put right before
the first pin entry, preceded by the separating newline (`putc('\n')`) when an earlier
bank printed its header. Hence each bank's header is printed at most once, only for a
registered bank that has this name and displays at least one pin, and right before
that bank's first pin entry; and the separating newline is written for bank `i` iff
bank `i` prints its header and some earlier bank printed its header, so none precedes
the first header and there is one separating newline less than there are headers. -/
theorem status_headers_and_separators (st : CStr → Nat → Nat) (devs : List udevice)
    (uc_ret : Int) (all : Bool) (gpio_name : Option CStr) :
    (do_gpio_status st devs uc_ret all gpio_name).2 =
        status_render st all (norm_name gpio_name) false 0 devs ∧
    (∀ i, (do_gpio_status st devs uc_ret all gpio_name).2.countP (Ev.isHeaderOf i) ≤ 1) ∧
    (∀ i nm, Ev.bank i nm ∈ (do_gpio_status st devs uc_ret all gpio_name).2 →
      ∃ dev, devs.get? i = some dev ∧ dev.bank_name = some nm ∧
        bank_has_header st all (norm_name gpio_name) i dev = true) ∧
    (∀ (hdr pre : List Ev) (e : Ev) (post : List Ev), e.isPinEntry = true →
      (∀ x ∈ pre, x.isPinEntry = false) →
      insert_header hdr (pre ++ e :: post) = pre ++ hdr ++ e :: post) ∧
    (∀ (hdr l : List Ev), l.any Ev.isPinEntry = false → insert_header hdr l = l) ∧
    (∀ i, Ev.newline i ∈ (do_gpio_status st devs uc_ret all gpio_name).2 ↔
      ((∃ nm, Ev.bank i nm ∈ (do_gpio_status st devs uc_ret all gpio_name).2) ∧
        ∃ j nm, j < i ∧ Ev.bank j nm ∈ (do_gpio_status st devs uc_ret all gpio_name).2)) ∧
    (do_gpio_status st devs uc_ret all gpio_name).2.countP Ev.isNewline =
      (do_gpio_status st devs uc_ret all gpio_name).2.countP Ev.isHeader - 1 := by
  have h1 : (do_gpio_status st devs uc_ret all gpio_name).2 =
      status_render st all (norm_name gpio_name) false 0 devs := by
    unfold do_gpio_status
    rw [status_loop_render st all (norm_name gpio_name) devs 0 0 (Or.inl show_all_zero),
      newline_pending_zero]
  refine ⟨h1, ?_, ?_, ?_, ?_, ?_, ?_⟩
  · intro i
    rw [h1]
    have := countP_header_status_render st all (norm_name gpio_name) i devs false 0
    rw [if_pos (Nat.zero_le i)] at this
    exact this
  · intro i nm h
    rw [h1] at h
    obtain ⟨p, dev, hp, hi, hn, hh⟩ :=
      status_render_header_bank st all (norm_name gpio_name) i nm devs false 0 h
    rw [Nat.zero_add] at hi
    rw [hi]
    rw [hi] at hh
    exact ⟨dev, hp, hn, hh⟩
  · intro hdr pre e post he hpre
    exact insert_header_first hdr e post he pre hpre
  · intro hdr l hl
    exact insert_header_no_entry hdr l hl
  · intro i
    exact status_newline_iff st all (norm_name gpio_name) devs i
  · rw [h1]
    have := countP_status_render st all (norm_name gpio_name) devs false 0
    simp only [Bool.false_eq_true, if_false] at this
    split at this <;> omega

/-- The rendering at the banks `U`, `A`, `E` and `AB` without `-a`: bank `U` displays
nothing and prints no header, the header of `A` comes first without a separating
newline, and the header of `AB` follows one. -/
theorem status_headers_and_separators_witness :
    (do_gpio_status strtoul_dec [bankU, bankA, bankE, bankAB] 0 false none).2 =
      [Ev.show_gpio 0 0, Ev.show_gpio 0 1, Ev.show_gpio 1 0, Ev.bank 1 "A".data,
        Ev.pin 1 0 (Line.fields (some "A".data) 0 (some "input".data) 1),
        Ev.show_gpio 1 1, Ev.show_gpio 1 2,
        Ev.pin 1 2 (Line.fields (some "A".data) 2 (some "input".data) 1),
        Ev.show_gpio 3 0, Ev.newline 3, Ev.bank 3 "AB".data,
        Ev.pin 3 0 (Line.fields (some "AB".data) 0 (some "unknown".data) 0),
        Ev.show_gpio 3 1,
        Ev.pin 3 1 (Line.fields (some "AB".data) 1 (some "unknown".data) 0)] ∧
      Ev.newline 3 ∈ (do_gpio_status strtoul_dec [bankU, bankA, bankE, bankAB] 0 false
        none).2 :=
  have h := status_headers_and_separators strtoul_dec [bankU, bankA, bankE, bankAB] 0
    false none
  ⟨h.1.trans (by decide),
    (h.2.2.2.2.2.1 3).2 ⟨⟨"AB".data, by decide⟩, 1, "A".data, by decide, by decide⟩⟩

/-- C18, the code at the failing input: with the banks `X` (1 pin whose `get_state`
reports an error) and `A` registered and `-a`, bank `X` prints its header and then
`<unknown>` without ending the line (line 73 returns before the `puts("\n")` of line
81), so the `putc('\n')` written before the header of `A` only ends the line of
`<unknown>`: an earlier bank printed its header, yet no blank line precedes the header
of `A`, whatever the state of the console at the start. With the banks the other way
round the separating newline follows a status line and does show as a blank line. -/
theorem status_unknown_no_blank_line :
    (do_gpio_status strtoul_dec [bankX, bankA] 0 true none).2 =
        [Ev.show_gpio 0 0, Ev.bank 0 "X".data, Ev.unknown 0 0,
          Ev.show_gpio 1 0, Ev.newline 1, Ev.bank 1 "A".data,
          Ev.pin 1 0 (Line.fields (some "A".data) 0 (some "input".data) 1),
          Ev.show_gpio 1 1,
          Ev.pin 1 1 (Line.fields (some "A".data) 1 (some "unused".data) 1),
          Ev.show_gpio 1 2,
          Ev.pin 1 2 (Line.fields (some "A".data) 2 (some "input".data) 1)] ∧
      Ev.endsLine (Ev.unknown 0 0) = false ∧
      blank_lines true (do_gpio_status strtoul_dec [bankX, bankA] 0 true none).2 = [] ∧
      blank_lines false (do_gpio_status strtoul_dec [bankX, bankA] 0 true none).2 = [] ∧
      blank_lines true (do_gpio_status strtoul_dec [bankA, bankX] 0 true none).2
        = [Ev.newline 1] := by
  decide

end CmdGpio
